import Mathlib

/-!
# minisync: the synchronisation engine

A shallow embedding of the event handler (`minisync/monitor.go`), the object
store adapter (`minisync/minio.go`) and the periodic full sync cycle
(`minisyncService.go`), with the theorems that settle the specification's
claims about them.

The Go code talks to three things outside itself: the local file system
(`os.Stat`, `filepath.Walk`), the object store (the MinIO SDK) and the
directory watcher (`fsnotify`).  The local file system is a value `LocalFS`,
the bucket and the watch set are fields of `State`, and whether an external
call succeeds is decided by an `Oracle` that is consulted once per call.
-/

namespace Minisync

/-! ## Values -/

deriving instance DecidableEq for Except

/-- A Go `error` value, reduced to what the program looks at: `Code` is
`minio.ToErrorResponse(err).Code`, `NotExist` is `os.IsNotExist(err)`, and
`Message` is the text `%v` prints. -/
structure GoError where
  Code : String
  NotExist : Bool
  Message : String
deriving DecidableEq, Repr

/-- What `os.FileInfo` offers: `Size()`, `ModTime()` (an instant) and `IsDir()`. -/
structure FileInfo where
  Size : Int
  ModTime : Int
  IsDir : Bool
deriving DecidableEq, Repr

/-- The fields of `minio.ObjectInfo` the program reads.  `LastModified` is an
instant; `Err` is set on the entries by which a listing reports a failure. -/
structure ObjectInfo where
  Key : String
  Size : Int
  LastModified : Int
  Err : Option GoError
deriving DecidableEq, Repr

/-- An object the bucket holds: its key, size and the time the store stamped on
it when it was stored. -/
structure RemoteObject where
  Key : String
  Size : Int
  LastModified : Int
deriving DecidableEq, Repr

/-- The `minio.ObjectInfo` by which the store reports an object. -/
def RemoteObject.info (r : RemoteObject) : ObjectInfo :=
  { Key := r.Key, Size := r.Size, LastModified := r.LastModified, Err := none }

/-- One visit of `filepath.Walk`: the arguments `(path, info, err)` handed to the
walk function; `info = .error err` stands for a visit with `err != nil`. -/
structure WalkEntry where
  path : String
  info : Except GoError FileInfo
deriving DecidableEq

/-- The local file system as the program observes it.  `Stat` is `os.Stat`.
`Walk root` is the sequence of visits `filepath.Walk(root, fn)` makes, in its
lexical order, for as long as `fn` returns `nil` (the walk functions of this
program return either `nil` or an error, never `SkipDir`, so the walk is this
sequence cut at the first error). -/
structure LocalFS where
  Stat : String → Except GoError FileInfo
  Walk : String → List WalkEntry

/-- The result of one external call: it succeeds (`stamp` is the store's clock
at that moment, which becomes `LastModified` of an uploaded object) or fails. -/
inductive Outcome where
  | ok (stamp : Int)
  | fail (err : GoError)
deriving DecidableEq, Repr

/-- The outcomes of the external calls, by the number of the call. -/
abbrev Oracle := Nat → Outcome

/-- The external calls the engine issues. -/
inductive Call where
  | StatObject (key : String)
  | FPutObject (key filePath : String)
  | RemoveObject (key : String)
  | ListObjects (pfx : String)
  | WatcherAdd (path : String)
deriving DecidableEq, Repr

/-- Everything the engine changes: the bucket, the watch set, the number of
external calls made, the calls in the order they were issued, and the two logs
(`log` is the `log` package, `elog` the Windows event log). -/
structure State where
  objects : List RemoteObject
  watched : List String
  tick : Nat
  trace : List Call
  log : List String
  elog : List String
deriving DecidableEq, Repr

/-- `log.Println` and `log.Printf`: one more line. -/
def State.logln (s : State) (line : String) : State :=
  { s with log := s.log ++ [line] }

/-- `elog.Info(1, line)`. -/
def State.eloginfo (s : State) (line : String) : State :=
  { s with elog := s.elog ++ [line] }

/-- An external call is issued: it is recorded and the oracle moves on. -/
def State.issue (s : State) (c : Call) : State :=
  { s with trace := s.trace ++ [c], tick := s.tick + 1 }

/-! ## `path/filepath` (Unix flavour, separator `/`)

`filepath.Clean`, `filepath.Rel` and `filepath.Join` belong to the Go standard
library, not to this repository.  They are modelled here after the library's
implementation for Unix paths: `Clean` element by element (the library works on
bytes, with the same effect), `Rel` with the library's loop over the two cleaned
paths. -/

/-- The path separator. -/
def Separator : Char := '/'

/-- The elements of a path: the separator-free runs between separators, empty
ones included. -/
def splitSep : List Char → List (List Char)
  | [] => [[]]
  | c :: cs =>
    if c = Separator then [] :: splitSep cs
    else
      match splitSep cs with
      | [] => [[c]]
      | e :: es => (c :: e) :: es

/-- One element read by `Clean`; `out` holds the elements written so far, last
first.  Empty and `.` elements are dropped; `..` removes the element before it
when there is one that is not itself `..`, is dropped at the root, and is kept
otherwise. -/
def cleanElem (rooted : Bool) (out : List (List Char)) (e : List Char) : List (List Char) :=
  if e = [] ∨ e = ['.'] then out
  else if e = ['.', '.'] then
    match out with
    | top :: rest => if top = ['.', '.'] then e :: out else rest
    | [] => if rooted then [] else [e]
  else e :: out

/-- `filepath.Clean` on characters. -/
def cleanChars (path : List Char) : List Char :=
  match path with
  | [] => ['.']
  | c :: _ =>
    let rooted : Bool := c == Separator
    let out := ((splitSep path).foldl (cleanElem rooted) []).reverse
    let body := List.intercalate [Separator] out
    if rooted then Separator :: body
    else if body = [] then ['.'] else body

/-- `filepath.Clean`. -/
def filepath_Clean (path : String) : String := ⟨cleanChars path.data⟩

/-- The loop of `filepath.Rel` that positions both paths at their first
differing elements.  Returns `(base[b0:bi], base[b0:], targ[t0:])`. -/
def relLoop : Nat → List Char → List Char → List Char × List Char × List Char
  | 0, b, t => ([], b, t)
  | fuel + 1, b, t =>
    if b = [] ∨ t = [] then ([], b, t)
    else
      let be := b.takeWhile (fun c => c != Separator)
      let te := t.takeWhile (fun c => c != Separator)
      if te ≠ be then (be, b, t)
      else
        relLoop fuel ((b.dropWhile (fun c => c != Separator)).tail)
          ((t.dropWhile (fun c => c != Separator)).tail)

/-- `filepath.Rel` on characters; `none` is the error return. -/
def relChars (basepath targpath : List Char) : Option (List Char) :=
  let base := cleanChars basepath
  let targ := cleanChars targpath
  if targ = base then some ['.']
  else
    let base := if base = ['.'] then [] else base
    let baseSlashed : Bool := base.head? == some Separator
    let targSlashed : Bool := targ.head? == some Separator
    if baseSlashed != targSlashed then none
    else
      match relLoop (base.length + 1) base targ with
      | (be, b, t) =>
        if be = ['.', '.'] then none
        else if b ≠ [] then
          let seps := b.count Separator
          let up := ['.', '.'] ++ (List.replicate seps [Separator, '.', '.']).flatten
          some (if t ≠ [] then up ++ Separator :: t else up)
        else some t

/-- `filepath.Rel(basepath, targpath)`. -/
def filepath_Rel (basepath targpath : String) : Except GoError String :=
  match relChars basepath.data targpath.data with
  | some r => .ok ⟨r⟩
  | none =>
    .error { Code := "", NotExist := false,
             Message := "Rel: can't make " ++ targpath ++ " relative to " ++ basepath }

/-- `filepath.Join(a, b)`: the non-empty elements joined by the separator, cleaned. -/
def filepath_Join (a b : String) : String :=
  if a ≠ "" then filepath_Clean (a ++ "/" ++ b)
  else if b ≠ "" then filepath_Clean b
  else ""

/-! ## Clean paths -/

/-- A regular path element: not empty, free of separators, neither `.` nor `..`. -/
def regularElem (e : List Char) : Prop :=
  e ≠ [] ∧ Separator ∉ e ∧ e ≠ ['.'] ∧ e ≠ ['.', '.']

instance : DecidablePred regularElem := fun e => by
  unfold regularElem
  infer_instance

/-- The clean absolute path with the given elements (`/` when there is none). -/
def absPath (elems : List (List Char)) : String :=
  ⟨Separator :: List.intercalate [Separator] elems⟩

/-- The clean relative path with the given elements. -/
def relPath (elems : List (List Char)) : String :=
  ⟨List.intercalate [Separator] elems⟩

/-! ## The object store and the watcher (the SDK calls) -/

/-- The error by which the store answers a `StatObject` for a key it does not hold. -/
def noSuchKey : GoError :=
  { Code := "NoSuchKey", NotExist := false, Message := "The specified key does not exist." }

/-- The error of an upload whose source is a directory. -/
def sourceIsDirectory : GoError :=
  { Code := "", NotExist := false, Message := "read: is a directory" }

/-- The object the bucket holds under `key`, if any. -/
def findObject (objects : List RemoteObject) (key : String) : Option RemoteObject :=
  objects.find? (fun ob => ob.Key == key)

/-- The bucket after an object was stored: it replaces what was under its key. -/
def putObject (objects : List RemoteObject) (r : RemoteObject) : List RemoteObject :=
  r :: objects.filter (fun ob => ob.Key != r.Key)

/-- `Client.StatObject(ctx, bucket, key, opts)`: the object's info, the error
`NoSuchKey` when the bucket has no such key, or the failure the oracle decides. -/
def StatObject (o : Oracle) (key : String) (s : State) : State × Except GoError ObjectInfo :=
  let s1 := s.issue (.StatObject key)
  match o s.tick with
  | .fail err => (s1, .error err)
  | .ok _ =>
    match findObject s.objects key with
    | some ob => (s1, .ok ob.info)
    | none => (s1, .error noSuchKey)

/-- `Client.FPutObject(ctx, bucket, key, filePath, PutObjectOptions{})`: opens and
stats the local file, then stores its content under `key`, replacing what was
there.  The options are empty, so the store learns nothing of the file's
modification time: `LastModified` of the new object is the store's own stamp. -/
def FPutObject (fs : LocalFS) (o : Oracle) (key filePath : String) (s : State) :
    State × Option GoError :=
  let s1 := s.issue (.FPutObject key filePath)
  match fs.Stat filePath with
  | .error err => (s1, some err)
  | .ok info =>
    if info.IsDir then (s1, some sourceIsDirectory)
    else
      match o s.tick with
      | .fail err => (s1, some err)
      | .ok stamp =>
        ({ s1 with objects :=
            putObject s1.objects { Key := key, Size := info.Size, LastModified := stamp } },
          none)

/-- `Client.RemoveObject(ctx, bucket, key, opts)`: removes the object; removing a
key the bucket does not hold succeeds. -/
def RemoveObject (o : Oracle) (key : String) (s : State) : State × Option GoError :=
  let s1 := s.issue (.RemoveObject key)
  match o s.tick with
  | .fail err => (s1, some err)
  | .ok _ => ({ s1 with objects := s1.objects.filter (fun ob => ob.Key != key) }, none)

/-- `Client.ListObjects(ctx, bucket, {Prefix: pfx, Recursive: true})`: what the
returned channel delivers, namely every object whose key starts with `pfx`, or an
entry carrying the error when the listing fails. -/
def ListObjects (o : Oracle) (pfx : String) (s : State) : State × List ObjectInfo :=
  let s1 := s.issue (.ListObjects pfx)
  match o s.tick with
  | .fail err => (s1, [{ Key := "", Size := 0, LastModified := 0, Err := some err }])
  | .ok _ =>
    (s1, (s.objects.filter (fun ob => pfx.data.isPrefixOf ob.Key.data)).map RemoteObject.info)

/-- `watcher.Add(path)`: subscribes to the directory. -/
def WatcherAdd (o : Oracle) (path : String) (s : State) : State × Option GoError :=
  let s1 := s.issue (.WatcherAdd path)
  match o s.tick with
  | .fail err => (s1, some err)
  | .ok _ =>
    ({ s1 with watched := if path ∈ s1.watched then s1.watched else s1.watched ++ [path] }, none)

/-! ## `minisync/minio.go` -/

/-- `MinioClient.UploadFile`. -/
def UploadFile (fs : LocalFS) (o : Oracle) (relativePath filePath : String) (s : State) :
    State × Option GoError :=
  FPutObject fs o relativePath filePath s

/-- `MinioClient.DeleteFile`. -/
def DeleteFile (o : Oracle) (relativePath : String) (s : State) : State × Option GoError :=
  RemoveObject o relativePath s

/-- `MinioClient.CreateFile`. -/
def CreateFile (fs : LocalFS) (o : Oracle) (relativePath filePath : String) (s : State) :
    State × Option GoError :=
  UploadFile fs o relativePath filePath s

/-- `MinioClient.UpdateFile`. -/
def UpdateFile (fs : LocalFS) (o : Oracle) (relativePath filePath : String) (s : State) :
    State × Option GoError :=
  UploadFile fs o relativePath filePath s

/-! ## `minisync/monitor.go` -/

/-- An `fsnotify.Event`: the path and the operation bits. -/
structure Event where
  Name : String
  Op : Nat
deriving DecidableEq, Repr

/-- `fsnotify.Create`. -/
def Create : Nat := 1
/-- `fsnotify.Write`. -/
def Write : Nat := 2
/-- `fsnotify.Remove`. -/
def Remove : Nat := 4
/-- `fsnotify.Rename`. -/
def Rename : Nat := 8
/-- `fsnotify.Chmod`. -/
def Chmod : Nat := 16

/-- `isDir`: the path can be stat'ed and is a directory. -/
def isDir (fs : LocalFS) (path : String) : Bool :=
  match fs.Stat path with
  | .error _ => false
  | .ok info => info.IsDir

/-- The loop of `DeleteDirectory` over what the listing delivers. -/
def deleteListed (o : Oracle) (relativePath : String) : List ObjectInfo → State → State
  | [], s => s
  | object :: rest, s =>
    match object.Err with
    | some err =>
      deleteListed o relativePath rest
        (s.logln ("Error listing objects in directory " ++ relativePath ++ ": " ++ err.Message))
    | none =>
      match DeleteFile o object.Key s with
      | (s1, some err) =>
        deleteListed o relativePath rest
          (s1.logln ("Failed to delete file " ++ object.Key ++ ": " ++ err.Message))
      | (s1, none) => deleteListed o relativePath rest s1

/-- `MinioClient.DeleteDirectory`. -/
def DeleteDirectory (o : Oracle) (relativePath : String) (s : State) : State × Option GoError :=
  match ListObjects o (relativePath ++ "/") s with
  | (s1, objectCh) => (deleteListed o relativePath objectCh s1, none)

/-- `handleEvent`. -/
def handleEvent (fs : LocalFS) (o : Oracle) (sourceFolder : String) (event : Event)
    (s : State) : State :=
  match filepath_Rel sourceFolder event.Name with
  | .error err =>
    s.logln ("Failed to get relative path for " ++ event.Name ++ ": " ++ err.Message)
  | .ok relativePath =>
    if event.Op &&& Create = Create then
      let s := s.logln ("Created file: " ++ event.Name)
      if !isDir fs event.Name then
        match CreateFile fs o relativePath event.Name s with
        | (s1, some err) => s1.logln ("Failed to upload file: " ++ err.Message)
        | (s1, none) => s1
      else
        match WatcherAdd o event.Name s with
        | (s1, some err) => s1.logln ("Failed to watch new directory: " ++ err.Message)
        | (s1, none) => s1
    else if event.Op &&& Write = Write then
      let s := s.logln ("Modified file: " ++ event.Name)
      if !isDir fs event.Name then
        match UpdateFile fs o relativePath event.Name s with
        | (s1, some err) => s1.logln ("Failed to upload file: " ++ err.Message)
        | (s1, none) => s1
      else s
    else if event.Op &&& Remove = Remove then
      let s := s.logln ("Deleted file or directory: " ++ event.Name)
      if !isDir fs event.Name then
        match DeleteFile o relativePath s with
        | (s1, some err) => s1.logln ("Failed to delete file: " ++ err.Message)
        | (s1, none) => s1
      else
        match DeleteDirectory o relativePath s with
        | (s1, some err) =>
          s1.logln ("Failed to delete directory " ++ relativePath ++ " in MinIO: " ++ err.Message)
        | (s1, none) => s1
    else if event.Op &&& Rename = Rename then
      let s := s.logln ("Renamed file or directory: " ++ event.Name)
      if !isDir fs event.Name then
        match DeleteFile o relativePath s with
        | (s1, some err) => s1.logln ("Failed to delete old file after rename: " ++ err.Message)
        | (s1, none) => s1
      else
        match DeleteDirectory o relativePath s with
        | (s1, some err) =>
          s1.logln ("Failed to delete old directory after rename: " ++ err.Message)
        | (s1, none) => s1
    else s

/-! ## `minisyncService.go`: one full sync cycle -/

/-- `compareFiles`. -/
def compareFiles (fs : LocalFS) (localPath : String) (remoteObject : ObjectInfo) (s : State) :
    State × Bool :=
  match fs.Stat localPath with
  | .error err =>
    (s.logln ("Failed to stat local file " ++ localPath ++ ": " ++ err.Message), false)
  | .ok localFileInfo =>
    if localFileInfo.Size = remoteObject.Size ∧ localFileInfo.ModTime = remoteObject.LastModified
    then (s, true)
    else (s, false)

/-- The walk function `minisyncService` hands to `filepath.Walk`; the result is
the error it returns (`none` is `nil`). -/
def walkFn (fs : LocalFS) (o : Oracle) (MINISYNC_BACKUPFOLDER : String) (e : WalkEntry)
    (s : State) : State × Option GoError :=
  match e.info with
  | .error err => (s, some err)
  | .ok info =>
    match filepath_Rel MINISYNC_BACKUPFOLDER e.path with
    | .error err =>
      (s.logln ("Failed to get relative path for " ++ e.path ++ ": " ++ err.Message), some err)
    | .ok relativePath =>
      if info.IsDir then (s.logln ("Found directory: " ++ relativePath), none)
      else
        match StatObject o relativePath s with
        | (s1, .error err) =>
          if err.Code = "NoSuchKey" then
            let s2 := s1.logln ("Uploading new file " ++ relativePath ++ " to MinIO")
            match CreateFile fs o relativePath e.path s2 with
            | (s3, some err) =>
              (s3.logln ("Failed to upload file " ++ e.path ++ ": " ++ err.Message), some err)
            | (s3, none) => (s3, none)
          else
            (s1.logln ("Failed to stat remote file " ++ relativePath ++ ": " ++ err.Message),
              some err)
        | (s1, .ok remoteObject) =>
          match compareFiles fs e.path remoteObject s1 with
          | (s2, true) =>
            (s2.logln ("File " ++ relativePath ++ " is identical on local and remote, skipping"),
              none)
          | (s2, false) =>
            let s3 := s2.logln ("Updating file " ++ relativePath ++ " on MinIO")
            match UpdateFile fs o relativePath e.path s3 with
            | (s4, some err) =>
              (s4.logln ("Failed to update file " ++ e.path ++ ": " ++ err.Message), some err)
            | (s4, none) => (s4, none)

/-- `filepath.Walk` over its visits: the walk function is called on each in turn
and the first error it returns ends the walk and is the walk's result. -/
def filepath_Walk (fn : WalkEntry → State → State × Option GoError) :
    List WalkEntry → State → State × Option GoError
  | [], s => (s, none)
  | e :: rest, s =>
    match fn e s with
    | (s1, some err) => (s1, some err)
    | (s1, none) => filepath_Walk fn rest s1

/-- The loop over the listing that follows the walk: a listed key whose local
path does not exist is deleted. -/
def deleteMissing (fs : LocalFS) (o : Oracle) (MINISYNC_BACKUPFOLDER : String) :
    List ObjectInfo → State → State
  | [], s => s
  | object :: rest, s =>
    match object.Err with
    | some err =>
      deleteMissing fs o MINISYNC_BACKUPFOLDER rest
        (s.logln ("Error listing objects: " ++ err.Message))
    | none =>
      let localPath := filepath_Join MINISYNC_BACKUPFOLDER object.Key
      match fs.Stat localPath with
      | .error err =>
        if err.NotExist then
          let s1 := s.logln ("Deleting remote file " ++ object.Key ++
            " that does not exist locally")
          match DeleteFile o object.Key s1 with
          | (s2, some err) =>
            deleteMissing fs o MINISYNC_BACKUPFOLDER rest
              (s2.logln ("Failed to delete remote file " ++ object.Key ++ ": " ++ err.Message))
          | (s2, none) => deleteMissing fs o MINISYNC_BACKUPFOLDER rest s2
        else deleteMissing fs o MINISYNC_BACKUPFOLDER rest s
      | .ok _ => deleteMissing fs o MINISYNC_BACKUPFOLDER rest s

/-- What `minisyncService` logs when the walk has returned. -/
def walkReport (w : State × Option GoError) : State :=
  match w.2 with
  | some err =>
    (w.1.logln ("Failed to walk directory: " ++ err.Message)).eloginfo "Failed to walk directory"
  | none => (w.1.logln "Full sync cycle completed").eloginfo "Full sync cycle completed"

/-- The body of the `for range ticker.C` loop of `minisyncService`: one full
sync cycle (the walk with its report, then the listing of the whole bucket and
the deletion of what exists only remotely). -/
def syncCycle (fs : LocalFS) (o : Oracle) (MINISYNC_BACKUPFOLDER : String) (s : State) :
    State :=
  let w := filepath_Walk (walkFn fs o MINISYNC_BACKUPFOLDER) (fs.Walk MINISYNC_BACKUPFOLDER)
    (s.eloginfo "Starting full sync cycle")
  let objectCh := ListObjects o "" (walkReport w)
  deleteMissing fs o MINISYNC_BACKUPFOLDER objectCh.2 objectCh.1

/-! ## The specification's reading of the delete phase -/

/-- The local path of a remote key does not exist: `os.Stat(filepath.Join(root, key))`
fails with an error for which `os.IsNotExist` holds. -/
def localPathMissing (fs : LocalFS) (root key : String) : Bool :=
  match fs.Stat (filepath_Join root key) with
  | .error err => err.NotExist
  | .ok _ => false

/-- The delete decisions the specification prescribes for a listing: one
`DeleteFile(key)` for every listed key whose local path does not exist, in the
order of the listing (entries that report a listing error carry no key). -/
def specDeletions (fs : LocalFS) (root : String) (listing : List ObjectInfo) : List Call :=
  (listing.filter (fun ob => ob.Err.isNone && localPathMissing fs root ob.Key)).map
    (fun ob => Call.RemoveObject ob.Key)

/-! ## Concrete worlds used in the examples -/

/-- The oracle under which every external call succeeds at time `stamp`. -/
def allOk (stamp : Int) : Oracle := fun _ => .ok stamp

/-- The error `os.Stat` returns for a path that does not exist. -/
def errNotExist : GoError :=
  { Code := "", NotExist := true, Message := "no such file or directory" }

/-- The state before anything happened: empty bucket, nothing watched. -/
def State.empty : State :=
  { objects := [], watched := [], tick := 0, trace := [], log := [], elog := [] }

/-- A directory's `FileInfo`. -/
def dirInfo : FileInfo := { Size := 4096, ModTime := 0, IsDir := true }

/-- The tree `/data/notes/todo.txt`, the file having the given size and
modification time. -/
def fsTodo (size mtime : Int) : LocalFS where
  Stat p :=
    if p = "/data" then .ok dirInfo
    else if p = "/data/notes" then .ok dirInfo
    else if p = "/data/notes/todo.txt" then .ok { Size := size, ModTime := mtime, IsDir := false }
    else .error errNotExist
  Walk root :=
    if root = "/data" then
      [⟨"/data", .ok dirInfo⟩, ⟨"/data/notes", .ok dirInfo⟩,
       ⟨"/data/notes/todo.txt", .ok { Size := size, ModTime := mtime, IsDir := false }⟩]
    else [⟨root, .error errNotExist⟩]

/-- The tree `/data/notes` after `todo.txt` was deleted. -/
def fsNotesOnly : LocalFS where
  Stat p :=
    if p = "/data" then .ok dirInfo
    else if p = "/data/notes" then .ok dirInfo
    else .error errNotExist
  Walk root :=
    if root = "/data" then [⟨"/data", .ok dirInfo⟩, ⟨"/data/notes", .ok dirInfo⟩]
    else [⟨root, .error errNotExist⟩]

/-- The tree with the empty watch root `/data` and a file `/other/x.txt` outside it. -/
def fsOutside : LocalFS where
  Stat p :=
    if p = "/data" then .ok dirInfo
    else if p = "/other" then .ok dirInfo
    else if p = "/other/x.txt" then .ok { Size := 5, ModTime := 50, IsDir := false }
    else .error errNotExist
  Walk root :=
    if root = "/data" then [⟨"/data", .ok dirInfo⟩]
    else [⟨root, .error errNotExist⟩]

/-- The tree with the empty watch root `/data` only (whatever was in it is gone). -/
def fsEmptyRoot : LocalFS where
  Stat p := if p = "/data" then .ok dirInfo else .error errNotExist
  Walk root :=
    if root = "/data" then [⟨"/data", .ok dirInfo⟩]
    else [⟨root, .error errNotExist⟩]

/-- The tree `/data/b.txt`: what is on disk after `/data/a.txt` was renamed to
`/data/b.txt`. -/
def fsRenamed : LocalFS where
  Stat p :=
    if p = "/data" then .ok dirInfo
    else if p = "/data/b.txt" then .ok { Size := 3, ModTime := 30, IsDir := false }
    else .error errNotExist
  Walk root :=
    if root = "/data" then
      [⟨"/data", .ok dirInfo⟩, ⟨"/data/b.txt", .ok { Size := 3, ModTime := 30, IsDir := false }⟩]
    else [⟨root, .error errNotExist⟩]

/-- A bucket that holds `a.txt`. -/
def stateWithA : State :=
  { State.empty with
    objects := [{ Key := "a.txt", Size := 3, LastModified := 30 }] }

/-- The oracle under which the first external call fails and the others succeed. -/
def firstFails : Oracle := fun n =>
  if n = 0 then .fail { Code := "AccessDenied", NotExist := false, Message := "access denied" }
  else .ok 1000

/-- The tree `/data/a.txt`, `/data/b.txt`. -/
def fsTwoFiles : LocalFS where
  Stat p :=
    if p = "/data" then .ok dirInfo
    else if p = "/data/a.txt" then .ok { Size := 3, ModTime := 30, IsDir := false }
    else if p = "/data/b.txt" then .ok { Size := 4, ModTime := 40, IsDir := false }
    else .error errNotExist
  Walk root :=
    if root = "/data" then
      [⟨"/data", .ok dirInfo⟩,
       ⟨"/data/a.txt", .ok { Size := 3, ModTime := 30, IsDir := false }⟩,
       ⟨"/data/b.txt", .ok { Size := 4, ModTime := 40, IsDir := false }⟩]
    else [⟨root, .error errNotExist⟩]

/-- The oracle under which the second external call fails and the others succeed. -/
def secondFails : Oracle := fun n =>
  if n = 1 then .fail { Code := "SlowDown", NotExist := false, Message := "slow down" }
  else .ok 1000

/-- A bucket that mirrors `/data/notes/todo.txt`. -/
def stateWithTodo : State :=
  { State.empty with
    objects := [{ Key := "notes/todo.txt", Size := 10, LastModified := 100 }] }

/-- The state a logged call leaves: the call's state, with one more log line
when the call failed. -/
def logged (r : State × Option GoError) (msg : GoError → String) : State :=
  match r with
  | (s1, some err) => s1.logln (msg err)
  | (s1, none) => s1

/-! ## Notions used to state the claims about a whole cycle -/

/-- The relative key under which the walk of a cycle handles a visit: defined for
the visits of regular files. -/
def fileKey (root : String) (e : WalkEntry) : Option String :=
  match e.info with
  | .ok info => if info.IsDir then none else (filepath_Rel root e.path).toOption
  | .error _ => none

/-- The relative keys of the local files among the visits. -/
def fileKeys (root : String) (l : List WalkEntry) : List String :=
  l.filterMap (fileKey root)

/-- The local tree is held fixed and the visit is sound: the visit carries no
error, its path has a relative key, and for a regular file `os.Stat` reports
what the walk reported and the key joined to the root is the path again. -/
def coherentEntry (fs : LocalFS) (root : String) (e : WalkEntry) : Bool :=
  match e.info, filepath_Rel root e.path with
  | .ok info, .ok key =>
    info.IsDir || (fs.Stat e.path == .ok info && filepath_Join root key == e.path)
  | _, _ => false

/-- The call is a deletion. -/
def isDelete : Call → Bool
  | .RemoveObject _ => true
  | _ => false

/-- The call is an upload. -/
def isUpload : Call → Bool
  | .FPutObject _ _ => true
  | _ => false

/-- The calls issued between two states of a run. -/
def newCalls (before after : State) : List Call :=
  after.trace.drop before.trace.length

/-- The bucket mirrors a local file under `key`: it holds the key with the file's
size, and the object's time is the file's modification time or a stamp the
store issued at a call numbered in `[lo, hi)`. -/
def Mirrors (o : Oracle) (objects : List RemoteObject) (key : String) (info : FileInfo)
    (lo hi : Nat) : Prop :=
  ∃ ob, findObject objects key = some ob ∧ ob.Size = info.Size
    ∧ (ob.LastModified = info.ModTime ∨ ∃ n, lo ≤ n ∧ n < hi ∧ o n = .ok ob.LastModified)

/-- What the walk function does on a sound visit when no store call fails: it
returns `nil`, and the visit was a directory (nothing happens to the bucket), a
file found equal remotely (skipped after the stat), or a file uploaded after
the stat. -/
def StepSpec (fs : LocalFS) (o : Oracle) (root : String) (e : WalkEntry) (s : State)
    (r : State × Option GoError) : Prop :=
  r.2 = none ∧
  ((fileKey root e = none ∧ r.1.objects = s.objects ∧ r.1.tick = s.tick ∧ r.1.trace = s.trace)
   ∨ (∃ key info ob, fileKey root e = some key ∧ e.info = .ok info
        ∧ fs.Stat (filepath_Join root key) = .ok info
        ∧ findObject s.objects key = some ob ∧ ob.Size = info.Size
        ∧ ob.LastModified = info.ModTime
        ∧ r.1.objects = s.objects ∧ r.1.tick = s.tick + 1
        ∧ r.1.trace = s.trace ++ [Call.StatObject key])
   ∨ (∃ key info t, fileKey root e = some key ∧ e.info = .ok info
        ∧ fs.Stat (filepath_Join root key) = .ok info
        ∧ (¬ ∃ ob, findObject s.objects key = some ob ∧ ob.Size = info.Size
            ∧ ob.LastModified = info.ModTime)
        ∧ o (s.tick + 1) = .ok t
        ∧ r.1.objects = putObject s.objects { Key := key, Size := info.Size, LastModified := t }
        ∧ r.1.tick = s.tick + 2
        ∧ r.1.trace = s.trace ++ [Call.StatObject key, Call.FPutObject key e.path]))

/-- Some object of the listing `l` has the key `k` and no local path. -/
def doomed (fs : LocalFS) (root : String) (l : List RemoteObject) (k : String) : Bool :=
  l.any (fun x => x.Key == k && localPathMissing fs root x.Key)

/-! ## `minisync/minio.go`: renaming a file -/

/-- `MinioClient.RenameFile`. -/
def RenameFile (fs : LocalFS) (o : Oracle) (oldRelativePath newRelativePath newFilePath : String)
    (s : State) : State × Option GoError :=
  match UploadFile fs o newRelativePath newFilePath s with
  | (s1, some err) => (s1, some err)
  | (s1, none) =>
    match DeleteFile o oldRelativePath s1 with
    | (s2, some err) => (s2, some err)
    | (s2, none) => (s2, none)

/-! ## `minisync/minio.go`: the bucket set-up of `NewMinioClient` -/

/-- The calls `NewMinioClient` makes to the store. -/
inductive BucketCall where
  | MakeBucket (bucketName : String)
  | BucketExists (bucketName : String)
deriving DecidableEq, Repr

/-- The store as `NewMinioClient` meets it: the buckets it holds, the number of
calls made, the calls in order, and the `log` package's lines. -/
structure Server where
  buckets : List String
  tick : Nat
  calls : List BucketCall
  log : List String
deriving DecidableEq, Repr

/-- A bucket call is issued: it is recorded and the oracle moves on. -/
def Server.issue (sv : Server) (c : BucketCall) : Server :=
  { sv with calls := sv.calls ++ [c], tick := sv.tick + 1 }

/-- One more line of the `log` package. -/
def Server.logln (sv : Server) (line : String) : Server :=
  { sv with log := sv.log ++ [line] }

/-- The error by which the store refuses to make a bucket it already holds. -/
def bucketAlreadyOwnedByYou : GoError :=
  { Code := "BucketAlreadyOwnedByYou", NotExist := false,
    Message := "Your previous request to create the named bucket succeeded and you already own it." }

/-- `Client.MakeBucket(ctx, bucketName, opts)`: creates the bucket; fails when the
store already holds it, or as the oracle decides. -/
def MakeBucket (o : Oracle) (bucketName : String) (sv : Server) : Server × Option GoError :=
  let sv1 := sv.issue (.MakeBucket bucketName)
  match o sv.tick with
  | .fail err => (sv1, some err)
  | .ok _ =>
    if bucketName ∈ sv.buckets then (sv1, some bucketAlreadyOwnedByYou)
    else ({ sv1 with buckets := sv.buckets ++ [bucketName] }, none)

/-- `Client.BucketExists(ctx, bucketName)`: the pair `(exists, err)`. -/
def BucketExists (o : Oracle) (bucketName : String) (sv : Server) :
    Server × Bool × Option GoError :=
  let sv1 := sv.issue (.BucketExists bucketName)
  match o sv.tick with
  | .fail err => (sv1, false, some err)
  | .ok _ => (sv1, decide (bucketName ∈ sv.buckets), none)

/-- The `MinioClient` value: the SDK client (stood for by its endpoint) and the
bucket it works on. -/
structure MinioClient where
  Client : String
  BucketName : String
deriving DecidableEq, Repr

/-- `NewMinioClient`.  `newErr` is the error `minio.New` returns for the endpoint
and the credentials (`none` is `nil`); the result `.error err` is the return
`nil, err`. -/
def NewMinioClient (o : Oracle) (newErr : Option GoError)
    (endpoint accessKey _secretKey bucketName : String) (sv : Server) :
    Server × Except GoError MinioClient :=
  let sv0 := sv.logln ("Creating MinIO client with endpoint: " ++ endpoint)
  match newErr with
  | some err =>
    (sv0.logln ("Error creating MinIO client with endpoint: " ++ endpoint ++ ", accessKey: "
      ++ accessKey), .error err)
  | none =>
    match MakeBucket o bucketName sv0 with
    | (sv1, some err) =>
      match BucketExists o bucketName sv1 with
      | (sv2, exists_, errBucketExists) =>
        if errBucketExists = none ∧ exists_ = true then
          (sv2.logln ("We already own " ++ bucketName ++ "\n"),
            .ok { Client := endpoint, BucketName := bucketName })
        else (sv2, .error err)
    | (sv1, none) => (sv1, .ok { Client := endpoint, BucketName := bucketName })

/-! ## `minisync/status.go` -/

/-- `strings.Contains` on characters: `sub` occurs in `s`. -/
def containsChars : List Char → List Char → Bool
  | [], sub => sub.isEmpty
  | c :: cs, sub => sub.isPrefixOf (c :: cs) || containsChars cs sub

/-- `strings.Contains(s, substr)`. -/
def strings_Contains (s substr : String) : Bool :=
  containsChars s.data substr.data

/-- `StatusNotInstalled`. -/
def StatusNotInstalled : String := "NotInstalled"
/-- `StatusStopped`. -/
def StatusStopped : String := "Stopped"
/-- `StatusRunning`. -/
def StatusRunning : String := "Running"
/-- `StatusPaused`. -/
def StatusPaused : String := "Paused"

/-- The error of `fmt.Errorf("unable to determine service status")`. -/
def errUndetermined : GoError :=
  { Code := "", NotExist := false, Message := "unable to determine service status" }

/-- `GetServiceStatus`, as a function of what running `sc query <serviceName>`
gave: `runErr` is the error of `cmd.Run()` and `out` the combined output. -/
def GetServiceStatus (runErr : Option GoError) (out : String) : String × Option GoError :=
  match runErr with
  | some err =>
    if strings_Contains out "The specified service does not exist as an installed service."
    then (StatusNotInstalled, none)
    else ("", some err)
  | none =>
    let output := out
    if strings_Contains output "STATE              : 4  RUNNING" then (StatusRunning, none)
    else if strings_Contains output "STATE              : 1  STOPPED" then (StatusStopped, none)
    else if strings_Contains output "STATE              : 7  PAUSED" then (StatusPaused, none)
    else ("", some errUndetermined)

/-! ## The specification's reading of the event handler -/

/-- The actions the specification lets an event trigger. -/
inductive Action where
  | CreateFile (key path : String)
  | UpdateFile (key path : String)
  | DeleteFile (key : String)
  | DeleteDirectory (key : String)
  | WatcherAdd (path : String)
deriving DecidableEq, Repr

/-- The first of the bits Create, Write, Remove, Rename, in this order, that the
operation carries. -/
def specFirstOp (op : Nat) : Option Nat :=
  if op &&& Create = Create then some Create
  else if op &&& Write = Write then some Write
  else if op &&& Remove = Remove then some Remove
  else if op &&& Rename = Rename then some Rename
  else none

/-- The one action, if any, the specification prescribes for an event: none when
the relative path cannot be computed or the operation carries none of the four
bits; otherwise the action of the first matching bit, which depends on whether
the path is a directory when the event is handled. -/
def specAction (fs : LocalFS) (root : String) (ev : Event) : Option Action :=
  match filepath_Rel root ev.Name with
  | .error _ => none
  | .ok key =>
    match specFirstOp ev.Op with
    | none => none
    | some op =>
      if op = Create then
        if isDir fs ev.Name then some (.WatcherAdd ev.Name) else some (.CreateFile key ev.Name)
      else if op = Write then
        if isDir fs ev.Name then none else some (.UpdateFile key ev.Name)
      else
        if isDir fs ev.Name then some (.DeleteDirectory key) else some (.DeleteFile key)

/-- The action carried out by the program's own functions. -/
def performAction (fs : LocalFS) (o : Oracle) (s : State) : Action → State × Option GoError
  | .CreateFile key path => CreateFile fs o key path s
  | .UpdateFile key path => UpdateFile fs o key path s
  | .DeleteFile key => DeleteFile o key s
  | .DeleteDirectory key => DeleteDirectory o key s
  | .WatcherAdd path => WatcherAdd o path s

/-- A state without its logs: the bucket, the watch set, the number of calls and
the calls. -/
def State.core (s : State) : List RemoteObject × List String × Nat × List Call :=
  (s.objects, s.watched, s.tick, s.trace)

/-! ## `setup.go` and `minisyncService.go`: the configuration in the registry -/

/-- The form data `Config`. -/
structure Config where
  BackupFolder : String
  LogFolder : String
  MinioEndpoint : String
  MinioKey : String
  MinioSecret : String
  MinioBucketName : String
  BackupFrequencySeconds : String
deriving DecidableEq, Repr

/-- The string values of the registry key
`SYSTEM\CurrentControlSet\Control\Session Manager\Environment`, by name. -/
abbrev Registry := List (String × String)

/-- How the registry answers: `openErr` is the error of `registry.OpenKey` on the
key, `setErr name` the error of `key.SetStringValue(name, _)`. -/
structure RegistryAccess where
  openErr : Option GoError
  setErr : String → Option GoError

/-- `key.SetStringValue(name, value)` when it succeeds. -/
def SetStringValue (reg : Registry) (name value : String) : Registry :=
  (name, value) :: reg.filter (fun kv => kv.1 != name)

/-- `key.GetStringValue(name)`. -/
def GetStringValue (reg : Registry) (name : String) : Except GoError String :=
  match reg.find? (fun kv => kv.1 == name) with
  | some kv => .ok kv.2
  | none =>
    .error { Code := "", NotExist := true,
             Message := "The system cannot find the file specified." }

/-- `setEnvironmentVariable`; the result `none` is the process ended by
`log.Fatalf` (the key could not be opened). -/
def setEnvironmentVariable (w : RegistryAccess) (name value : String) (reg : Registry) :
    Option (Registry × Option GoError) :=
  match w.openErr with
  | some _ => none
  | none =>
    match w.setErr name with
    | some err =>
      some (reg, some { err with
        Message := "failed to set environment variable " ++ name ++ ": " ++ err.Message })
    | none => some (SetStringValue reg name value, none)

/-- `fetchEnvironmentVariable` (the same function in `setup.go` and in
`minisyncService.go`); the result `none` is the process ended by `log.Fatalf`. -/
def fetchEnvironmentVariable (w : RegistryAccess) (name : String) (reg : Registry) :
    Option (Except GoError String) :=
  match w.openErr with
  | some _ => none
  | none =>
    match GetStringValue reg name with
    | .error err =>
      some (.error { err with
        Message := "failed to fetch environment variable " ++ name ++ ": " ++ err.Message })
    | .ok value => some (.ok value)

/-- The map `envVars` that `SubmitForm` builds from the form data, in the order
of the source text. -/
def envVars (config : Config) : List (String × String) :=
  [("MINISYNC_BACKFOLDER", config.BackupFolder),
   ("MINISYNC_LOGFOLDER", config.LogFolder),
   ("MINISYNC_MINIO_ENDPOINT", config.MinioEndpoint),
   ("MINISYNC_MINIO_BUCKETNAME", config.MinioBucketName),
   ("MINISYNC_MINIO_BACKUPFREQUENCYSECONDS", config.BackupFrequencySeconds),
   ("MINISYNC_MINIO_ACCESS_KEY", config.MinioKey),
   ("MINISYNC_MINIO_SECRET_KEY", config.MinioSecret)]

/-- The loop `for key, value := range envVars` of `SubmitForm` over the entries
in the given order (Go ranges over a map in no fixed order; the names are
distinct): each entry is set, a failure is logged and the loop goes on. -/
def setAll (w : RegistryAccess) : List (String × String) → Registry → Option Registry
  | [], reg => some reg
  | kv :: rest, reg =>
    match setEnvironmentVariable w kv.1 kv.2 reg with
    | none => none
    | some (reg1, _) => setAll w rest reg1

/-- The part of `SubmitForm` that stores the form data in the registry. -/
def SubmitForm (w : RegistryAccess) (config : Config) (reg : Registry) : Option Registry :=
  match w.openErr with
  | some _ => none
  | none => setAll w (envVars config) reg

/-- The seven variables `minisyncService` reads when it starts, in the order of
the source text. -/
def serviceVariables : List String :=
  ["MINISYNC_BACKUPFOLDER", "MINISYNC_LOGFOLDER", "MINISYNC_MINIO_ENDPOINT",
   "MINISYNC_MINIO_BUCKETNAME", "MINISYNC_MINIO_BACKUPFREQUENCYSECONDS",
   "MINISYNC_MINIO_ACCESS_KEY", "MINISYNC_MINIO_SECRET_KEY"]

/-- The fields of the form data that belong to `serviceVariables`, in the same
order. -/
def configFields (config : Config) : List String :=
  [config.BackupFolder, config.LogFolder, config.MinioEndpoint, config.MinioBucketName,
   config.BackupFrequencySeconds, config.MinioKey, config.MinioSecret]

/-- A registry access that never fails. -/
def registryOk : RegistryAccess := { openErr := none, setErr := fun _ => none }

/-- A filled-in form. -/
def sampleConfig : Config :=
  { BackupFolder := "C:\\data", LogFolder := "C:\\logs", MinioEndpoint := "localhost:9000",
    MinioKey := "key", MinioSecret := "secret", MinioBucketName := "backup",
    BackupFrequencySeconds := "60" }

/-- A bucket with two objects below `dir/` and two whose keys merely begin
with `dir`. -/
def stateDir : State :=
  { State.empty with
    objects := [{ Key := "dir/a", Size := 1, LastModified := 10 },
                { Key := "dirX/f", Size := 2, LastModified := 20 },
                { Key := "dir/b", Size := 3, LastModified := 30 },
                { Key := "dir.txt", Size := 4, LastModified := 40 }] }

/-- What a listing may deliver: an object, an entry that reports a listing
error, two more objects. -/
def listingWithError : List ObjectInfo :=
  [{ Key := "dir/a", Size := 1, LastModified := 10, Err := none },
   { Key := "", Size := 0, LastModified := 0,
     Err := some { Code := "SlowDown", NotExist := false, Message := "slow down" } },
   { Key := "dir/b", Size := 3, LastModified := 30, Err := none },
   { Key := "dir/c", Size := 5, LastModified := 50, Err := none }]

/-- A store without buckets, before any call. -/
def Server.empty : Server := { buckets := [], tick := 0, calls := [], log := [] }

/-- What `sc query MiniSync` prints for a running service. -/
def scRunning : String :=
  "SERVICE_NAME: MiniSync \n        TYPE               : 10  WIN32_OWN_PROCESS  \n" ++
  "        STATE              : 4  RUNNING \n        WIN32_EXIT_CODE    : 0  (0x0)\n"

/-- What `sc query MiniSync` prints when the service is not installed. -/
def scNotInstalled : String :=
  "[SC] EnumQueryServicesStatus:OpenService FAILED 1060:\n\n" ++
  "The specified service does not exist as an installed service.\n\n"

/-- The error of a command that exits with status 1060. -/
def exitStatus1060 : GoError :=
  { Code := "", NotExist := false, Message := "exit status 1060" }

/-- A disk on which the watch root (and with it every path) does not exist: the
walk visits the root once, with the error of its `Lstat`. -/
def fsNoRoot : LocalFS where
  Stat _ := .error errNotExist
  Walk root := [⟨root, .error errNotExist⟩]

/-- A disk without the watch root `/data` (nothing exists at or below it), with
the file `/other/x.txt` beside it. -/
def fsRootGone : LocalFS where
  Stat p :=
    if p = "/other" then .ok dirInfo
    else if p = "/other/x.txt" then .ok { Size := 5, ModTime := 50, IsDir := false }
    else .error errNotExist
  Walk root := [⟨root, .error errNotExist⟩]

/-- A bucket that holds the key `../other/x.txt` (what a Created event for
`/other/x.txt` leaves behind) and the key `notes/todo.txt`. -/
def stateOutsideKey : State :=
  { State.empty with
    objects := [{ Key := "../other/x.txt", Size := 5, LastModified := 1000 },
                { Key := "notes/todo.txt", Size := 10, LastModified := 100 }] }

/-! ## `path/filepath` on the standard library's own examples -/

/-- The model of `filepath.Clean`, `filepath.Rel` and `filepath.Join` agrees with
the Go standard library on its documented examples. -/
theorem filepath_examples :
    filepath_Rel "/data" "/data/notes/todo.txt" = .ok "notes/todo.txt"
    ∧ filepath_Rel "/data" "/other/x.txt" = .ok "../other/x.txt"
    ∧ filepath_Rel "/a/b" "/c/d" = .ok "../../c/d"
    ∧ filepath_Rel "a/b/c/d/" "a/b/" = .ok "../.."
    ∧ filepath_Rel "/../../a/b" "/../../a/b/c/d" = .ok "c/d"
    ∧ filepath_Rel "." "a/b" = .ok "a/b"
    ∧ filepath_Rel "a/b/../c" "a/b" = .ok "../b"
    ∧ filepath_Rel "/a/b" "/a/b/." = .ok "."
    ∧ (filepath_Rel "/a" "a").toOption = none
    ∧ (filepath_Rel ".." "a").toOption = none
    ∧ filepath_Join "/data" "notes/todo.txt" = "/data/notes/todo.txt"
    ∧ filepath_Join "a" "" = "a"
    ∧ filepath_Join "" "" = ""
    ∧ filepath_Clean "/../a//b/./c/.." = "/a/b"
    ∧ filepath_Clean "a/../.." = ".."
    ∧ filepath_Clean "" = "." := by
  decide

/-! ## Bookkeeping lemmas: what each call does to the trace and the watch set -/

@[simp] theorem logln_trace (s : State) (l : String) : (s.logln l).trace = s.trace := rfl
@[simp] theorem logln_objects (s : State) (l : String) : (s.logln l).objects = s.objects := rfl
@[simp] theorem logln_watched (s : State) (l : String) : (s.logln l).watched = s.watched := rfl
@[simp] theorem logln_tick (s : State) (l : String) : (s.logln l).tick = s.tick := rfl
@[simp] theorem eloginfo_trace (s : State) (l : String) : (s.eloginfo l).trace = s.trace := rfl
@[simp] theorem eloginfo_objects (s : State) (l : String) :
    (s.eloginfo l).objects = s.objects := rfl
@[simp] theorem eloginfo_watched (s : State) (l : String) :
    (s.eloginfo l).watched = s.watched := rfl
@[simp] theorem eloginfo_tick (s : State) (l : String) : (s.eloginfo l).tick = s.tick := rfl

@[simp] theorem FPutObject_trace (fs : LocalFS) (o : Oracle) (k p : String) (s : State) :
    (FPutObject fs o k p s).1.trace = s.trace ++ [.FPutObject k p] := by
  unfold FPutObject
  split
  · rfl
  · split
    · rfl
    · split <;> rfl

@[simp] theorem FPutObject_watched (fs : LocalFS) (o : Oracle) (k p : String) (s : State) :
    (FPutObject fs o k p s).1.watched = s.watched := by
  unfold FPutObject
  split
  · rfl
  · split
    · rfl
    · split <;> rfl

@[simp] theorem RemoveObject_trace (o : Oracle) (k : String) (s : State) :
    (RemoveObject o k s).1.trace = s.trace ++ [.RemoveObject k] := by
  unfold RemoveObject
  cases h : o s.tick <;> simp [State.issue]

@[simp] theorem RemoveObject_watched (o : Oracle) (k : String) (s : State) :
    (RemoveObject o k s).1.watched = s.watched := by
  unfold RemoveObject
  cases h : o s.tick <;> simp [State.issue]

@[simp] theorem WatcherAdd_trace (o : Oracle) (p : String) (s : State) :
    (WatcherAdd o p s).1.trace = s.trace ++ [.WatcherAdd p] := by
  unfold WatcherAdd
  cases h : o s.tick <;> simp [State.issue]

@[simp] theorem WatcherAdd_objects (o : Oracle) (p : String) (s : State) :
    (WatcherAdd o p s).1.objects = s.objects := by
  unfold WatcherAdd
  cases h : o s.tick <;> simp [State.issue]

@[simp] theorem logged_trace (r : State × Option GoError) (msg : GoError → String) :
    (logged r msg).trace = r.1.trace := by
  rcases r with ⟨s1, _ | e⟩ <;> rfl

@[simp] theorem logged_objects (r : State × Option GoError) (msg : GoError → String) :
    (logged r msg).objects = r.1.objects := by
  rcases r with ⟨s1, _ | e⟩ <;> rfl

@[simp] theorem logged_watched (r : State × Option GoError) (msg : GoError → String) :
    (logged r msg).watched = r.1.watched := by
  rcases r with ⟨s1, _ | e⟩ <;> rfl

/-- A Created event for a path that is not a directory: the file is uploaded. -/
theorem handleEvent_create_file (fs : LocalFS) (o : Oracle) (root : String) (ev : Event)
    (key : String) (s : State) (hrel : filepath_Rel root ev.Name = .ok key)
    (hop : ev.Op &&& Create = Create) (hdir : isDir fs ev.Name = false) :
    handleEvent fs o root ev s =
      logged (CreateFile fs o key ev.Name (s.logln ("Created file: " ++ ev.Name)))
        (fun err => "Failed to upload file: " ++ err.Message) := by
  unfold handleEvent
  simp only [hrel, hop, hdir, if_true, Bool.not_false, logged]

/-- A Created event for a directory: the directory is added to the watcher. -/
theorem handleEvent_create_dir (fs : LocalFS) (o : Oracle) (root : String) (ev : Event)
    (key : String) (s : State) (hrel : filepath_Rel root ev.Name = .ok key)
    (hop : ev.Op &&& Create = Create) (hdir : isDir fs ev.Name = true) :
    handleEvent fs o root ev s =
      logged (WatcherAdd o ev.Name (s.logln ("Created file: " ++ ev.Name)))
        (fun err => "Failed to watch new directory: " ++ err.Message) := by
  unfold handleEvent
  simp [hrel, hop, hdir, logged]

/-- A Modified event for a path that is not a directory: the file is uploaded. -/
theorem handleEvent_write_file (fs : LocalFS) (o : Oracle) (root : String) (ev : Event)
    (key : String) (s : State) (hrel : filepath_Rel root ev.Name = .ok key)
    (hc : ev.Op &&& Create ≠ Create) (hop : ev.Op &&& Write = Write)
    (hdir : isDir fs ev.Name = false) :
    handleEvent fs o root ev s =
      logged (UpdateFile fs o key ev.Name (s.logln ("Modified file: " ++ ev.Name)))
        (fun err => "Failed to upload file: " ++ err.Message) := by
  unfold handleEvent
  simp only [hrel, hc, hop, hdir, if_true, if_false, Bool.not_false, logged]

/-- A Modified event for a directory: only the log line. -/
theorem handleEvent_write_dir (fs : LocalFS) (o : Oracle) (root : String) (ev : Event)
    (key : String) (s : State) (hrel : filepath_Rel root ev.Name = .ok key)
    (hc : ev.Op &&& Create ≠ Create) (hop : ev.Op &&& Write = Write)
    (hdir : isDir fs ev.Name = true) :
    handleEvent fs o root ev s = s.logln ("Modified file: " ++ ev.Name) := by
  unfold handleEvent
  simp [hrel, hc, hop, hdir]

/-- A Removed event for a path that is not (or no longer) a directory: the key
is deleted. -/
theorem handleEvent_remove_file (fs : LocalFS) (o : Oracle) (root : String) (ev : Event)
    (key : String) (s : State) (hrel : filepath_Rel root ev.Name = .ok key)
    (hc : ev.Op &&& Create ≠ Create) (hw : ev.Op &&& Write ≠ Write)
    (hop : ev.Op &&& Remove = Remove) (hdir : isDir fs ev.Name = false) :
    handleEvent fs o root ev s =
      logged (DeleteFile o key (s.logln ("Deleted file or directory: " ++ ev.Name)))
        (fun err => "Failed to delete file: " ++ err.Message) := by
  unfold handleEvent
  simp only [hrel, hc, hw, hop, hdir, if_true, if_false, Bool.not_false, logged]

/-- A Removed event for a path that is a directory when the event is handled. -/
theorem handleEvent_remove_dir (fs : LocalFS) (o : Oracle) (root : String) (ev : Event)
    (key : String) (s : State) (hrel : filepath_Rel root ev.Name = .ok key)
    (hc : ev.Op &&& Create ≠ Create) (hw : ev.Op &&& Write ≠ Write)
    (hop : ev.Op &&& Remove = Remove) (hdir : isDir fs ev.Name = true) :
    handleEvent fs o root ev s =
      logged (DeleteDirectory o key (s.logln ("Deleted file or directory: " ++ ev.Name)))
        (fun err => "Failed to delete directory " ++ key ++ " in MinIO: " ++ err.Message) := by
  unfold handleEvent
  simp [hrel, hc, hw, hop, hdir, logged]

/-- A Renamed event for a path that is not a directory: the old key is deleted. -/
theorem handleEvent_rename_file (fs : LocalFS) (o : Oracle) (root : String) (ev : Event)
    (key : String) (s : State) (hrel : filepath_Rel root ev.Name = .ok key)
    (hc : ev.Op &&& Create ≠ Create) (hw : ev.Op &&& Write ≠ Write)
    (hr : ev.Op &&& Remove ≠ Remove) (hop : ev.Op &&& Rename = Rename)
    (hdir : isDir fs ev.Name = false) :
    handleEvent fs o root ev s =
      logged (DeleteFile o key (s.logln ("Renamed file or directory: " ++ ev.Name)))
        (fun err => "Failed to delete old file after rename: " ++ err.Message) := by
  unfold handleEvent
  simp only [hrel, hc, hw, hr, hop, hdir, if_true, if_false, Bool.not_false, logged]

/-- An event whose relative path cannot be computed: only the log line. -/
theorem handleEvent_rel_error (fs : LocalFS) (o : Oracle) (root : String) (ev : Event)
    (err : GoError) (s : State) (hrel : filepath_Rel root ev.Name = .error err) :
    handleEvent fs o root ev s =
      s.logln ("Failed to get relative path for " ++ ev.Name ++ ": " ++ err.Message) := by
  unfold handleEvent
  simp only [hrel]

theorem RemoveObject_objects_sublist (o : Oracle) (k : String) (s : State) :
    List.Sublist (RemoveObject o k s).1.objects s.objects := by
  unfold RemoveObject
  cases h : o s.tick <;> simp [State.issue]

@[simp] theorem StatObject_trace (o : Oracle) (k : String) (s : State) :
    (StatObject o k s).1.trace = s.trace ++ [.StatObject k] := by
  unfold StatObject
  cases h : o s.tick with
  | fail e => rfl
  | ok t => cases h2 : findObject s.objects k <;> rfl

@[simp] theorem StatObject_objects (o : Oracle) (k : String) (s : State) :
    (StatObject o k s).1.objects = s.objects := by
  unfold StatObject
  cases h : o s.tick with
  | fail e => rfl
  | ok t => cases h2 : findObject s.objects k <;> rfl

@[simp] theorem StatObject_tick (o : Oracle) (k : String) (s : State) :
    (StatObject o k s).1.tick = s.tick + 1 := by
  unfold StatObject
  cases h : o s.tick with
  | fail e => rfl
  | ok t => cases h2 : findObject s.objects k <;> rfl

@[simp] theorem ListObjects_trace (o : Oracle) (k : String) (s : State) :
    (ListObjects o k s).1.trace = s.trace ++ [.ListObjects k] := by
  unfold ListObjects
  cases h : o s.tick <;> rfl

@[simp] theorem ListObjects_objects (o : Oracle) (k : String) (s : State) :
    (ListObjects o k s).1.objects = s.objects := by
  unfold ListObjects
  cases h : o s.tick <;> rfl

/-- The delete loop issues exactly the deletions the specification prescribes. -/
theorem deleteMissing_trace (fs : LocalFS) (o : Oracle) (root : String)
    (listing : List ObjectInfo) (s : State) :
    (deleteMissing fs o root listing s).trace = s.trace ++ specDeletions fs root listing := by
  induction listing generalizing s with
  | nil => simp [deleteMissing, specDeletions]
  | cons ob rest ih =>
    unfold deleteMissing
    cases hE : ob.Err with
    | some err =>
      simp only [ih, logln_trace]
      simp [specDeletions, hE]
    | none =>
      simp only
      cases hS : fs.Stat (filepath_Join root ob.Key) with
      | ok li =>
        simp only [ih]
        simp [specDeletions, hE, localPathMissing, hS]
      | error err =>
        simp only
        by_cases hN : err.NotExist = true
        · simp only [hN, if_true]
          cases hD : DeleteFile o ob.Key
              (s.logln ("Deleting remote file " ++ ob.Key ++ " that does not exist locally")) with
          | mk s2 r =>
            have ht : s2.trace = s.trace ++ [Call.RemoveObject ob.Key] := by
              have := RemoveObject_trace o ob.Key
                (s.logln ("Deleting remote file " ++ ob.Key ++ " that does not exist locally"))
              unfold DeleteFile at hD
              rw [hD] at this
              simpa using this
            cases r <;> simp [ih, ht, specDeletions, hE, localPathMissing, hS, hN]
        · simp only [hN]
          simp [ih, specDeletions, hE, localPathMissing, hS, hN]

/-! ## `filepath.Rel` and `filepath.Join` on clean paths -/

theorem intercalate_one (r : List Char) : List.intercalate [Separator] [r] = r := by
  simp [List.intercalate]

theorem intercalate_cons2 (r x : List Char) (l : List (List Char)) :
    List.intercalate [Separator] (r :: x :: l)
      = r ++ Separator :: List.intercalate [Separator] (x :: l) := by
  simp [List.intercalate]

theorem splitSep_ne_nil (x : List Char) : splitSep x ≠ [] := by
  cases x with
  | nil => simp [splitSep]
  | cons c cs =>
    unfold splitSep
    split
    · simp
    · split <;> simp

theorem splitSep_append (x y : List Char) :
    splitSep (x ++ Separator :: y) = splitSep x ++ splitSep y := by
  induction x with
  | nil => simp [splitSep]
  | cons c cs ih =>
    by_cases hc : c = Separator
    · simp [splitSep, hc, ih]
    · rw [List.cons_append, splitSep, splitSep]
      simp only [hc, if_false, ih]
      cases h : splitSep cs with
      | nil => exact absurd h (splitSep_ne_nil cs)
      | cons e es => rfl

theorem splitSep_free (e : List Char) (h : Separator ∉ e) : splitSep e = [e] := by
  induction e with
  | nil => rfl
  | cons c cs ih =>
    have hc : c ≠ Separator := fun h2 => h (by rw [h2]; exact List.mem_cons_self _ _)
    have hcs : Separator ∉ cs := fun h2 => h (List.mem_cons_of_mem _ h2)
    rw [splitSep]
    simp only [hc, if_false, ih hcs]

theorem splitSep_intercalate (l : List (List Char)) (hl : ∀ e ∈ l, regularElem e)
    (hne : l ≠ []) : splitSep (List.intercalate [Separator] l) = l := by
  induction l with
  | nil => exact absurd rfl hne
  | cons r rest ih =>
    have hr := (hl r (List.mem_cons_self _ _)).2.1
    cases rest with
    | nil => rw [intercalate_one, splitSep_free r hr]
    | cons x l2 =>
      rw [intercalate_cons2, splitSep_append, splitSep_free r hr,
        ih (fun e he => hl e (List.mem_cons_of_mem _ he)) (by simp)]
      rfl

theorem cleanElem_regular (rooted : Bool) (out : List (List Char)) (e : List Char)
    (h : regularElem e) : cleanElem rooted out e = e :: out := by
  obtain ⟨h1, _, h3, h4⟩ := h
  unfold cleanElem
  simp [h1, h3, h4]

theorem foldl_cleanElem_regular (rooted : Bool) (l : List (List Char))
    (hl : ∀ e ∈ l, regularElem e) (out : List (List Char)) :
    l.foldl (cleanElem rooted) out = l.reverse ++ out := by
  induction l generalizing out with
  | nil => rfl
  | cons r rest ih =>
    rw [List.foldl_cons, cleanElem_regular rooted out r (hl r (List.mem_cons_self _ _)),
      ih (fun e he => hl e (List.mem_cons_of_mem _ he))]
    simp

/-- What `Clean` writes for the elements of an already clean path. -/
theorem foldl_cleanElem_clean (rooted : Bool) (l : List (List Char))
    (hl : ∀ e ∈ l, regularElem e) :
    ((splitSep (List.intercalate [Separator] l)).foldl (cleanElem rooted) []).reverse = l := by
  cases l with
  | nil => rfl
  | cons r rest =>
    rw [splitSep_intercalate _ hl (by simp), foldl_cleanElem_regular rooted _ hl]
    simp

theorem cleanChars_abs (l : List (List Char)) (hl : ∀ e ∈ l, regularElem e) :
    cleanChars (Separator :: List.intercalate [Separator] l)
      = Separator :: List.intercalate [Separator] l := by
  have h := foldl_cleanElem_clean true l hl
  unfold cleanChars
  simp only [beq_self_eq_true, if_true]
  rw [splitSep]
  simp only [if_true, List.foldl_cons]
  have h0 : cleanElem true [] [] = [] := rfl
  rw [h0, h]

theorem intercalate_cons_cons (c : Char) (r : List Char) (rest : List (List Char)) :
    ∃ tl, List.intercalate [Separator] ((c :: r) :: rest) = c :: tl := by
  cases rest with
  | nil => exact ⟨r, by rw [intercalate_one]⟩
  | cons x l2 => exact ⟨_, by rw [intercalate_cons2]; rfl⟩

theorem cleanChars_rel (l : List (List Char)) (hl : ∀ e ∈ l, regularElem e) (hne : l ≠ []) :
    cleanChars (List.intercalate [Separator] l) = List.intercalate [Separator] l := by
  have h := foldl_cleanElem_clean false l hl
  cases l with
  | nil => exact absurd rfl hne
  | cons r rest =>
    obtain ⟨hr1, hr2, _, _⟩ := hl r (List.mem_cons_self _ _)
    cases r with
    | nil => exact absurd rfl hr1
    | cons c r2 =>
      have hc : c ≠ Separator := fun h2 => hr2 (by rw [h2]; exact List.mem_cons_self _ _)
      obtain ⟨tl, htl⟩ := intercalate_cons_cons c r2 rest
      rw [htl] at h ⊢
      unfold cleanChars
      have hb : (c == Separator) = false := by simp [hc]
      simp only [hb, h]
      rw [htl]
      simp

theorem takeWhile_intercalate (r : List Char) (l : List (List Char))
    (hr : Separator ∉ r) :
    (List.intercalate [Separator] (r :: l)).takeWhile (fun c => c != Separator) = r
    ∧ ((List.intercalate [Separator] (r :: l)).dropWhile (fun c => c != Separator)).tail
        = List.intercalate [Separator] l := by
  have hp : ∀ a ∈ r, (fun c => c != Separator) a = true := by
    intro a ha
    have : a ≠ Separator := fun h2 => hr (by rw [← h2]; exact ha)
    simp [this]
  cases l with
  | nil =>
    rw [intercalate_one]
    constructor
    · exact List.takeWhile_eq_self_iff.2 hp
    · rw [List.dropWhile_eq_nil_iff.2 hp]
      rfl
  | cons x l2 =>
    rw [intercalate_cons2, List.takeWhile_append_of_pos hp, List.dropWhile_append_of_pos hp]
    constructor
    · simp
    · simp

theorem length_intercalate_cons (r : List Char) (l : List (List Char)) (hr : r ≠ []) :
    (List.intercalate [Separator] l).length + 1
      ≤ (List.intercalate [Separator] (r :: l)).length := by
  have h1 : 1 ≤ r.length := by
    cases r with
    | nil => exact absurd rfl hr
    | cons c cs => simp
  cases l with
  | nil =>
    rw [intercalate_one]
    simpa [List.intercalate] using h1
  | cons x l2 =>
    rw [intercalate_cons2]
    simp only [List.length_append, List.length_cons]
    omega

theorem intercalate_ne_nil (r : List Char) (l : List (List Char)) (hr : r ≠ []) :
    List.intercalate [Separator] (r :: l) ≠ [] := by
  intro h
  have := length_intercalate_cons r l hr
  rw [h] at this
  simp at this

/-- The loop of `Rel` walks through the elements of the base, which the target
shares, and stops at the end of the base. -/
theorem relLoop_under (rs ks : List (List Char)) (hrs : ∀ e ∈ rs, regularElem e)
    (fuel : Nat) (hfuel : (List.intercalate [Separator] rs).length ≤ fuel)
    (hks : rs = [] → ks ≠ [] → True) :
    relLoop fuel (List.intercalate [Separator] rs) (List.intercalate [Separator] (rs ++ ks))
      = ([], [], List.intercalate [Separator] ks) := by
  induction rs generalizing fuel with
  | nil =>
    cases fuel with
    | zero => rfl
    | succ f =>
      rw [relLoop]
      simp [List.intercalate]
  | cons r rest ih =>
    obtain ⟨hr1, hr2, _, _⟩ := hrs r (List.mem_cons_self _ _)
    have hlen := length_intercalate_cons r rest hr1
    cases fuel with
    | zero => omega
    | succ f =>
      have hb := intercalate_ne_nil r rest hr1
      have ht := intercalate_ne_nil r (rest ++ ks) hr1
      obtain ⟨hb1, hb2⟩ := takeWhile_intercalate r rest hr2
      obtain ⟨ht1, ht2⟩ := takeWhile_intercalate r (rest ++ ks) hr2
      rw [relLoop]
      simp only [List.cons_append, hb, ht, or_self, if_false, hb1, ht1, hb2, ht2, ne_eq,
        not_true_eq_false]
      exact ih (fun e he => hrs e (List.mem_cons_of_mem _ he)) f (by omega) (fun _ _ => trivial)

theorem intercalate_under_ne (rs ks : List (List Char))
    (hrs : ∀ e ∈ rs, regularElem e) (hks : ∀ e ∈ ks, regularElem e) (hne : ks ≠ []) :
    List.intercalate [Separator] (rs ++ ks) ≠ List.intercalate [Separator] rs := by
  intro h
  have hall : ∀ e ∈ rs ++ ks, regularElem e := by
    intro e he
    rcases List.mem_append.1 he with h1 | h1
    · exact hrs e h1
    · exact hks e h1
  have h1 := splitSep_intercalate (rs ++ ks) hall (by simp [hne])
  rw [h] at h1
  cases rs with
  | nil =>
    have h2 : ks = [[]] := by simpa [List.intercalate, splitSep] using h1.symm
    have := (hks [] (by rw [h2]; exact List.mem_cons_self _ _)).1
    exact this rfl
  | cons r rest =>
    rw [splitSep_intercalate _ hrs (by simp)] at h1
    have h2 := congrArg List.length h1
    simp only [List.length_cons, List.length_append] at h2
    have h3 : 0 < ks.length := List.length_pos.2 hne
    omega

/-- `Rel` of a clean absolute root and a clean path below it is the rest of the
path, and `Join` puts the two together again. -/
theorem rel_join_under (rs ks : List (List Char))
    (hrs : ∀ e ∈ rs, regularElem e) (hks : ∀ e ∈ ks, regularElem e) (hne : ks ≠ []) :
    filepath_Rel (absPath rs) (absPath (rs ++ ks)) = .ok (relPath ks)
    ∧ filepath_Join (absPath rs) (relPath ks) = absPath (rs ++ ks) := by
  have hall : ∀ e ∈ rs ++ ks, regularElem e := by
    intro e he
    rcases List.mem_append.1 he with h1 | h1
    · exact hrs e h1
    · exact hks e h1
  constructor
  · have hrel : relChars (absPath rs).data (absPath (rs ++ ks)).data
        = some (List.intercalate [Separator] ks) := by
      unfold relChars absPath
      simp only [cleanChars_abs rs hrs, cleanChars_abs (rs ++ ks) hall]
      have hne2 := intercalate_under_ne rs ks hrs hks hne
      have hloop : relLoop ((Separator :: List.intercalate [Separator] rs).length + 1)
          (Separator :: List.intercalate [Separator] rs)
          (Separator :: List.intercalate [Separator] (rs ++ ks))
          = ([], [], List.intercalate [Separator] ks) := by
        rw [relLoop]
        have hs : (Separator != Separator) = false := by decide
        simp only [List.cons_ne_nil, or_self, if_false, List.takeWhile_cons, hs, ne_eq,
          not_true_eq_false, List.dropWhile_cons, List.tail_cons]
        exact relLoop_under rs ks hrs _ (by simp) (fun _ _ => trivial)
      have hdot : (Separator :: List.intercalate [Separator] rs) ≠ ['.'] := by
        intro h
        have := (List.cons.inj h).1
        exact absurd this (by decide)
      simp only [List.cons.injEq, true_and, hne2, if_false, hdot, List.head?_cons,
        bne_self_eq_false, Bool.false_eq_true, hloop]
      simp
    unfold filepath_Rel
    rw [hrel]
    rfl
  · have hclean : cleanChars ((absPath rs).data ++ [Separator] ++ (relPath ks).data)
        = Separator :: List.intercalate [Separator] (rs ++ ks) := by
      have h1 := congrArg List.reverse (foldl_cleanElem_clean true rs hrs)
      rw [List.reverse_reverse] at h1
      have h0 : cleanElem true [] [] = [] := rfl
      have hhead : (absPath rs).data ++ [Separator] ++ (relPath ks).data
          = Separator :: (List.intercalate [Separator] rs
              ++ Separator :: List.intercalate [Separator] ks) := by
        unfold absPath relPath
        simp only [List.cons_append, List.append_assoc, List.singleton_append, List.nil_append]
      have hsplit : splitSep (Separator :: (List.intercalate [Separator] rs
            ++ Separator :: List.intercalate [Separator] ks))
          = [] :: (splitSep (List.intercalate [Separator] rs) ++ ks) := by
        rw [splitSep]
        simp only [if_true]
        rw [splitSep_append, splitSep_intercalate ks hks hne]
      rw [hhead]
      unfold cleanChars
      rw [hsplit]
      simp only [beq_self_eq_true, if_true, List.foldl_cons, h0, List.foldl_append, h1,
        foldl_cleanElem_regular true ks hks, List.reverse_append, List.reverse_reverse]
    have hne2 : absPath rs ≠ "" := by
      intro h
      have := congrArg String.data h
      simp [absPath] at this
    unfold filepath_Join
    simp only [hne2, ne_eq, not_false_eq_true, if_true]
    unfold filepath_Clean
    have hdata : (absPath rs ++ "/" ++ relPath ks).data
        = (absPath rs).data ++ [Separator] ++ (relPath ks).data := by
      simp only [String.data_append]
      rfl
    rw [hdata, hclean]
    rfl

/-! ## The event handler -/

/-- C1. For every watch root, every path whose path relative to the root is `key`
and every three states of the disk in which the path is not a directory,
handling a Created, then a Modified (Write), then a Removed event for the path
issues, in this order and nothing else, the upload of the file under `key`
(`UploadFile(key, path)` is the one SDK call `FPutObject(key, path)`), the same
upload again, and the deletion of `key` (`DeleteFile(key)` is `RemoveObject(key)`);
this holds whether or not the calls succeed.  For every clean absolute root and
every path below it the relative key is the rest of the path; for root `/data`
and path `/data/notes/todo.txt` it is `notes/todo.txt`. -/
theorem C1_single_file_lifecycle (fs1 fs2 fs3 : LocalFS) (o : Oracle)
    (root path key : String) (s : State)
    (hrel : filepath_Rel root path = .ok key)
    (h1 : isDir fs1 path = false) (h2 : isDir fs2 path = false)
    (h3 : isDir fs3 path = false) :
    (handleEvent fs3 o root ⟨path, Remove⟩
        (handleEvent fs2 o root ⟨path, Write⟩
          (handleEvent fs1 o root ⟨path, Create⟩ s))).trace
      = s.trace ++ [Call.FPutObject key path, Call.FPutObject key path, Call.RemoveObject key]
    ∧ (∀ rs ks : List (List Char), (∀ e ∈ rs, regularElem e) → (∀ e ∈ ks, regularElem e) →
        ks ≠ [] → filepath_Rel (absPath rs) (absPath (rs ++ ks)) = .ok (relPath ks))
    ∧ filepath_Rel "/data" "/data/notes/todo.txt" = .ok "notes/todo.txt" := by
  refine ⟨?_, fun rs ks hrs hks hne => (rel_join_under rs ks hrs hks hne).1, by decide⟩
  have rc : Remove &&& Create ≠ Create := by decide
  have rw_ : Remove &&& Write ≠ Write := by decide
  have rr : Remove &&& Remove = Remove := by decide
  have wc : Write &&& Create ≠ Create := by decide
  have ww : Write &&& Write = Write := by decide
  have cc : Create &&& Create = Create := by decide
  rw [handleEvent_remove_file fs3 o root ⟨path, Remove⟩ key _ hrel rc rw_ rr h3,
      handleEvent_write_file fs2 o root ⟨path, Write⟩ key _ hrel wc ww h2,
      handleEvent_create_file fs1 o root ⟨path, Create⟩ key _ hrel cc h1]
  simp [DeleteFile, UpdateFile, CreateFile, UploadFile]

/-- C1 at `/data/notes/todo.txt`: created with 10 bytes, modified to 20 bytes,
deleted. -/
theorem C1_single_file_lifecycle_witness :
    (handleEvent fsNotesOnly (allOk 1000) "/data" ⟨"/data/notes/todo.txt", Remove⟩
        (handleEvent (fsTodo 20 200) (allOk 1000) "/data" ⟨"/data/notes/todo.txt", Write⟩
          (handleEvent (fsTodo 10 100) (allOk 1000) "/data" ⟨"/data/notes/todo.txt", Create⟩
            State.empty))).trace
      = [Call.FPutObject "notes/todo.txt" "/data/notes/todo.txt",
         Call.FPutObject "notes/todo.txt" "/data/notes/todo.txt",
         Call.RemoveObject "notes/todo.txt"] :=
  (C1_single_file_lifecycle (fsTodo 10 100) (fsTodo 20 200) fsNotesOnly (allOk 1000) "/data"
    "/data/notes/todo.txt" "notes/todo.txt" State.empty (by decide) (by decide) (by decide)
    (by decide)).1

/-- C7. A Removed event for `/data/notes`, a directory that is gone from the disk
when the event is handled, while the bucket still holds `notes/todo.txt`:
`isDir` stats the removed path, fails and answers `false`, so `handleEvent`
issues `DeleteFile("notes")` and never lists or deletes the keys under `notes/`;
the object `notes/todo.txt` stays in the bucket. -/
theorem C7_removed_directory_takes_file_branch :
    (handleEvent fsEmptyRoot (allOk 1000) "/data" ⟨"/data/notes", Remove⟩ stateWithTodo).trace
      = [Call.RemoveObject "notes"]
    ∧ (handleEvent fsEmptyRoot (allOk 1000) "/data" ⟨"/data/notes", Remove⟩ stateWithTodo).objects
      = [{ Key := "notes/todo.txt", Size := 10, LastModified := 100 }] := by
  decide

/-- C8. For every event that carries the Rename bit and neither the Create nor
the Write bit, for a path with relative key `key` that is not a directory when
the event is handled, `handleEvent` issues exactly one call, the deletion of
`key` (`DeleteFile(key)`), hence no upload; the watch set is unchanged and the
bucket gains no object. -/
theorem C8_rename_deletes_old_key_only (fs : LocalFS) (o : Oracle) (root : String)
    (ev : Event) (key : String) (s : State)
    (hrel : filepath_Rel root ev.Name = .ok key)
    (hc : ev.Op &&& Create ≠ Create) (hw : ev.Op &&& Write ≠ Write)
    (hop : ev.Op &&& Rename = Rename) (hdir : isDir fs ev.Name = false) :
    (handleEvent fs o root ev s).trace = s.trace ++ [Call.RemoveObject key]
    ∧ (handleEvent fs o root ev s).watched = s.watched
    ∧ List.Sublist (handleEvent fs o root ev s).objects s.objects := by
  by_cases hr : ev.Op &&& Remove = Remove
  · rw [handleEvent_remove_file fs o root ev key s hrel hc hw hr hdir]
    simp only [DeleteFile, logged_trace, logged_watched, logged_objects, RemoveObject_trace,
      RemoveObject_watched, logln_trace, logln_watched, true_and]
    exact RemoveObject_objects_sublist o key _
  · rw [handleEvent_rename_file fs o root ev key s hrel hc hw hr hop hdir]
    simp only [DeleteFile, logged_trace, logged_watched, logged_objects, RemoveObject_trace,
      RemoveObject_watched, logln_trace, logln_watched, true_and]
    exact RemoveObject_objects_sublist o key _

/-- C8 at the rename of `/data/a.txt` to `/data/b.txt`: the one call is the
deletion of `a.txt`. -/
theorem C8_rename_deletes_old_key_only_witness :
    (handleEvent fsRenamed (allOk 1000) "/data" ⟨"/data/a.txt", Rename⟩ stateWithA).trace
      = [Call.RemoveObject "a.txt"] :=
  (C8_rename_deletes_old_key_only fsRenamed (allOk 1000) "/data" ⟨"/data/a.txt", Rename⟩ "a.txt"
    stateWithA (by decide) (by decide) (by decide) (by decide) (by decide)).1

/-- C9, refuted as stated. A Created event for `/other/x.txt`, a file outside the
watch root `/data`: `filepath.Rel` succeeds with `../other/x.txt`, the event is
not dropped and the file is uploaded under that key. -/
theorem C9_outside_root_not_dropped :
    filepath_Rel "/data" "/other/x.txt" = .ok "../other/x.txt"
    ∧ (handleEvent fsOutside (allOk 1000) "/data" ⟨"/other/x.txt", Create⟩ State.empty).trace
      = [Call.FPutObject "../other/x.txt" "/other/x.txt"]
    ∧ (handleEvent fsOutside (allOk 1000) "/data" ⟨"/other/x.txt", Create⟩ State.empty).objects
      = [{ Key := "../other/x.txt", Size := 5, LastModified := 1000 }] := by
  decide

/-- C9, amended. For every event whose relative path cannot be computed
(`filepath.Rel` returns an error), `handleEvent` drops the event: it issues no
call at all (no upload, no delete, no listing, no watch subscription), leaves
the bucket and the watch set as they were, and logs the failure. -/
theorem C9_rel_failure_drops_event (fs : LocalFS) (o : Oracle) (root : String) (ev : Event)
    (err : GoError) (s : State) (hrel : filepath_Rel root ev.Name = .error err) :
    (handleEvent fs o root ev s).trace = s.trace
    ∧ (handleEvent fs o root ev s).objects = s.objects
    ∧ (handleEvent fs o root ev s).watched = s.watched
    ∧ (handleEvent fs o root ev s).log
      = s.log ++ ["Failed to get relative path for " ++ ev.Name ++ ": " ++ err.Message] := by
  rw [handleEvent_rel_error fs o root ev err s hrel]
  exact ⟨rfl, rfl, rfl, rfl⟩

/-- C9, amended, at the relative path `x.txt` against the root `/data`. -/
theorem C9_rel_failure_drops_event_witness :
    (handleEvent fsOutside (allOk 1000) "/data" ⟨"x.txt", Create⟩ State.empty).trace = [] :=
  (C9_rel_failure_drops_event fsOutside (allOk 1000) "/data" ⟨"x.txt", Create⟩
    { Code := "", NotExist := false, Message := "Rel: can't make x.txt relative to /data" }
    State.empty (by decide)).1

/-- C10. For every event whose target is a directory when the event is handled
(with a relative path under the root): if it carries the Create bit,
`handleEvent` issues the one call `watcher.Add(path)` and no store call, the
bucket is unchanged, the directory is in the watch set when the call succeeds,
and when the call fails the watch set is unchanged, the failure is logged and
`handleEvent` returns normally; if it carries the Write bit and not the Create
bit, `handleEvent` issues no call and leaves bucket and watch set unchanged. -/
theorem C10_directory_events (fs : LocalFS) (o : Oracle) (root : String) (ev : Event)
    (key : String) (s : State)
    (hrel : filepath_Rel root ev.Name = .ok key) (hdir : isDir fs ev.Name = true) :
    (ev.Op &&& Create = Create →
      (handleEvent fs o root ev s).trace = s.trace ++ [Call.WatcherAdd ev.Name]
      ∧ (handleEvent fs o root ev s).objects = s.objects
      ∧ (∀ stamp, o s.tick = .ok stamp → ev.Name ∈ (handleEvent fs o root ev s).watched)
      ∧ (∀ err, o s.tick = .fail err →
          (handleEvent fs o root ev s).watched = s.watched
          ∧ (handleEvent fs o root ev s).log
            = s.log ++ ["Created file: " ++ ev.Name,
                        "Failed to watch new directory: " ++ err.Message]))
    ∧ (ev.Op &&& Create ≠ Create → ev.Op &&& Write = Write →
      (handleEvent fs o root ev s).trace = s.trace
      ∧ (handleEvent fs o root ev s).objects = s.objects
      ∧ (handleEvent fs o root ev s).watched = s.watched) := by
  constructor
  · intro hop
    rw [handleEvent_create_dir fs o root ev key s hrel hop hdir]
    refine ⟨by simp, by simp, ?_, ?_⟩
    · intro stamp hs
      simp only [logged_watched]
      unfold WatcherAdd
      simp only [logln_tick, hs]
      by_cases hm : ev.Name ∈ s.watched <;> simp [State.issue, hm]
    · intro err hs
      unfold WatcherAdd
      simp [logged, hs, State.issue, State.logln]
  · intro hc hop
    rw [handleEvent_write_dir fs o root ev key s hrel hc hop hdir]
    exact ⟨rfl, rfl, rfl⟩

/-- C10 at a Created event for the new directory `/data/notes`: it is subscribed. -/
theorem C10_directory_events_witness :
    (handleEvent fsNotesOnly (allOk 1000) "/data" ⟨"/data/notes", Create⟩ State.empty).trace
      = [Call.WatcherAdd "/data/notes"]
    ∧ "/data/notes" ∈
        (handleEvent fsNotesOnly (allOk 1000) "/data" ⟨"/data/notes", Create⟩ State.empty).watched :=
  have h := (C10_directory_events fsNotesOnly (allOk 1000) "/data" ⟨"/data/notes", Create⟩ "notes"
    State.empty (by decide) (by decide)).1 (by decide)
  ⟨h.1, h.2.2.1 1000 rfl⟩

/-! ## The full sync cycle -/

/-- The walk function on a regular file starts with the remote `StatObject`. -/
theorem walkFn_file (fs : LocalFS) (o : Oracle) (root : String) (e : WalkEntry)
    (info : FileInfo) (key : String) (s : State)
    (hinfo : e.info = .ok info) (hfile : info.IsDir = false)
    (hrel : filepath_Rel root e.path = .ok key) :
    walkFn fs o root e s =
      match StatObject o key s with
      | (s1, .error err) =>
        if err.Code = "NoSuchKey" then
          match CreateFile fs o key e.path
              (s1.logln ("Uploading new file " ++ key ++ " to MinIO")) with
          | (s3, some err) =>
            (s3.logln ("Failed to upload file " ++ e.path ++ ": " ++ err.Message), some err)
          | (s3, none) => (s3, none)
        else
          (s1.logln ("Failed to stat remote file " ++ key ++ ": " ++ err.Message), some err)
      | (s1, .ok remoteObject) =>
        match compareFiles fs e.path remoteObject s1 with
        | (s2, true) =>
          (s2.logln ("File " ++ key ++ " is identical on local and remote, skipping"), none)
        | (s2, false) =>
          match UpdateFile fs o key e.path
              (s2.logln ("Updating file " ++ key ++ " on MinIO")) with
          | (s4, some err) =>
            (s4.logln ("Failed to update file " ++ e.path ++ ": " ++ err.Message), some err)
          | (s4, none) => (s4, none) := by
  unfold walkFn
  simp only [hinfo, hrel, hfile]
  rfl

/-- C2. In the walk of a sync cycle, for every visited regular file with relative
key `key` the walk function first stats the key remotely and then:
when the stat reports `NoSuchKey` it uploads the file (the calls are exactly
`StatObject(key)`, `FPutObject(key, path)`); when the stat reports an object
whose size and `LastModified` equal the local size and modification time it
skips the file (the only call is `StatObject(key)`: no upload, no delete, the
bucket is unchanged and the walk goes on; and the delete phase, whatever the
listing, issues no delete for that key, the key's local path being the file);
when the stat reports an object and the local size or modification time differs
it uploads the file. -/
theorem C2_sweep_decision (fs : LocalFS) (o : Oracle) (root : String) (e : WalkEntry)
    (info : FileInfo) (key : String) (s : State)
    (hinfo : e.info = .ok info) (hfile : info.IsDir = false)
    (hrel : filepath_Rel root e.path = .ok key) :
    (∀ err, (StatObject o key s).2 = .error err → err.Code = "NoSuchKey" →
        (walkFn fs o root e s).1.trace
          = s.trace ++ [Call.StatObject key, Call.FPutObject key e.path])
    ∧ (∀ ob li, (StatObject o key s).2 = .ok ob → fs.Stat e.path = .ok li →
        li.Size = ob.Size → li.ModTime = ob.LastModified →
        (walkFn fs o root e s).1.trace = s.trace ++ [Call.StatObject key]
        ∧ (walkFn fs o root e s).1.objects = s.objects
        ∧ (walkFn fs o root e s).2 = none
        ∧ (filepath_Join root key = e.path → ∀ listing s2,
            Call.RemoveObject key ∉ newCalls s2 (deleteMissing fs o root listing s2)))
    ∧ (∀ ob li, (StatObject o key s).2 = .ok ob → fs.Stat e.path = .ok li →
        (li.Size ≠ ob.Size ∨ li.ModTime ≠ ob.LastModified) →
        (walkFn fs o root e s).1.trace
          = s.trace ++ [Call.StatObject key, Call.FPutObject key e.path]) := by
  rw [walkFn_file fs o root e info key s hinfo hfile hrel]
  refine ⟨?_, ?_, ?_⟩
  · intro err hs hcode
    cases hS : StatObject o key s with
    | mk s1 r =>
      have ht : s1.trace = s.trace ++ [Call.StatObject key] := by
        have := StatObject_trace o key s
        rw [hS] at this
        exact this
      rw [hS] at hs
      simp only at hs
      subst hs
      simp only [hcode, if_true, CreateFile, UploadFile]
      cases hU : FPutObject fs o key e.path
          (s1.logln ("Uploading new file " ++ key ++ " to MinIO")) with
      | mk s3 r3 =>
        have ht3 := FPutObject_trace fs o key e.path
          (s1.logln ("Uploading new file " ++ key ++ " to MinIO"))
        rw [hU] at ht3
        cases r3 <;> simp_all
  · intro ob li hs hl hsz hmt
    cases hS : StatObject o key s with
    | mk s1 r =>
      have ht : s1.trace = s.trace ++ [Call.StatObject key] := by
        have := StatObject_trace o key s
        rw [hS] at this
        exact this
      have hob : s1.objects = s.objects := by
        have := StatObject_objects o key s
        rw [hS] at this
        exact this
      rw [hS] at hs
      simp only at hs
      subst hs
      refine ⟨?_, ?_, ?_, ?_⟩
      · simp [compareFiles, hl, hsz, hmt, ht]
      · simp [compareFiles, hl, hsz, hmt, hob]
      · simp [compareFiles, hl, hsz, hmt]
      · intro hjoin listing s2 hmem
        unfold newCalls at hmem
        rw [deleteMissing_trace, List.drop_left] at hmem
        simp only [specDeletions, List.mem_map, List.mem_filter, Bool.and_eq_true] at hmem
        obtain ⟨x, ⟨_, _, hm⟩, hk⟩ := hmem
        have hkey : x.Key = key := by simpa using hk
        rw [hkey] at hm
        unfold localPathMissing at hm
        rw [hjoin, hl] at hm
        cases hm
  · intro ob li hs hl hne
    cases hS : StatObject o key s with
    | mk s1 r =>
      have ht : s1.trace = s.trace ++ [Call.StatObject key] := by
        have := StatObject_trace o key s
        rw [hS] at this
        exact this
      rw [hS] at hs
      simp only at hs
      subst hs
      have hcmp : compareFiles fs e.path ob s1 = (s1, false) := by
        unfold compareFiles
        simp only [hl]
        rcases hne with h | h
        · simp [h]
        · simp [h]
      simp only [hcmp, UpdateFile, UploadFile]
      cases hU : FPutObject fs o key e.path
          (s1.logln ("Updating file " ++ key ++ " on MinIO")) with
      | mk s3 r3 =>
        have ht3 := FPutObject_trace fs o key e.path
          (s1.logln ("Updating file " ++ key ++ " on MinIO"))
        rw [hU] at ht3
        cases r3 <;> simp_all

/-- C2 at `/data/notes/todo.txt` (10 bytes, modified at 100) against a bucket that
holds the key with the same size and time: the file is skipped. -/
theorem C2_sweep_decision_witness :
    (walkFn (fsTodo 10 100) (allOk 1000) "/data"
        ⟨"/data/notes/todo.txt", .ok { Size := 10, ModTime := 100, IsDir := false }⟩
        stateWithTodo).1.trace
      = [Call.StatObject "notes/todo.txt"] :=
  ((C2_sweep_decision (fsTodo 10 100) (allOk 1000) "/data"
      ⟨"/data/notes/todo.txt", .ok { Size := 10, ModTime := 100, IsDir := false }⟩
      { Size := 10, ModTime := 100, IsDir := false } "notes/todo.txt" stateWithTodo
      rfl rfl (by decide)).2.1
    { Key := "notes/todo.txt", Size := 10, LastModified := 100, Err := none }
    { Size := 10, ModTime := 100, IsDir := false } (by decide) (by decide) rfl rfl).1

/-- C5. The delete phase of a sync cycle issues, for the listing it is given,
exactly the calls `DeleteFile(key)` for the listed keys whose local path
`filepath.Join(root, key)` does not exist, in listing order, and nothing else:
a listed key is deleted if and only if its local path does not exist, and every
deleted key is a listed key whose local path does not exist.  In particular,
with `todo.txt` removed locally and `notes/todo.txt` still in the bucket, the
cycle lists the bucket and deletes exactly that key. -/
theorem C5_delete_phase (fs : LocalFS) (o : Oracle) (root : String)
    (listing : List ObjectInfo) (s : State) :
    (deleteMissing fs o root listing s).trace = s.trace ++ specDeletions fs root listing
    ∧ (∀ ob ∈ listing, ob.Err = none →
        (Call.RemoveObject ob.Key ∈ specDeletions fs root listing
          ↔ localPathMissing fs root ob.Key = true))
    ∧ (∀ c ∈ specDeletions fs root listing,
        ∃ ob ∈ listing, ob.Err = none ∧ c = Call.RemoveObject ob.Key
          ∧ localPathMissing fs root ob.Key = true)
    ∧ (syncCycle fsNotesOnly (allOk 1000) "/data" stateWithTodo).trace
        = [Call.ListObjects "", Call.RemoveObject "notes/todo.txt"]
    ∧ (syncCycle fsNotesOnly (allOk 1000) "/data" stateWithTodo).objects = [] := by
  refine ⟨deleteMissing_trace fs o root listing s, ?_, ?_, by decide, by decide⟩
  · intro ob hob hE
    simp only [specDeletions, List.mem_map, List.mem_filter, Bool.and_eq_true]
    constructor
    · rintro ⟨ob2, ⟨_, _, hm⟩, hk⟩
      have : ob2.Key = ob.Key := by simpa using hk
      rw [← this]
      exact hm
    · intro hm
      exact ⟨ob, ⟨hob, by simp [hE], hm⟩, rfl⟩
  · intro c hc
    simp only [specDeletions, List.mem_map, List.mem_filter, Bool.and_eq_true] at hc
    obtain ⟨ob, ⟨hob, hE, hm⟩, hk⟩ := hc
    refine ⟨ob, hob, ?_, hk.symm, hm⟩
    cases h : ob.Err with
    | none => rfl
    | some e => simp [h] at hE

/-- The walk stops at the first visit on which the walk function returns an
error; the visits after it are not made. -/
theorem filepath_Walk_stops (fn : WalkEntry → State → State × Option GoError)
    (pre post : List WalkEntry) (e : WalkEntry) (s s1 s2 : State) (err : GoError)
    (hpre : filepath_Walk fn pre s = (s1, none)) (hfail : fn e s1 = (s2, some err)) :
    filepath_Walk fn (pre ++ e :: post) s = (s2, some err) := by
  induction pre generalizing s with
  | nil =>
    simp only [filepath_Walk] at hpre
    cases hpre
    simp [filepath_Walk, hfail]
  | cons a rest ih =>
    simp only [List.cons_append, filepath_Walk]
    simp only [filepath_Walk] at hpre
    cases hA : fn a s with
    | mk sa ra =>
      rw [hA] at hpre
      cases ra with
      | some e0 => simp at hpre
      | none => exact ih sa hpre

@[simp] theorem walkReport_trace (w : State × Option GoError) :
    (walkReport w).trace = w.1.trace := by
  obtain ⟨s1, r⟩ := w
  cases r <;> rfl

@[simp] theorem walkReport_objects (w : State × Option GoError) :
    (walkReport w).objects = w.1.objects := by
  obtain ⟨s1, r⟩ := w
  cases r <;> rfl

@[simp] theorem walkReport_tick (w : State × Option GoError) :
    (walkReport w).tick = w.1.tick := by
  obtain ⟨s1, r⟩ := w
  cases r <;> rfl

/-- What a listing delivers depends on the bucket and on the oracle only. -/
theorem ListObjects_listing_congr (o : Oracle) (pfx : String) (s t : State)
    (hob : s.objects = t.objects) (htick : s.tick = t.tick) :
    (ListObjects o pfx s).2 = (ListObjects o pfx t).2 := by
  unfold ListObjects
  rw [hob, htick]
  cases o t.tick <;> rfl

/-- The calls of a whole cycle: those of the walk, the listing of the whole
bucket, and the deletions the delete phase makes for that listing. -/
theorem syncCycle_trace (fs : LocalFS) (o : Oracle) (root : String) (s : State) :
    (syncCycle fs o root s).trace
      = (filepath_Walk (walkFn fs o root) (fs.Walk root)
          (s.eloginfo "Starting full sync cycle")).1.trace
        ++ [Call.ListObjects ""]
        ++ specDeletions fs root
            (ListObjects o ""
              (filepath_Walk (walkFn fs o root) (fs.Walk root)
                (s.eloginfo "Starting full sync cycle")).1).2 := by
  unfold syncCycle
  simp only [deleteMissing_trace, ListObjects_trace]
  rw [walkReport_trace, ListObjects_listing_congr o "" _ _ (walkReport_objects _)
    (walkReport_tick _)]

/-- The delete loop only adds log lines. -/
theorem deleteMissing_log (fs : LocalFS) (o : Oracle) (root : String)
    (listing : List ObjectInfo) (s : State) (line : String) (h : line ∈ s.log) :
    line ∈ (deleteMissing fs o root listing s).log := by
  induction listing generalizing s with
  | nil => simpa [deleteMissing] using h
  | cons ob rest ih =>
    unfold deleteMissing
    cases hE : ob.Err with
    | some err => exact ih _ (by simp [State.logln, h])
    | none =>
      simp only
      cases hS : fs.Stat (filepath_Join root ob.Key) with
      | ok li => exact ih _ h
      | error err =>
        simp only
        by_cases hN : err.NotExist = true
        · simp only [hN, if_true]
          have hlog : line ∈ (DeleteFile o ob.Key (s.logln
              ("Deleting remote file " ++ ob.Key ++ " that does not exist locally"))).1.log := by
            unfold DeleteFile RemoveObject
            cases o (s.logln
              ("Deleting remote file " ++ ob.Key ++ " that does not exist locally")).tick <;>
              simp [State.issue, State.logln, h]
          cases hD : DeleteFile o ob.Key
              (s.logln ("Deleting remote file " ++ ob.Key ++ " that does not exist locally")) with
          | mk s2 r =>
            rw [hD] at hlog
            cases r with
            | none => exact ih _ hlog
            | some e2 => exact ih _ (by simp [State.logln]; exact Or.inl hlog)
        · simp only [hN]
          exact ih _ h

/-- C6, refuted as stated. With the files `/data/a.txt` and `/data/b.txt` and an
empty bucket, a cycle without failure examines and uploads both; when the
remote stat of `a.txt` fails (`AccessDenied`), or when the upload of `a.txt`
fails, the walk ends there: `b.txt` is neither examined nor uploaded in that
cycle, which goes straight on to the listing. -/
theorem C6_failure_skips_remaining_files :
    (syncCycle fsTwoFiles (allOk 1000) "/data" State.empty).trace
      = [Call.StatObject "a.txt", Call.FPutObject "a.txt" "/data/a.txt",
         Call.StatObject "b.txt", Call.FPutObject "b.txt" "/data/b.txt",
         Call.ListObjects ""]
    ∧ (syncCycle fsTwoFiles firstFails "/data" State.empty).trace
      = [Call.StatObject "a.txt", Call.ListObjects ""]
    ∧ (syncCycle fsTwoFiles secondFails "/data" State.empty).trace
      = [Call.StatObject "a.txt", Call.FPutObject "a.txt" "/data/a.txt", Call.ListObjects ""]
    ∧ (syncCycle fsTwoFiles secondFails "/data" State.empty).objects = [] := by
  decide

/-- A failed remote stat (other than not-found) makes the walk function return
the error after the one call. -/
theorem walkFn_stat_fails (fs : LocalFS) (o : Oracle) (root : String) (e : WalkEntry)
    (info : FileInfo) (key : String) (s : State) (err : GoError)
    (hinfo : e.info = .ok info) (hfile : info.IsDir = false)
    (hrel : filepath_Rel root e.path = .ok key)
    (ho : o s.tick = .fail err) (hcode : err.Code ≠ "NoSuchKey") :
    walkFn fs o root e s =
      ((s.issue (.StatObject key)).logln
        ("Failed to stat remote file " ++ key ++ ": " ++ err.Message), some err) := by
  rw [walkFn_file fs o root e info key s hinfo hfile hrel]
  simp [StatObject, ho, hcode]

/-- A failed upload makes the walk function return the error after the stat and
the upload. -/
theorem walkFn_upload_fails (fs : LocalFS) (o : Oracle) (root : String) (e : WalkEntry)
    (info : FileInfo) (key : String) (s : State) (err : GoError) (t : Int) (li : FileInfo)
    (hinfo : e.info = .ok info) (hfile : info.IsDir = false)
    (hrel : filepath_Rel root e.path = .ok key)
    (ho : o s.tick = .ok t) (hstat : fs.Stat e.path = .ok li) (hli : li.IsDir = false)
    (hdiff : ∀ ob, findObject s.objects key = some ob →
      li.Size ≠ ob.Size ∨ li.ModTime ≠ ob.LastModified)
    (ho2 : o (s.tick + 1) = .fail err) :
    (walkFn fs o root e s).2 = some err
    ∧ (walkFn fs o root e s).1.objects = s.objects
    ∧ (walkFn fs o root e s).1.tick = s.tick + 2
    ∧ (walkFn fs o root e s).1.trace
        = s.trace ++ [Call.StatObject key, Call.FPutObject key e.path] := by
  rw [walkFn_file fs o root e info key s hinfo hfile hrel]
  cases hf : findObject s.objects key with
  | none =>
    simp [StatObject, ho, hf, noSuchKey, CreateFile, UploadFile, FPutObject, hstat, hli,
      State.issue, State.logln, ho2]
  | some ob =>
    have hcmp : ∀ st, compareFiles fs e.path ob.info st = (st, false) := by
      intro st
      unfold compareFiles
      simp only [hstat, RemoteObject.info]
      rcases hdiff ob hf with h | h
      · simp [h]
      · simp [h]
    simp [StatObject, ho, hf, hcmp, UpdateFile, UploadFile, FPutObject, hstat, hli,
      State.issue, State.logln, ho2]

/-- C6, amended. When, during the walk of a sync cycle, the store call for one
file fails (the remote stat fails with an error other than not-found, or the
upload that was decided fails), the walk function returns that error and the
walk ends there: the files after it are not examined in this cycle.  The cycle
itself is not aborted: the failure is logged and the cycle goes on to list the
bucket and to delete the keys whose local path does not exist. -/
theorem C6_store_failure_ends_walk (fs : LocalFS) (o : Oracle) (root : String)
    (pre post : List WalkEntry) (e : WalkEntry) (info : FileInfo) (key : String)
    (s s1 : State) (err : GoError)
    (hwalk : fs.Walk root = pre ++ e :: post)
    (hpre : filepath_Walk (walkFn fs o root) pre (s.eloginfo "Starting full sync cycle")
      = (s1, none))
    (hinfo : e.info = .ok info) (hfile : info.IsDir = false)
    (hrel : filepath_Rel root e.path = .ok key)
    (hfail : (o s1.tick = .fail err ∧ err.Code ≠ "NoSuchKey")
      ∨ (∃ t li, o s1.tick = .ok t ∧ fs.Stat e.path = .ok li ∧ li.IsDir = false
          ∧ (∀ ob, findObject s1.objects key = some ob →
              li.Size ≠ ob.Size ∨ li.ModTime ≠ ob.LastModified)
          ∧ o (s1.tick + 1) = .fail err)) :
    (walkFn fs o root e s1).2 = some err
    ∧ (walkFn fs o root e s1).1.objects = s1.objects
    ∧ ((walkFn fs o root e s1).1.trace = s1.trace ++ [Call.StatObject key]
        ∨ (walkFn fs o root e s1).1.trace
            = s1.trace ++ [Call.StatObject key, Call.FPutObject key e.path])
    ∧ filepath_Walk (walkFn fs o root) (fs.Walk root) (s.eloginfo "Starting full sync cycle")
        = walkFn fs o root e s1
    ∧ (syncCycle fs o root s).trace
        = (walkFn fs o root e s1).1.trace ++ [Call.ListObjects ""]
          ++ specDeletions fs root (ListObjects o "" (walkFn fs o root e s1).1).2
    ∧ ("Failed to walk directory: " ++ err.Message) ∈ (syncCycle fs o root s).log := by
  have hres : (walkFn fs o root e s1).2 = some err
      ∧ (walkFn fs o root e s1).1.objects = s1.objects
      ∧ ((walkFn fs o root e s1).1.trace = s1.trace ++ [Call.StatObject key]
          ∨ (walkFn fs o root e s1).1.trace
              = s1.trace ++ [Call.StatObject key, Call.FPutObject key e.path]) := by
    rcases hfail with ⟨ho, hcode⟩ | ⟨t, li, ho, hstat, hli, hdiff, ho2⟩
    · rw [walkFn_stat_fails fs o root e info key s1 err hinfo hfile hrel ho hcode]
      exact ⟨rfl, rfl, Or.inl rfl⟩
    · have h := walkFn_upload_fails fs o root e info key s1 err t li hinfo hfile hrel ho hstat
        hli hdiff ho2
      exact ⟨h.1, h.2.1, Or.inr h.2.2.2⟩
  have hW : filepath_Walk (walkFn fs o root) (fs.Walk root)
      (s.eloginfo "Starting full sync cycle") = walkFn fs o root e s1 := by
    rw [hwalk]
    exact (filepath_Walk_stops (walkFn fs o root) pre post e _ s1 (walkFn fs o root e s1).1 err
      hpre (Prod.ext rfl hres.1)).trans (Prod.ext rfl hres.1.symm)
  refine ⟨hres.1, hres.2.1, hres.2.2, hW, ?_, ?_⟩
  · rw [syncCycle_trace, hW]
  · unfold syncCycle
    simp only [hW]
    apply deleteMissing_log
    have hlog : ("Failed to walk directory: " ++ err.Message)
        ∈ (walkReport (walkFn fs o root e s1)).log := by
      unfold walkReport
      rw [hres.1]
      simp [State.logln, State.eloginfo]
    unfold ListObjects
    cases o (walkReport (walkFn fs o root e s1)).tick <;> simpa [State.issue] using hlog

/-- C6, amended, at the two files `/data/a.txt`, `/data/b.txt` when the remote
stat of `a.txt` fails: the walk ends after that one call. -/
theorem C6_store_failure_ends_walk_witness :
    filepath_Walk (walkFn fsTwoFiles firstFails "/data") (fsTwoFiles.Walk "/data")
        (State.empty.eloginfo "Starting full sync cycle")
      = walkFn fsTwoFiles firstFails "/data"
          ⟨"/data/a.txt", .ok { Size := 3, ModTime := 30, IsDir := false }⟩
          ((State.empty.eloginfo "Starting full sync cycle").logln "Found directory: .") :=
  (C6_store_failure_ends_walk fsTwoFiles firstFails "/data"
    [⟨"/data", .ok dirInfo⟩]
    [⟨"/data/b.txt", .ok { Size := 4, ModTime := 40, IsDir := false }⟩]
    ⟨"/data/a.txt", .ok { Size := 3, ModTime := 30, IsDir := false }⟩
    { Size := 3, ModTime := 30, IsDir := false } "a.txt" State.empty
    ((State.empty.eloginfo "Starting full sync cycle").logln "Found directory: .")
    { Code := "AccessDenied", NotExist := false, Message := "access denied" }
    (by decide) (by decide) rfl rfl (by decide)
    (Or.inl ⟨by decide, by decide⟩)).2.2.2.1

/-! ## The bucket as a finite map -/

theorem find_cons_hit (p : RemoteObject → Bool) (a : RemoteObject) (l : List RemoteObject)
    (h : p a = true) : List.find? p (a :: l) = some a := by
  simp [List.find?_cons, h]

theorem find_cons_miss (p : RemoteObject → Bool) (a : RemoteObject) (l : List RemoteObject)
    (h : p a = false) : List.find? p (a :: l) = List.find? p l := by
  simp [List.find?_cons, h]

theorem filter_cons_hit (p : RemoteObject → Bool) (a : RemoteObject) (l : List RemoteObject)
    (h : p a = true) : List.filter p (a :: l) = a :: List.filter p l := by
  simp [List.filter_cons, h]

theorem filter_cons_miss (p : RemoteObject → Bool) (a : RemoteObject) (l : List RemoteObject)
    (h : p a = false) : List.filter p (a :: l) = List.filter p l := by
  simp [List.filter_cons, h]

theorem findObject_filter_ne (objects : List RemoteObject) (k k2 : String) (h : k2 ≠ k) :
    findObject (objects.filter (fun ob => ob.Key != k2)) k = findObject objects k := by
  induction objects with
  | nil => rfl
  | cons a rest ih =>
    unfold findObject at ih ⊢
    by_cases ha : a.Key = k2
    · have h1 : (a.Key != k2) = false := by simp [ha]
      have h2 : (a.Key == k) = false := by
        simp only [beq_eq_false_iff_ne, ne_eq]
        exact fun h3 => h (ha.symm.trans h3)
      rw [filter_cons_miss _ a rest h1, find_cons_miss _ a rest h2, ih]
    · have h1 : (a.Key != k2) = true := by simp [ha]
      rw [filter_cons_hit _ a rest h1]
      cases hk : (a.Key == k)
      · rw [find_cons_miss _ a _ hk, find_cons_miss _ a _ hk, ih]
      · rw [find_cons_hit _ a _ hk, find_cons_hit _ a _ hk]

theorem findObject_putObject (objects : List RemoteObject) (r : RemoteObject) (k : String) :
    findObject (putObject objects r) k
      = if r.Key = k then some r else findObject objects k := by
  by_cases h : r.Key = k
  · have h1 : (r.Key == k) = true := by simp [h]
    unfold findObject putObject
    rw [find_cons_hit _ r _ h1, if_pos h]
  · have h1 : (r.Key == k) = false := by simp [h]
    have := findObject_filter_ne objects k r.Key h
    unfold findObject at this
    unfold findObject putObject
    rw [find_cons_miss _ r _ h1, if_neg h, this]

theorem findObject_filter_key (objects : List RemoteObject) (q : String → Bool) (k : String)
    (hq : q k = true) :
    findObject (objects.filter (fun ob => q ob.Key)) k = findObject objects k := by
  induction objects with
  | nil => rfl
  | cons a rest ih =>
    unfold findObject at ih ⊢
    by_cases hk : a.Key = k
    · have h1 : (a.Key == k) = true := by simp [hk]
      have h2 : q a.Key = true := by rw [hk]; exact hq
      rw [filter_cons_hit _ a rest h2, find_cons_hit _ a _ h1, find_cons_hit _ a _ h1]
    · have h1 : (a.Key == k) = false := by simp [hk]
      rw [find_cons_miss _ a rest h1]
      cases hqa : q a.Key
      · rw [filter_cons_miss _ a rest hqa, ih]
      · rw [filter_cons_hit _ a rest hqa, find_cons_miss _ a _ h1, ih]

theorem mem_putObject (objects : List RemoteObject) (r ob : RemoteObject) :
    ob ∈ putObject objects r ↔ ob = r ∨ (ob ∈ objects ∧ ob.Key ≠ r.Key) := by
  simp [putObject, List.mem_filter]

theorem key_mem_putObject (objects : List RemoteObject) (r : RemoteObject) (k : String) :
    (∃ ob ∈ putObject objects r, ob.Key = k) ↔ (k = r.Key ∨ ∃ ob ∈ objects, ob.Key = k) := by
  constructor
  · rintro ⟨ob, hob, hk⟩
    rcases (mem_putObject objects r ob).1 hob with h | ⟨h, _⟩
    · exact Or.inl (by rw [← hk, h])
    · exact Or.inr ⟨ob, h, hk⟩
  · rintro (h | ⟨ob, hob, hk⟩)
    · exact ⟨r, (mem_putObject objects r r).2 (Or.inl rfl), h.symm⟩
    · by_cases hr : k = r.Key
      · exact ⟨r, (mem_putObject objects r r).2 (Or.inl rfl), hr.symm⟩
      · exact ⟨ob, (mem_putObject objects r ob).2 (Or.inr ⟨hob, by rw [hk]; exact hr⟩), hk⟩

/-! ## The walk when the tree is held fixed and no store call fails -/

theorem coherentEntry_spec (fs : LocalFS) (root : String) (e : WalkEntry)
    (h : coherentEntry fs root e = true) :
    ∃ info key, e.info = .ok info ∧ filepath_Rel root e.path = .ok key
      ∧ (info.IsDir = false →
          fs.Stat e.path = .ok info ∧ filepath_Join root key = e.path) := by
  unfold coherentEntry at h
  cases hi : e.info with
  | error err => simp [hi] at h
  | ok info =>
    cases hr : filepath_Rel root e.path with
    | error err => simp [hi, hr] at h
    | ok key =>
      refine ⟨info, key, rfl, rfl, ?_⟩
      intro hd
      simp only [hi, hr, hd, Bool.false_or, Bool.and_eq_true, beq_iff_eq] at h
      exact h

/-- A visit of a clean path below a clean absolute root is sound as soon as
`os.Stat` reports what the walk reported. -/
theorem coherentEntry_of_clean (fs : LocalFS) (rs ks : List (List Char)) (e : WalkEntry)
    (info : FileInfo) (hrs : ∀ x ∈ rs, regularElem x) (hks : ∀ x ∈ ks, regularElem x)
    (hne : ks ≠ []) (hpath : e.path = absPath (rs ++ ks)) (hinfo : e.info = .ok info)
    (hstat : fs.Stat e.path = .ok info) :
    coherentEntry fs (absPath rs) e = true := by
  obtain ⟨h1, h2⟩ := rel_join_under rs ks hrs hks hne
  unfold coherentEntry
  rw [hinfo, hpath, h1]
  simp only [h2, beq_self_eq_true, Bool.and_true, Bool.or_eq_true, beq_iff_eq]
  right
  rw [← hpath]
  exact hstat

/-- The walk function on a directory only logs. -/
theorem walkFn_dir (fs : LocalFS) (o : Oracle) (root : String) (e : WalkEntry)
    (info : FileInfo) (key : String) (s : State)
    (hinfo : e.info = .ok info) (hdir : info.IsDir = true)
    (hrel : filepath_Rel root e.path = .ok key) :
    walkFn fs o root e s = (s.logln ("Found directory: " ++ key), none) := by
  unfold walkFn
  simp only [hinfo, hrel, hdir, if_true]

theorem walkFn_step (fs : LocalFS) (o : Oracle) (root : String) (e : WalkEntry) (s : State)
    (hok : ∀ n, ∃ t, o n = .ok t) (hco : coherentEntry fs root e = true) :
    StepSpec fs o root e s (walkFn fs o root e s) := by
  obtain ⟨info, key, hinfo, hrel, hfile⟩ := coherentEntry_spec fs root e hco
  cases hd : info.IsDir with
  | true =>
    rw [walkFn_dir fs o root e info key s hinfo hd hrel]
    refine ⟨rfl, Or.inl ⟨?_, rfl, rfl, rfl⟩⟩
    simp [fileKey, hinfo, hd]
  | false =>
    obtain ⟨hstat, hjoin⟩ := hfile hd
    have hkey : fileKey root e = some key := by
      simp [fileKey, hinfo, hd, hrel, Except.toOption]
    obtain ⟨t0, ht0⟩ := hok s.tick
    obtain ⟨t1, ht1⟩ := hok (s.tick + 1)
    rw [walkFn_file fs o root e info key s hinfo hd hrel]
    cases hf : findObject s.objects key with
    | none =>
      refine ⟨?_, Or.inr (Or.inr ⟨key, info, t1, hkey, hinfo, by rw [hjoin]; exact hstat, ?_, ht1,
        ?_, ?_, ?_⟩)⟩
      · simp [StatObject, ht0, hf, noSuchKey, CreateFile, UploadFile, FPutObject, hstat, hd,
          State.issue, State.logln, ht1]
      · simp [hf]
      · simp [StatObject, ht0, hf, noSuchKey, CreateFile, UploadFile, FPutObject, hstat, hd,
          State.issue, State.logln, ht1]
      · simp [StatObject, ht0, hf, noSuchKey, CreateFile, UploadFile, FPutObject, hstat, hd,
          State.issue, State.logln, ht1]
      · simp [StatObject, ht0, hf, noSuchKey, CreateFile, UploadFile, FPutObject, hstat, hd,
          State.issue, State.logln, ht1]
    | some ob =>
      by_cases heq : ob.Size = info.Size ∧ ob.LastModified = info.ModTime
      · refine ⟨?_, Or.inr (Or.inl ⟨key, info, ob, hkey, hinfo, by rw [hjoin]; exact hstat, hf,
          heq.1, heq.2, ?_, ?_, ?_⟩)⟩
        · simp [StatObject, ht0, hf, compareFiles, hstat, RemoteObject.info, heq.1, heq.2]
        · simp [StatObject, ht0, hf, compareFiles, hstat, RemoteObject.info, heq.1, heq.2,
            State.issue, State.logln]
        · simp [StatObject, ht0, hf, compareFiles, hstat, RemoteObject.info, heq.1, heq.2,
            State.issue, State.logln]
        · simp [StatObject, ht0, hf, compareFiles, hstat, RemoteObject.info, heq.1, heq.2,
            State.issue, State.logln]
      · have hne : ¬ (info.Size = ob.Size ∧ info.ModTime = ob.LastModified) :=
          fun h => heq ⟨h.1.symm, h.2.symm⟩
        refine ⟨?_, Or.inr (Or.inr ⟨key, info, t1, hkey, hinfo, by rw [hjoin]; exact hstat, ?_,
          ht1, ?_, ?_, ?_⟩)⟩
        · simp [StatObject, ht0, hf, compareFiles, hstat, RemoteObject.info, hne, UpdateFile,
            UploadFile, FPutObject, hd, State.issue, State.logln, ht1]
        · rintro ⟨ob2, h2, h3⟩
          rw [hf] at h2
          cases h2
          exact heq h3
        · simp [StatObject, ht0, hf, compareFiles, hstat, RemoteObject.info, hne, UpdateFile,
            UploadFile, FPutObject, hd, State.issue, State.logln, ht1]
        · simp [StatObject, ht0, hf, compareFiles, hstat, RemoteObject.info, hne, UpdateFile,
            UploadFile, FPutObject, hd, State.issue, State.logln, ht1]
        · simp [StatObject, ht0, hf, compareFiles, hstat, RemoteObject.info, hne, UpdateFile,
            UploadFile, FPutObject, hd, State.issue, State.logln, ht1]

theorem filepath_Walk_cons_ok (fn : WalkEntry → State → State × Option GoError)
    (e : WalkEntry) (rest : List WalkEntry) (s : State) (h : (fn e s).2 = none) :
    filepath_Walk fn (e :: rest) s = filepath_Walk fn rest (fn e s).1 := by
  rw [filepath_Walk]
  cases hr : fn e s with
  | mk s1 r =>
    rw [hr] at h
    simp only at h
    subst h
    rfl

theorem Mirrors_mono (o : Oracle) (objects : List RemoteObject) (key : String)
    (info : FileInfo) (lo hi lo2 hi2 : Nat) (hlo : lo2 ≤ lo) (hhi : hi ≤ hi2)
    (h : Mirrors o objects key info lo hi) : Mirrors o objects key info lo2 hi2 := by
  obtain ⟨ob, hf, hs, hl⟩ := h
  refine ⟨ob, hf, hs, ?_⟩
  rcases hl with hl | ⟨n, h1, h2, h3⟩
  · exact Or.inl hl
  · exact Or.inr ⟨n, le_trans hlo h1, lt_of_lt_of_le h2 hhi, h3⟩

/-- One step of the walk keeps a mirrored file mirrored. -/
theorem step_preserves_Mirrors (fs : LocalFS) (o : Oracle) (root : String) (e : WalkEntry)
    (s : State) (r : State × Option GoError) (hstep : StepSpec fs o root e s r)
    (key : String) (info : FileInfo) (lo : Nat) (hlo : lo ≤ s.tick)
    (hstat : fs.Stat (filepath_Join root key) = .ok info)
    (hm : Mirrors o s.objects key info lo s.tick) :
    Mirrors o r.1.objects key info lo r.1.tick := by
  obtain ⟨_, hcase⟩ := hstep
  rcases hcase with ⟨_, hob, htick, _⟩ | ⟨k2, i2, ob2, _, _, _, _, _, _, hob, htick, _⟩ |
    ⟨k2, i2, t, _, _, hstat2, _, ht, hob, htick, _⟩
  · rw [hob, htick]
    exact hm
  · rw [hob, htick]
    exact Mirrors_mono o _ key info lo s.tick lo (s.tick + 1) (le_refl _) (Nat.le_succ _) hm
  · rw [hob, htick]
    by_cases hk : k2 = key
    · subst hk
      have hi : i2 = info := by
        rw [hstat2] at hstat
        exact Except.ok.inj hstat
      subst hi
      refine ⟨{ Key := k2, Size := i2.Size, LastModified := t }, ?_, rfl, Or.inr ⟨s.tick + 1,
        by omega, by omega, ht⟩⟩
      rw [findObject_putObject]
      simp
    · obtain ⟨ob, hf, hs, hl⟩ :=
        Mirrors_mono o _ key info lo s.tick lo (s.tick + 2) (le_refl _) (by omega) hm
      refine ⟨ob, ?_, hs, hl⟩
      rw [findObject_putObject]
      simp only [hk, if_false]
      exact hf

/-- One step of the walk makes the bucket mirror the visited file. -/
theorem step_establishes_Mirrors (fs : LocalFS) (o : Oracle) (root : String) (e : WalkEntry)
    (s : State) (r : State × Option GoError) (hstep : StepSpec fs o root e s r)
    (key : String) (info : FileInfo) (hkey : fileKey root e = some key)
    (hinfo : e.info = .ok info) :
    Mirrors o r.1.objects key info s.tick r.1.tick := by
  obtain ⟨_, hcase⟩ := hstep
  rcases hcase with ⟨hnone, _⟩ | ⟨k2, i2, ob2, hk2, hi2, _, hf, hsz, hlm, hob, htick, _⟩ |
    ⟨k2, i2, t, hk2, hi2, _, _, ht, hob, htick, _⟩
  · rw [hnone] at hkey
    cases hkey
  · rw [hk2] at hkey
    cases hkey
    rw [hi2] at hinfo
    cases hinfo
    rw [hob]
    exact ⟨ob2, hf, hsz, Or.inl hlm⟩
  · rw [hk2] at hkey
    cases hkey
    rw [hi2] at hinfo
    cases hinfo
    rw [hob, htick]
    refine ⟨{ Key := key, Size := info.Size, LastModified := t }, ?_, rfl, Or.inr ⟨s.tick + 1,
      by omega, by omega, ht⟩⟩
    rw [findObject_putObject]
    simp

theorem step_tick_le (fs : LocalFS) (o : Oracle) (root : String) (e : WalkEntry)
    (s : State) (r : State × Option GoError) (hstep : StepSpec fs o root e s r) :
    s.tick ≤ r.1.tick := by
  obtain ⟨_, hcase⟩ := hstep
  rcases hcase with ⟨_, _, htick, _⟩ | ⟨_, _, _, _, _, _, _, _, _, _, htick, _⟩ |
    ⟨_, _, _, _, _, _, _, _, _, htick, _⟩ <;> omega

theorem findObject_some (objects : List RemoteObject) (k : String) (ob : RemoteObject)
    (h : findObject objects k = some ob) : ob ∈ objects ∧ ob.Key = k := by
  unfold findObject at h
  refine ⟨List.mem_of_find?_eq_some h, ?_⟩
  have := List.find?_some h
  simpa using this

theorem step_keys (fs : LocalFS) (o : Oracle) (root : String) (e : WalkEntry)
    (s : State) (r : State × Option GoError) (hstep : StepSpec fs o root e s r) (k : String) :
    (∃ ob ∈ r.1.objects, ob.Key = k)
      ↔ ((∃ ob ∈ s.objects, ob.Key = k) ∨ fileKey root e = some k) := by
  obtain ⟨_, hcase⟩ := hstep
  rcases hcase with ⟨hnone, hob, _, _⟩ | ⟨k2, i2, ob2, hk2, _, _, hf, _, _, hob, _, _⟩ |
    ⟨k2, i2, t, hk2, _, _, _, _, hob, _, _⟩
  · rw [hob, hnone]
    simp
  · rw [hob, hk2]
    constructor
    · exact fun h => Or.inl h
    · rintro (h | h)
      · exact h
      · cases h
        obtain ⟨hm, hk⟩ := findObject_some _ _ _ hf
        exact ⟨ob2, hm, hk⟩
  · rw [hob, hk2, key_mem_putObject]
    constructor
    · rintro (h | h)
      · exact Or.inr (by rw [h])
      · exact Or.inl h
    · rintro (h | h)
      · exact Or.inr h
      · cases h
        exact Or.inl rfl

theorem step_calls (fs : LocalFS) (o : Oracle) (root : String) (e : WalkEntry)
    (s : State) (r : State × Option GoError) (hstep : StepSpec fs o root e s r) :
    ∃ calls, r.1.trace = s.trace ++ calls ∧ ∀ c ∈ calls, isDelete c = false := by
  obtain ⟨_, hcase⟩ := hstep
  rcases hcase with ⟨_, _, _, htr⟩ | ⟨k2, _, _, _, _, _, _, _, _, _, _, htr⟩ |
    ⟨k2, _, _, _, _, _, _, _, _, _, htr⟩
  · exact ⟨[], by simp [htr], by simp⟩
  · exact ⟨[Call.StatObject k2], htr, by simp [isDelete]⟩
  · exact ⟨[Call.StatObject k2, Call.FPutObject k2 e.path], htr, by simp [isDelete]⟩

theorem coherent_file_stat (fs : LocalFS) (root : String) (e : WalkEntry)
    (hco : coherentEntry fs root e = true) (key : String) (info : FileInfo)
    (hkey : fileKey root e = some key) (hinfo : e.info = .ok info) :
    info.IsDir = false ∧ filepath_Rel root e.path = .ok key
      ∧ fs.Stat (filepath_Join root key) = .ok info ∧ filepath_Join root key = e.path := by
  obtain ⟨i2, k2, hi2, hr2, hfile⟩ := coherentEntry_spec fs root e hco
  rw [hinfo] at hi2
  cases hi2
  cases hd : info.IsDir with
  | true => simp [fileKey, hinfo, hd] at hkey
  | false =>
    have : k2 = key := by
      simpa [fileKey, hinfo, hd, hr2, Except.toOption] using hkey
    subst this
    obtain ⟨h1, h2⟩ := hfile hd
    exact ⟨rfl, hr2, by rw [h2]; exact h1, h2⟩

theorem mem_fileKeys_cons (root : String) (e : WalkEntry) (rest : List WalkEntry)
    (k : String) :
    k ∈ fileKeys root (e :: rest) ↔ (fileKey root e = some k ∨ k ∈ fileKeys root rest) := by
  unfold fileKeys
  rw [List.filterMap_cons]
  cases h : fileKey root e with
  | none => simp
  | some k2 =>
    simp only [List.mem_cons, Option.some.injEq]
    constructor
    · rintro (h1 | h1)
      · exact Or.inl h1.symm
      · exact Or.inr h1
    · rintro (h1 | h1)
      · exact Or.inl h1.symm
      · exact Or.inr h1

/-- The walk of a cycle when the tree is held fixed and no store call fails. -/
theorem walk_allok (fs : LocalFS) (o : Oracle) (root : String)
    (hok : ∀ n, ∃ t, o n = .ok t) (l : List WalkEntry)
    (hco : ∀ e ∈ l, coherentEntry fs root e = true) (s : State) :
    (filepath_Walk (walkFn fs o root) l s).2 = none
    ∧ s.tick ≤ (filepath_Walk (walkFn fs o root) l s).1.tick
    ∧ (∀ k, (∃ ob ∈ (filepath_Walk (walkFn fs o root) l s).1.objects, ob.Key = k)
        ↔ ((∃ ob ∈ s.objects, ob.Key = k) ∨ k ∈ fileKeys root l))
    ∧ (∃ calls, (filepath_Walk (walkFn fs o root) l s).1.trace = s.trace ++ calls
        ∧ ∀ c ∈ calls, isDelete c = false)
    ∧ (∀ key info lo, lo ≤ s.tick → fs.Stat (filepath_Join root key) = .ok info →
        Mirrors o s.objects key info lo s.tick →
        Mirrors o (filepath_Walk (walkFn fs o root) l s).1.objects key info lo
          (filepath_Walk (walkFn fs o root) l s).1.tick)
    ∧ (∀ e ∈ l, ∀ key info, fileKey root e = some key → e.info = .ok info →
        Mirrors o (filepath_Walk (walkFn fs o root) l s).1.objects key info s.tick
          (filepath_Walk (walkFn fs o root) l s).1.tick) := by
  induction l generalizing s with
  | nil =>
    have hnil : filepath_Walk (walkFn fs o root) [] s = (s, none) := rfl
    rw [hnil]
    refine ⟨rfl, le_refl _, ?_, ⟨[], by simp, by simp⟩, ?_, ?_⟩
    · intro k
      simp [fileKeys]
    · intro key info lo _ _ hm
      exact hm
    · intro e he
      cases he
  | cons e rest ih =>
    have hstep := walkFn_step fs o root e s hok (hco e (List.mem_cons_self _ _))
    have hrest : ∀ x ∈ rest, coherentEntry fs root x = true :=
      fun x hx => hco x (List.mem_cons_of_mem _ hx)
    rw [filepath_Walk_cons_ok _ e rest s hstep.1]
    obtain ⟨h1, h2, h3, h4, h5, h6⟩ := ih hrest (walkFn fs o root e s).1
    have htk := step_tick_le fs o root e s _ hstep
    refine ⟨h1, le_trans htk h2, ?_, ?_, ?_, ?_⟩
    · intro k
      rw [h3 k, step_keys fs o root e s _ hstep k, mem_fileKeys_cons, or_assoc]
    · obtain ⟨c1, hc1, hd1⟩ := step_calls fs o root e s _ hstep
      obtain ⟨c2, hc2, hd2⟩ := h4
      refine ⟨c1 ++ c2, by rw [hc2, hc1, List.append_assoc], ?_⟩
      intro c hc
      rcases List.mem_append.1 hc with h | h
      · exact hd1 c h
      · exact hd2 c h
    · intro key info lo hlo hstat hm
      exact h5 key info lo (le_trans hlo htk) hstat
        (step_preserves_Mirrors fs o root e s _ hstep key info lo hlo hstat hm)
    · intro x hx key info hkey hinfo
      rcases List.mem_cons.1 hx with hxe | hxr
      · subst hxe
        have hst := (coherent_file_stat fs root x (hco x (List.mem_cons_self _ _)) key info
          hkey hinfo).2.2.1
        exact h5 key info s.tick htk hst
          (step_establishes_Mirrors fs o root x s _ hstep key info hkey hinfo)
      · exact Mirrors_mono o _ key info _ _ _ _ htk (le_refl _) (h6 x hxr key info hkey hinfo)

/-! ## The delete phase when no store call fails -/

theorem deleteMissing_cons_keep (fs : LocalFS) (o : Oracle) (root : String) (x : RemoteObject)
    (rest : List ObjectInfo) (s : State) (h : localPathMissing fs root x.Key = false) :
    deleteMissing fs o root (x.info :: rest) s = deleteMissing fs o root rest s := by
  rw [deleteMissing]
  simp only [RemoteObject.info]
  unfold localPathMissing at h
  cases hS : fs.Stat (filepath_Join root x.Key) with
  | ok li => rfl
  | error err =>
    rw [hS] at h
    simp only at h
    simp only [h]
    rfl

theorem deleteMissing_cons_delete (fs : LocalFS) (o : Oracle) (root : String)
    (x : RemoteObject) (rest : List ObjectInfo) (s : State) (t : Int)
    (h : localPathMissing fs root x.Key = true) (ho : o s.tick = .ok t) :
    deleteMissing fs o root (x.info :: rest) s
      = deleteMissing fs o root rest
          { (s.logln ("Deleting remote file " ++ x.Key ++ " that does not exist locally")).issue
              (.RemoveObject x.Key) with
            objects := s.objects.filter (fun ob => ob.Key != x.Key) } := by
  rw [deleteMissing]
  simp only [RemoteObject.info]
  unfold localPathMissing at h
  cases hS : fs.Stat (filepath_Join root x.Key) with
  | ok li =>
    rw [hS] at h
    simp at h
  | error err =>
    rw [hS] at h
    simp only at h
    simp only [h, if_true, DeleteFile, RemoveObject, logln_tick, ho]
    rfl

theorem deleteMissing_allok (fs : LocalFS) (o : Oracle) (root : String)
    (hok : ∀ n, ∃ t, o n = .ok t) (l : List RemoteObject) (s : State) :
    (deleteMissing fs o root (l.map RemoteObject.info) s).objects
      = s.objects.filter (fun ob => !doomed fs root l ob.Key) := by
  induction l generalizing s with
  | nil =>
    simp [deleteMissing, doomed]
  | cons x rest ih =>
    rw [List.map_cons]
    cases hm : localPathMissing fs root x.Key with
    | false =>
      rw [deleteMissing_cons_keep fs o root x _ s hm, ih]
      apply List.filter_congr
      intro ob _
      simp [doomed, hm]
    | true =>
      obtain ⟨t, ht⟩ := hok s.tick
      rw [deleteMissing_cons_delete fs o root x _ s t hm ht, ih]
      simp only [List.filter_filter]
      apply List.filter_congr
      intro ob _
      simp only [doomed, List.any_cons, hm, Bool.and_true, Bool.not_or]
      rw [Bool.and_comm]
      congr 1
      by_cases hk : ob.Key = x.Key
      · rw [hk]
        rfl
      · have hk2 : ¬ x.Key = ob.Key := fun h => hk h.symm
        have h1 : (ob.Key == x.Key) = false := beq_eq_false_iff_ne.2 hk
        have h2 : (x.Key == ob.Key) = false := beq_eq_false_iff_ne.2 hk2
        show (!(ob.Key == x.Key)) = !(x.Key == ob.Key)
        rw [h1, h2]

theorem doomed_self (fs : LocalFS) (root : String) (l : List RemoteObject)
    (ob : RemoteObject) (hob : ob ∈ l) :
    doomed fs root l ob.Key = localPathMissing fs root ob.Key := by
  cases hm : localPathMissing fs root ob.Key with
  | true =>
    simp only [doomed, List.any_eq_true, Bool.and_eq_true, beq_iff_eq]
    exact ⟨ob, hob, rfl, hm⟩
  | false =>
    simp only [doomed, List.any_eq_false, Bool.and_eq_true, beq_iff_eq, not_and,
      Bool.not_eq_true]
    intro x _ hk
    rw [hk]
    exact hm

theorem ListObjects_all (o : Oracle) (s : State) (t : Int) (ho : o s.tick = .ok t) :
    (ListObjects o "" s).2 = s.objects.map RemoteObject.info := by
  unfold ListObjects
  simp only [ho]
  congr 1
  apply List.filter_eq_self.2
  intro ob _
  cases ob.Key.data <;> rfl

/-- The bucket after a cycle without failure: what the walk left, less the
objects whose local path does not exist. -/
theorem syncCycle_objects (fs : LocalFS) (o : Oracle) (root : String)
    (hok : ∀ n, ∃ t, o n = .ok t) (s : State) :
    (syncCycle fs o root s).objects
      = ((filepath_Walk (walkFn fs o root) (fs.Walk root)
            (s.eloginfo "Starting full sync cycle")).1.objects).filter
          (fun ob => !localPathMissing fs root ob.Key) := by
  unfold syncCycle
  simp only
  obtain ⟨t, ht⟩ := hok (walkReport (filepath_Walk (walkFn fs o root) (fs.Walk root)
    (s.eloginfo "Starting full sync cycle"))).tick
  rw [ListObjects_all o _ t ht, deleteMissing_allok fs o root hok, ListObjects_objects,
    walkReport_objects]
  apply List.filter_congr
  intro ob hob
  rw [doomed_self fs root _ ob hob]

theorem RemoveObject_tick (o : Oracle) (k : String) (s : State) :
    (RemoveObject o k s).1.tick = s.tick + 1 := by
  unfold RemoveObject
  cases h : o s.tick <;> rfl

theorem ListObjects_tick (o : Oracle) (k : String) (s : State) :
    (ListObjects o k s).1.tick = s.tick + 1 := by
  unfold ListObjects
  cases h : o s.tick <;> rfl

theorem deleteMissing_tick_le (fs : LocalFS) (o : Oracle) (root : String)
    (listing : List ObjectInfo) (s : State) :
    s.tick ≤ (deleteMissing fs o root listing s).tick := by
  induction listing generalizing s with
  | nil => exact le_refl _
  | cons ob rest ih =>
    unfold deleteMissing
    cases hE : ob.Err with
    | some err =>
      simp only
      exact ih (s.logln ("Error listing objects: " ++ err.Message))
    | none =>
      simp only
      cases hS : fs.Stat (filepath_Join root ob.Key) with
      | ok li => exact ih _
      | error err =>
        simp only
        by_cases hN : err.NotExist = true
        · simp only [hN, if_true]
          have htk := RemoveObject_tick o ob.Key
            (s.logln ("Deleting remote file " ++ ob.Key ++ " that does not exist locally"))
          cases hD : DeleteFile o ob.Key
              (s.logln ("Deleting remote file " ++ ob.Key ++ " that does not exist locally")) with
          | mk s2 r =>
            unfold DeleteFile at hD
            rw [hD] at htk
            simp only [logln_tick] at htk
            cases r with
            | none => exact le_trans (by omega) (ih s2)
            | some e2 =>
              refine le_trans ?_ (ih _)
              simp only [logln_tick]
              omega
        · simp only [hN]
          exact ih _

theorem syncCycle_tick (fs : LocalFS) (o : Oracle) (root : String) (s : State) :
    (filepath_Walk (walkFn fs o root) (fs.Walk root)
        (s.eloginfo "Starting full sync cycle")).1.tick
      ≤ (syncCycle fs o root s).tick := by
  unfold syncCycle
  simp only
  refine le_trans ?_ (deleteMissing_tick_le fs o root _ _)
  rw [ListObjects_tick, walkReport_tick]
  omega

theorem fileKey_of_file (root : String) (e : WalkEntry) (info : FileInfo) (key : String)
    (hinfo : e.info = .ok info) (hfile : info.IsDir = false)
    (hrel : filepath_Rel root e.path = .ok key) : fileKey root e = some key := by
  simp [fileKey, hinfo, hfile, hrel, Except.toOption]

theorem mem_fileKeys (root : String) (l : List WalkEntry) (k : String) :
    k ∈ fileKeys root l ↔ ∃ e ∈ l, fileKey root e = some k := by
  unfold fileKeys
  simp [List.mem_filterMap]

theorem fileKey_not_missing (fs : LocalFS) (root : String) (l : List WalkEntry)
    (hco : ∀ e ∈ l, coherentEntry fs root e = true) (k : String)
    (hk : k ∈ fileKeys root l) : localPathMissing fs root k = false := by
  obtain ⟨e, he, hkey⟩ := (mem_fileKeys root l k).1 hk
  obtain ⟨info, _, hinfo, _, _⟩ := coherentEntry_spec fs root e (hco e he)
  have hst := (coherent_file_stat fs root e (hco e he) k info hkey hinfo).2.2.1
  unfold localPathMissing
  rw [hst]

/-- A cycle without failure over a tree held fixed: no object without a local
path is left, and every local file is mirrored. -/
theorem cycle_allok (fs : LocalFS) (o : Oracle) (root : String) (s : State)
    (hok : ∀ n, ∃ t, o n = .ok t)
    (hco : ∀ e ∈ fs.Walk root, coherentEntry fs root e = true) :
    (∀ ob ∈ (syncCycle fs o root s).objects, localPathMissing fs root ob.Key = false)
    ∧ (∀ e ∈ fs.Walk root, ∀ key info, fileKey root e = some key → e.info = .ok info →
        Mirrors o (syncCycle fs o root s).objects key info s.tick
          (syncCycle fs o root s).tick) := by
  obtain ⟨_, _, _, _, _, h6⟩ :=
    walk_allok fs o root hok (fs.Walk root) hco (s.eloginfo "Starting full sync cycle")
  have hobj := syncCycle_objects fs o root hok s
  have htick := syncCycle_tick fs o root s
  constructor
  · intro ob hob
    rw [hobj] at hob
    simpa using (List.mem_filter.1 hob).2
  · intro e he key info hkey hinfo
    obtain ⟨ob, hf, hs, hl⟩ := h6 e he key info hkey hinfo
    have hmiss : localPathMissing fs root key = false :=
      fileKey_not_missing fs root _ hco key ((mem_fileKeys root _ key).2 ⟨e, he, hkey⟩)
    refine ⟨ob, ?_, hs, ?_⟩
    · rw [hobj, findObject_filter_key _ (fun k => !localPathMissing fs root k) key
        (by simp [hmiss])]
      exact hf
    · rcases hl with hl | ⟨n, h1, h2, h3⟩
      · exact Or.inl hl
      · exact Or.inr ⟨n, h1, lt_of_lt_of_le h2 htick, h3⟩

theorem specDeletions_nil (fs : LocalFS) (root : String) (l : List RemoteObject)
    (h : ∀ ob ∈ l, localPathMissing fs root ob.Key = false) :
    specDeletions fs root (l.map RemoteObject.info) = [] := by
  unfold specDeletions
  rw [List.map_eq_nil_iff, List.filter_eq_nil_iff]
  intro x hx
  obtain ⟨ob, hob, rfl⟩ := List.mem_map.1 hx
  simp [RemoteObject.info, h ob hob]

/-- The calls of a second cycle that finds nothing to delete: those of its walk
and the listing. -/
theorem second_cycle_calls (fs : LocalFS) (o : Oracle) (root : String) (s1 : State)
    (hok : ∀ n, ∃ t, o n = .ok t)
    (hco : ∀ e ∈ fs.Walk root, coherentEntry fs root e = true)
    (hclean : ∀ ob ∈ s1.objects, localPathMissing fs root ob.Key = false)
    (calls : List Call)
    (hcalls : (filepath_Walk (walkFn fs o root) (fs.Walk root)
        (s1.eloginfo "Starting full sync cycle")).1.trace = s1.trace ++ calls) :
    newCalls s1 (syncCycle fs o root s1) = calls ++ [Call.ListObjects ""] := by
  obtain ⟨_, _, h3, _, _, _⟩ :=
    walk_allok fs o root hok (fs.Walk root) hco (s1.eloginfo "Starting full sync cycle")
  obtain ⟨t, ht⟩ := hok (filepath_Walk (walkFn fs o root) (fs.Walk root)
    (s1.eloginfo "Starting full sync cycle")).1.tick
  have hnil : specDeletions fs root
      (ListObjects o "" (filepath_Walk (walkFn fs o root) (fs.Walk root)
        (s1.eloginfo "Starting full sync cycle")).1).2 = [] := by
    rw [ListObjects_all o _ t ht]
    apply specDeletions_nil
    intro ob hob
    rcases (h3 ob.Key).1 ⟨ob, hob, rfl⟩ with ⟨ob2, hob2, hk⟩ | h
    · rw [← hk]
      exact hclean ob2 hob2
    · exact fileKey_not_missing fs root _ hco ob.Key h
  unfold newCalls
  rw [syncCycle_trace, hnil, hcalls, List.append_nil, List.append_assoc, List.drop_left]

/-- C3, refuted as stated. The tree `/data/notes/todo.txt` (10 bytes, modified at
100) is held fixed, the bucket holds the key `notes`, the store's clock reads 1000
and no call fails.  After the cycle the bucket holds `notes/todo.txt` with the
file's size but with the time 1000 the store stamped on the upload, not 100; and
it still holds `notes`, whose local path exists (it is the directory), although
`notes` is not the key of any local file. -/
theorem C3_time_and_key_set_differ :
    (syncCycle (fsTodo 10 100) (allOk 1000) "/data"
        { State.empty with objects := [{ Key := "notes", Size := 1, LastModified := 1 }] }).objects
      = [{ Key := "notes/todo.txt", Size := 10, LastModified := 1000 },
         { Key := "notes", Size := 1, LastModified := 1 }]
    ∧ fileKeys "/data" ((fsTodo 10 100).Walk "/data") = ["notes/todo.txt"]
    ∧ (syncCycle (fsTodo 10 100) (allOk 1000) "/data"
        { State.empty with objects := [{ Key := "notes", Size := 1, LastModified := 1 }] }).trace
      = [Call.StatObject "notes/todo.txt",
         Call.FPutObject "notes/todo.txt" "/data/notes/todo.txt", Call.ListObjects ""] := by
  decide

/-- C3, amended. For every local tree held fixed during one full cycle in which
no store call fails: after the cycle the keys in the bucket are exactly the
relative keys of the local files together with the keys that were in the
bucket before and whose local path exists (keys whose local path does not
exist are gone); and for every local file the bucket holds its key with the
file's size, the object's `LastModified` being the file's modification time (the
file was found equal and skipped) or else the time the store stamped on a call
of this cycle (the upload). -/
theorem C3_cycle_mirrors_keys_and_sizes (fs : LocalFS) (o : Oracle) (root : String)
    (s : State) (hok : ∀ n, ∃ t, o n = .ok t)
    (hco : ∀ e ∈ fs.Walk root, coherentEntry fs root e = true) :
    (∀ k, (∃ ob ∈ (syncCycle fs o root s).objects, ob.Key = k)
        ↔ (k ∈ fileKeys root (fs.Walk root)
            ∨ ((∃ ob ∈ s.objects, ob.Key = k) ∧ localPathMissing fs root k = false)))
    ∧ (∀ e ∈ fs.Walk root, ∀ info key, e.info = .ok info → info.IsDir = false →
        filepath_Rel root e.path = .ok key →
        ∃ ob, findObject (syncCycle fs o root s).objects key = some ob
          ∧ ob.Size = info.Size
          ∧ (ob.LastModified = info.ModTime
              ∨ ∃ n, s.tick ≤ n ∧ n < (syncCycle fs o root s).tick
                  ∧ o n = .ok ob.LastModified)) := by
  obtain ⟨_, _, h3, _, _, _⟩ :=
    walk_allok fs o root hok (fs.Walk root) hco (s.eloginfo "Starting full sync cycle")
  have hobj := syncCycle_objects fs o root hok s
  constructor
  · intro k
    rw [hobj]
    constructor
    · rintro ⟨ob, hob, hk⟩
      obtain ⟨hmem, hmiss⟩ := List.mem_filter.1 hob
      have hmiss2 : localPathMissing fs root k = false := by
        rw [← hk]
        simpa using hmiss
      rcases (h3 k).1 ⟨ob, hmem, hk⟩ with h | h
      · exact Or.inr ⟨h, hmiss2⟩
      · exact Or.inl h
    · intro h
      have hmiss : localPathMissing fs root k = false := by
        rcases h with h | h
        · exact fileKey_not_missing fs root _ hco k h
        · exact h.2
      have hin : ∃ ob ∈ (filepath_Walk (walkFn fs o root) (fs.Walk root)
          (s.eloginfo "Starting full sync cycle")).1.objects, ob.Key = k := by
        rcases h with h | h
        · exact (h3 k).2 (Or.inr h)
        · exact (h3 k).2 (Or.inl h.1)
      obtain ⟨ob, hob, hk⟩ := hin
      refine ⟨ob, List.mem_filter.2 ⟨hob, ?_⟩, hk⟩
      rw [hk, hmiss]
      rfl
  · intro e he info key hinfo hfile hrel
    exact (cycle_allok fs o root s hok hco).2 e he key info
      (fileKey_of_file root e info key hinfo hfile hrel) hinfo

/-- C3, amended, at `/data/notes/todo.txt` (10 bytes, modified at 100) and an
empty bucket: after the cycle the bucket holds `notes/todo.txt` with size 10. -/
theorem C3_cycle_mirrors_keys_and_sizes_witness :
    ∃ ob, findObject (syncCycle (fsTodo 10 100) (allOk 1000) "/data" State.empty).objects
          "notes/todo.txt" = some ob
      ∧ ob.Size = 10
      ∧ (ob.LastModified = 100
          ∨ ∃ n, State.empty.tick ≤ n
              ∧ n < (syncCycle (fsTodo 10 100) (allOk 1000) "/data" State.empty).tick
              ∧ allOk 1000 n = .ok ob.LastModified) :=
  (C3_cycle_mirrors_keys_and_sizes (fsTodo 10 100) (allOk 1000) "/data" State.empty
    (fun _ => ⟨1000, rfl⟩) (by decide)).2
    ⟨"/data/notes/todo.txt", .ok { Size := 10, ModTime := 100, IsDir := false }⟩ (by decide)
    { Size := 10, ModTime := 100, IsDir := false } "notes/todo.txt" rfl rfl (by decide)

/-- A walk from a bucket that already mirrors every visited file (size and time)
only stats: nothing is uploaded and the bucket is unchanged. -/
theorem walk_converged (fs : LocalFS) (o : Oracle) (root : String)
    (hok : ∀ n, ∃ t, o n = .ok t) (l : List WalkEntry)
    (hco : ∀ e ∈ l, coherentEntry fs root e = true) (s : State)
    (hconv : ∀ e ∈ l, ∀ key info, fileKey root e = some key → e.info = .ok info →
      ∃ ob, findObject s.objects key = some ob ∧ ob.Size = info.Size
        ∧ ob.LastModified = info.ModTime) :
    (filepath_Walk (walkFn fs o root) l s).1.objects = s.objects
    ∧ ∃ calls, (filepath_Walk (walkFn fs o root) l s).1.trace = s.trace ++ calls
        ∧ ∀ c ∈ calls, isUpload c = false ∧ isDelete c = false := by
  induction l generalizing s with
  | nil =>
    have hnil : filepath_Walk (walkFn fs o root) [] s = (s, none) := rfl
    rw [hnil]
    exact ⟨rfl, [], by simp, by simp⟩
  | cons e rest ih =>
    have hstep := walkFn_step fs o root e s hok (hco e (List.mem_cons_self _ _))
    have hrest : ∀ x ∈ rest, coherentEntry fs root x = true :=
      fun x hx => hco x (List.mem_cons_of_mem _ hx)
    rw [filepath_Walk_cons_ok _ e rest s hstep.1]
    have hsame : (walkFn fs o root e s).1.objects = s.objects
        ∧ ∃ c1, (walkFn fs o root e s).1.trace = s.trace ++ c1
            ∧ ∀ c ∈ c1, isUpload c = false ∧ isDelete c = false := by
      obtain ⟨_, hcase⟩ := hstep
      rcases hcase with ⟨_, hob, _, htr⟩ | ⟨k2, _, _, _, _, _, _, _, _, hob, _, htr⟩ |
        ⟨k2, i2, t, hk2, hi2, _, hno, _⟩
      · exact ⟨hob, [], by simp [htr], by simp⟩
      · exact ⟨hob, [Call.StatObject k2], htr, by simp [isUpload, isDelete]⟩
      · exact absurd (hconv e (List.mem_cons_self _ _) k2 i2 hk2 hi2) hno
    obtain ⟨hob, c1, hc1, hd1⟩ := hsame
    have hconv2 : ∀ x ∈ rest, ∀ key info, fileKey root x = some key → x.info = .ok info →
        ∃ ob, findObject (walkFn fs o root e s).1.objects key = some ob
          ∧ ob.Size = info.Size ∧ ob.LastModified = info.ModTime := by
      intro x hx key info hkey hinfo
      rw [hob]
      exact hconv x (List.mem_cons_of_mem _ hx) key info hkey hinfo
    obtain ⟨h1, c2, hc2, hd2⟩ := ih hrest (walkFn fs o root e s).1 hconv2
    refine ⟨h1.trans hob, c1 ++ c2, by rw [hc2, hc1, List.append_assoc], ?_⟩
    intro c hc
    rcases List.mem_append.1 hc with h | h
    · exact hd1 c h
    · exact hd2 c h

/-- A walk uploads every visited file that the bucket does not mirror (size and
time) when the walk starts. -/
theorem walk_uploads_stale (fs : LocalFS) (o : Oracle) (root : String)
    (hok : ∀ n, ∃ t, o n = .ok t) (l : List WalkEntry)
    (hco : ∀ e ∈ l, coherentEntry fs root e = true) (s : State)
    (e : WalkEntry) (he : e ∈ l) (key : String) (info : FileInfo)
    (hkey : fileKey root e = some key) (hinfo : e.info = .ok info)
    (hstale : ¬ ∃ ob, findObject s.objects key = some ob ∧ ob.Size = info.Size
      ∧ ob.LastModified = info.ModTime) :
    ∃ calls, (filepath_Walk (walkFn fs o root) l s).1.trace = s.trace ++ calls
      ∧ Call.FPutObject key e.path ∈ calls := by
  induction l generalizing s with
  | nil => cases he
  | cons x rest ih =>
    have hstep := walkFn_step fs o root x s hok (hco x (List.mem_cons_self _ _))
    have hrest : ∀ y ∈ rest, coherentEntry fs root y = true :=
      fun y hy => hco y (List.mem_cons_of_mem _ hy)
    obtain ⟨_, hrelE, hstatE, hjoinE⟩ := coherent_file_stat fs root e (hco e he) key info hkey hinfo
    rw [filepath_Walk_cons_ok _ x rest s hstep.1]
    by_cases hx : fileKey root x = some key
    · obtain ⟨_, _, _, ⟨c2, hc2, _⟩, _, _⟩ :=
        walk_allok fs o root hok rest hrest (walkFn fs o root x s).1
      obtain ⟨_, hcase⟩ := hstep
      rcases hcase with ⟨hnone, _⟩ | ⟨k2, i2, ob2, hk2, hi2, hst2, hf, hsz, hlm, _⟩ |
        ⟨k2, i2, t, hk2, hi2, _, _, _, _, _, htr⟩
      · rw [hnone] at hx
        cases hx
      · rw [hk2] at hx
        cases hx
        rw [hst2] at hstatE
        cases hstatE
        exact absurd ⟨ob2, hf, hsz, hlm⟩ hstale
      · rw [hk2] at hx
        cases hx
        obtain ⟨_, _, _, hjoinX⟩ := coherent_file_stat fs root x (hco x (List.mem_cons_self _ _))
          key i2 hk2 hi2
        have hp : x.path = e.path := by rw [← hjoinX, hjoinE]
        refine ⟨[Call.StatObject key, Call.FPutObject key x.path] ++ c2, ?_, ?_⟩
        · rw [hc2, htr, List.append_assoc]
        · rw [hp]
          simp
    · have he2 : e ∈ rest := by
        rcases List.mem_cons.1 he with h | h
        · rw [h] at hkey
          exact absurd hkey hx
        · exact h
      obtain ⟨c1, hc1, _⟩ := step_calls fs o root x s _ hstep
      have hstale2 : ¬ ∃ ob, findObject (walkFn fs o root x s).1.objects key = some ob
          ∧ ob.Size = info.Size ∧ ob.LastModified = info.ModTime := by
        obtain ⟨_, hcase⟩ := hstep
        rcases hcase with ⟨_, hob, _, _⟩ | ⟨_, _, _, _, _, _, _, _, _, hob, _, _⟩ |
          ⟨k2, i2, t, hk2, _, _, _, _, hob, _, _⟩
        · rw [hob]
          exact hstale
        · rw [hob]
          exact hstale
        · rw [hob, findObject_putObject]
          have hne : k2 ≠ key := by
            intro h
            rw [h] at hk2
            exact hx hk2
          simp only [hne, if_false]
          exact hstale
      obtain ⟨c2, hc2, hmem⟩ := ih hrest (walkFn fs o root x s).1 he2 hstale2
      exact ⟨c1 ++ c2, by rw [hc2, hc1, List.append_assoc], List.mem_append_right _ hmem⟩

/-- C4, refuted as stated. The tree `/data/notes/todo.txt` (10 bytes, modified at
100) is held fixed, the bucket starts empty, the store's clock reads 1000 and no
call fails.  The first cycle uploads the file; the second cycle, with no local
change in between, uploads it again: the object's time is the stamp 1000 of the
first upload, which is not the file's modification time 100. -/
theorem C4_second_cycle_uploads_again :
    newCalls (syncCycle (fsTodo 10 100) (allOk 1000) "/data" State.empty)
        (syncCycle (fsTodo 10 100) (allOk 1000) "/data"
          (syncCycle (fsTodo 10 100) (allOk 1000) "/data" State.empty))
      = [Call.StatObject "notes/todo.txt",
         Call.FPutObject "notes/todo.txt" "/data/notes/todo.txt", Call.ListObjects ""]
    ∧ (syncCycle (fsTodo 10 100) (allOk 1000) "/data" State.empty).objects
      = [{ Key := "notes/todo.txt", Size := 10, LastModified := 1000 }] := by
  decide

/-- C4, amended. For every local tree held fixed and every bucket, when no store
call fails, the second of two consecutive cycles issues no Delete; it issues no
Upload and leaves the bucket unchanged provided that, after the first cycle,
the object of every local file carries the file's modification time as its
`LastModified`; and every local file whose object carries another time (what an
upload leaves behind, the store stamping its own time) is uploaded again. -/
theorem C4_second_cycle (fs : LocalFS) (o : Oracle) (root : String) (s : State)
    (hok : ∀ n, ∃ t, o n = .ok t)
    (hco : ∀ e ∈ fs.Walk root, coherentEntry fs root e = true) :
    (∀ c ∈ newCalls (syncCycle fs o root s) (syncCycle fs o root (syncCycle fs o root s)),
        isDelete c = false)
    ∧ ((∀ e ∈ fs.Walk root, ∀ info key, e.info = .ok info → info.IsDir = false →
          filepath_Rel root e.path = .ok key →
          ∀ ob, findObject (syncCycle fs o root s).objects key = some ob →
            ob.LastModified = info.ModTime) →
        (∀ c ∈ newCalls (syncCycle fs o root s)
            (syncCycle fs o root (syncCycle fs o root s)), isUpload c = false)
        ∧ (syncCycle fs o root (syncCycle fs o root s)).objects
            = (syncCycle fs o root s).objects)
    ∧ (∀ e ∈ fs.Walk root, ∀ info key, e.info = .ok info → info.IsDir = false →
        filepath_Rel root e.path = .ok key →
        ∀ ob, findObject (syncCycle fs o root s).objects key = some ob →
          ob.LastModified ≠ info.ModTime →
          Call.FPutObject key e.path
            ∈ newCalls (syncCycle fs o root s)
                (syncCycle fs o root (syncCycle fs o root s))) := by
  obtain ⟨hclean, hmir⟩ := cycle_allok fs o root s hok hco
  obtain ⟨_, _, _, ⟨calls, hcalls, hnodel⟩, _, _⟩ :=
    walk_allok fs o root hok (fs.Walk root) hco
      ((syncCycle fs o root s).eloginfo "Starting full sync cycle")
  refine ⟨?_, ?_, ?_⟩
  · rw [second_cycle_calls fs o root _ hok hco hclean calls hcalls]
    intro c hc
    rcases List.mem_append.1 hc with h | h
    · exact hnodel c h
    · rw [List.mem_singleton.1 h]
      rfl
  rotate_left
  · intro e he info key hinfo hfile hrel ob hf hne
    have hstale : ¬ ∃ ob2, findObject ((syncCycle fs o root s).eloginfo
          "Starting full sync cycle").objects key = some ob2
        ∧ ob2.Size = info.Size ∧ ob2.LastModified = info.ModTime := by
      rintro ⟨ob2, h2, _, h4⟩
      have h5 : findObject (syncCycle fs o root s).objects key = some ob2 := h2
      rw [hf] at h5
      cases h5
      exact hne h4
    obtain ⟨c3, hc3, hmem⟩ := walk_uploads_stale fs o root hok (fs.Walk root) hco _ e he key
      info (fileKey_of_file root e info key hinfo hfile hrel) hinfo hstale
    rw [second_cycle_calls fs o root _ hok hco hclean c3 hc3]
    exact List.mem_append_left _ hmem
  · intro htime
    have hconv : ∀ e ∈ fs.Walk root, ∀ key info, fileKey root e = some key →
        e.info = .ok info →
        ∃ ob, findObject ((syncCycle fs o root s).eloginfo
            "Starting full sync cycle").objects key = some ob
          ∧ ob.Size = info.Size ∧ ob.LastModified = info.ModTime := by
      intro e he key info hkey hinfo
      obtain ⟨ob, hf, hs, _⟩ := hmir e he key info hkey hinfo
      obtain ⟨hfile, hrel, _, _⟩ := coherent_file_stat fs root e (hco e he) key info hkey hinfo
      exact ⟨ob, hf, hs, htime e he info key hinfo hfile hrel ob hf⟩
    obtain ⟨hsame, calls2, hcalls2, hnone⟩ :=
      walk_converged fs o root hok (fs.Walk root) hco _ hconv
    constructor
    · rw [second_cycle_calls fs o root _ hok hco hclean calls2 hcalls2]
      intro c hc
      rcases List.mem_append.1 hc with h | h
      · exact (hnone c h).1
      · rw [List.mem_singleton.1 h]
        rfl
    · rw [syncCycle_objects fs o root hok, hsame]
      apply List.filter_eq_self.2
      intro ob hob
      rw [hclean ob hob]
      rfl

/-- C4, amended, at `/data/notes/todo.txt` modified at 1000 with the store's
clock reading 1000: the first cycle uploads the file, the stamp equals the file's time,
and the second cycle leaves the bucket as it is. -/
theorem C4_second_cycle_witness :
    (syncCycle (fsTodo 10 1000) (allOk 1000) "/data"
        (syncCycle (fsTodo 10 1000) (allOk 1000) "/data" State.empty)).objects
      = (syncCycle (fsTodo 10 1000) (allOk 1000) "/data" State.empty).objects :=
  ((C4_second_cycle (fsTodo 10 1000) (allOk 1000) "/data" State.empty
      (fun _ => ⟨1000, rfl⟩) (by decide)).2.1
    (by
      intro e he info key hinfo hfile hrel ob hf
      have hw : (fsTodo 10 1000).Walk "/data"
          = [⟨"/data", .ok dirInfo⟩, ⟨"/data/notes", .ok dirInfo⟩,
             ⟨"/data/notes/todo.txt", .ok { Size := 10, ModTime := 1000, IsDir := false }⟩] := by
        decide
      rw [hw] at he
      simp only [List.mem_cons, List.mem_singleton, List.not_mem_nil, or_false] at he
      rcases he with rfl | rfl | rfl
      · cases hinfo
        exact absurd hfile (by decide)
      · cases hinfo
        exact absurd hfile (by decide)
      · cases hinfo
        have hk : filepath_Rel "/data" "/data/notes/todo.txt" = .ok "notes/todo.txt" := by
          decide
        rw [hk] at hrel
        cases hrel
        have hob : findObject (syncCycle (fsTodo 10 1000) (allOk 1000) "/data" State.empty).objects
            "notes/todo.txt" = some { Key := "notes/todo.txt", Size := 10, LastModified := 1000 } := by
          decide
        rw [hob] at hf
        cases hf
        rfl)).2

/-! ## `DeleteDirectory` -/

/-- The loop of `DeleteDirectory` attempts the deletion of every listed object,
in order, whatever fails. -/
theorem deleteListed_trace (o : Oracle) (relativePath : String) (entries : List ObjectInfo)
    (s : State) :
    (deleteListed o relativePath entries s).trace
      = s.trace ++ (entries.filter (fun ob => ob.Err.isNone)).map
          (fun ob => Call.RemoveObject ob.Key) := by
  induction entries generalizing s with
  | nil => simp [deleteListed]
  | cons ob rest ih =>
    unfold deleteListed
    cases hE : ob.Err with
    | some err =>
      simp only [ih, logln_trace]
      simp [hE]
    | none =>
      simp only
      have ht := RemoveObject_trace o ob.Key s
      cases hD : DeleteFile o ob.Key s with
      | mk s1 r =>
        unfold DeleteFile at hD
        rw [hD] at ht
        simp only at ht
        cases r <;> simp [ih, ht, hE]

theorem isPrefixOf_iff (pfx k : String) :
    pfx.data.isPrefixOf k.data = true ↔ ∃ rest : String, k = pfx ++ rest := by
  rw [List.isPrefixOf_iff_prefix]
  constructor
  · rintro ⟨t, ht⟩
    refine ⟨⟨t⟩, ?_⟩
    apply String.ext
    rw [String.data_append, ht]
  · rintro ⟨rest, rfl⟩
    exact ⟨rest.data, by rw [String.data_append]⟩

/-- C11. `DeleteDirectory(relativePath)` lists the bucket with the prefix
`relativePath + "/"` and, when the listing succeeds, attempts `DeleteFile` on
exactly the objects of the bucket whose key starts with that prefix, once each
and in listing order; whether or not the listing succeeds, every key it
attempts to delete is a key of the bucket that starts with `relativePath + "/"`.
For the prefix `dir` and the keys `dir/a`, `dirX/f`, `dir/b`, `dir.txt` it
deletes `dir/a` and `dir/b` and leaves `dirX/f` and `dir.txt`. -/
theorem C11_deleteDirectory_keys (o : Oracle) (relativePath : String) (s : State) :
    (∀ t, o s.tick = .ok t →
        (DeleteDirectory o relativePath s).1.trace
          = s.trace ++ [Call.ListObjects (relativePath ++ "/")]
            ++ (s.objects.filter
                  (fun ob => (relativePath ++ "/").data.isPrefixOf ob.Key.data)).map
                (fun ob => Call.RemoveObject ob.Key))
    ∧ (∀ k, Call.RemoveObject k ∈ newCalls s (DeleteDirectory o relativePath s).1 →
        (∃ rest : String, k = relativePath ++ "/" ++ rest) ∧ ∃ ob ∈ s.objects, ob.Key = k)
    ∧ (DeleteDirectory (allOk 1000) "dir" stateDir).1.trace
        = [Call.ListObjects "dir/", Call.RemoveObject "dir/a", Call.RemoveObject "dir/b"]
    ∧ (DeleteDirectory (allOk 1000) "dir" stateDir).1.objects
        = [{ Key := "dirX/f", Size := 2, LastModified := 20 },
           { Key := "dir.txt", Size := 4, LastModified := 40 }] := by
  have htrace : (DeleteDirectory o relativePath s).1.trace
      = s.trace ++ [Call.ListObjects (relativePath ++ "/")]
        ++ ((ListObjects o (relativePath ++ "/") s).2.filter (fun ob => ob.Err.isNone)).map
            (fun ob => Call.RemoveObject ob.Key) := by
    unfold DeleteDirectory
    simp only [deleteListed_trace, ListObjects_trace]
  refine ⟨?_, ?_, by decide, by decide⟩
  · intro t ht
    rw [htrace]
    congr 1
    unfold ListObjects
    simp only [ht]
    rw [List.filter_map, List.map_map]
    have hall : ∀ l : List RemoteObject,
        l.filter ((fun ob : ObjectInfo => ob.Err.isNone) ∘ RemoteObject.info) = l := by
      intro l
      apply List.filter_eq_self.2
      intro ob _
      rfl
    rw [hall]
    rfl
  · intro k hk
    unfold newCalls at hk
    rw [htrace, List.append_assoc, List.drop_left] at hk
    rcases List.mem_append.1 hk with h | h
    · simp at h
    · obtain ⟨e, he, hek⟩ := List.mem_map.1 h
      have hkey : e.Key = k := by simpa using hek
      have hmem := (List.mem_filter.1 he).1
      have hnone := (List.mem_filter.1 he).2
      unfold ListObjects at hmem hnone
      cases ho : o s.tick with
      | fail err =>
        rw [ho] at hmem
        simp only [List.mem_singleton] at hmem
        rw [hmem] at hnone
        simp at hnone
      | ok t =>
        rw [ho] at hmem
        simp only at hmem
        obtain ⟨ob, hob, hinfo⟩ := List.mem_map.1 hmem
        obtain ⟨hob1, hob2⟩ := List.mem_filter.1 hob
        have hk2 : ob.Key = k := by
          rw [← hkey, ← hinfo]
          rfl
        rw [hk2] at hob2
        exact ⟨(isPrefixOf_iff _ _).1 hob2, ob, hob1, hk2⟩

/-- C12. `DeleteDirectory` is best-effort: for every sequence of listed entries
and whatever the store answers, its loop attempts `DeleteFile` exactly once for
every listed object, in order (entries that report a listing error are logged
and passed over, a failed deletion is logged, and neither ends the loop), and
`DeleteDirectory` returns `nil`.  With a listing error in second place and a
store that refuses the first deletion, the objects listed later are still
deleted. -/
theorem C12_deleteDirectory_best_effort (o : Oracle) (relativePath : String)
    (entries : List ObjectInfo) (s : State) :
    (deleteListed o relativePath entries s).trace
      = s.trace ++ (entries.filter (fun ob => ob.Err.isNone)).map
          (fun ob => Call.RemoveObject ob.Key)
    ∧ (DeleteDirectory o relativePath s).2 = none
    ∧ (deleteListed firstFails "dir" listingWithError stateDir).trace
        = [Call.RemoveObject "dir/a", Call.RemoveObject "dir/b", Call.RemoveObject "dir/c"]
    ∧ (deleteListed firstFails "dir" listingWithError stateDir).objects
        = [{ Key := "dir/a", Size := 1, LastModified := 10 },
           { Key := "dirX/f", Size := 2, LastModified := 20 },
           { Key := "dir.txt", Size := 4, LastModified := 40 }]
    ∧ (deleteListed firstFails "dir" listingWithError stateDir).log
        = ["Failed to delete file dir/a: access denied",
           "Error listing objects in directory dir: slow down"] := by
  refine ⟨deleteListed_trace o relativePath entries s, ?_, by decide, by decide, by decide⟩
  unfold DeleteDirectory
  rfl

/-! ## `NewMinioClient` -/

/-- The result of `NewMinioClient`, once the SDK client exists, in terms of the
results of its two bucket calls. -/
theorem NewMinioClient_result (o : Oracle) (endpoint accessKey secretKey bucketName : String)
    (sv : Server) :
    (NewMinioClient o none endpoint accessKey secretKey bucketName sv).2
      = match (MakeBucket o bucketName sv).2 with
        | none => .ok { Client := endpoint, BucketName := bucketName }
        | some err =>
          if (BucketExists o bucketName (MakeBucket o bucketName sv).1).2 = (true, none)
          then .ok { Client := endpoint, BucketName := bucketName }
          else .error err := by
  unfold NewMinioClient MakeBucket BucketExists
  simp only [Server.logln, Server.issue]
  cases h0 : o sv.tick with
  | fail e0 =>
    simp only
    cases h1 : o (sv.tick + 1) with
    | fail e1 => simp
    | ok t1 =>
      by_cases hb : bucketName ∈ sv.buckets <;> simp [hb]
  | ok t0 =>
    by_cases hb : bucketName ∈ sv.buckets
    · simp only [hb, if_true]
      cases h1 : o (sv.tick + 1) with
      | fail e1 => simp
      | ok t1 => simp [hb]
    · simp [hb]

/-- After a successful `NewMinioClient` the store holds the bucket, and one call
was made when `MakeBucket` succeeded, two otherwise. -/
theorem NewMinioClient_bucket (o : Oracle) (endpoint accessKey secretKey bucketName : String)
    (sv : Server) (c : MinioClient)
    (h : (NewMinioClient o none endpoint accessKey secretKey bucketName sv).2 = .ok c) :
    bucketName ∈ (NewMinioClient o none endpoint accessKey secretKey bucketName sv).1.buckets := by
  unfold NewMinioClient MakeBucket BucketExists at h ⊢
  simp only [Server.logln, Server.issue] at h ⊢
  cases h0 : o sv.tick with
  | fail e0 =>
    rw [h0] at h
    simp only at h ⊢
    cases h1 : o (sv.tick + 1) with
    | fail e1 =>
      rw [h1] at h
      simp at h
    | ok t1 =>
      rw [h1] at h
      by_cases hb : bucketName ∈ sv.buckets
      · simp [hb]
      · simp [hb] at h
  | ok t0 =>
    rw [h0] at h
    by_cases hb : bucketName ∈ sv.buckets
    · simp only [hb, if_true] at h ⊢
      cases h1 : o (sv.tick + 1) with
      | fail e1 =>
        rw [h1] at h
        simp at h
      | ok t1 => simp [hb]
    · simp [hb]

/-- C13. Once the SDK client exists, `NewMinioClient` returns a client if and only
if `MakeBucket` succeeds, or `MakeBucket` fails and `BucketExists` answers
`(true, nil)`; the client is the one for the endpoint and the bucket; in every
other case it returns no client and the error of `MakeBucket`.  Hence, after a
successful call, a second call for the same bucket succeeds as soon as the store
answers its `BucketExists`: on an empty store the first call makes the bucket
and the second finds it. -/
theorem C13_bucket_setup (o : Oracle) (endpoint accessKey secretKey bucketName : String)
    (sv : Server) :
    ((∃ c, (NewMinioClient o none endpoint accessKey secretKey bucketName sv).2 = .ok c)
      ↔ ((MakeBucket o bucketName sv).2 = none
          ∨ ((MakeBucket o bucketName sv).2 ≠ none
              ∧ (BucketExists o bucketName (MakeBucket o bucketName sv).1).2 = (true, none))))
    ∧ (∀ c, (NewMinioClient o none endpoint accessKey secretKey bucketName sv).2 = .ok c →
        c = { Client := endpoint, BucketName := bucketName })
    ∧ (∀ err, (MakeBucket o bucketName sv).2 = some err →
        (BucketExists o bucketName (MakeBucket o bucketName sv).1).2 ≠ (true, none) →
        (NewMinioClient o none endpoint accessKey secretKey bucketName sv).2 = .error err)
    ∧ (∀ c, (NewMinioClient o none endpoint accessKey secretKey bucketName sv).2 = .ok c →
        ∀ t, o ((NewMinioClient o none endpoint accessKey secretKey bucketName sv).1.tick + 1)
            = .ok t →
          (NewMinioClient o none endpoint accessKey secretKey bucketName
              (NewMinioClient o none endpoint accessKey secretKey bucketName sv).1).2
            = .ok { Client := endpoint, BucketName := bucketName })
    ∧ (NewMinioClient (allOk 1000) none "localhost:9000" "key" "secret" "backup"
          Server.empty).1.calls = [BucketCall.MakeBucket "backup"]
    ∧ (NewMinioClient (allOk 1000) none "localhost:9000" "key" "secret" "backup"
          (NewMinioClient (allOk 1000) none "localhost:9000" "key" "secret" "backup"
            Server.empty).1).2
        = .ok { Client := "localhost:9000", BucketName := "backup" } := by
  have hres := NewMinioClient_result o endpoint accessKey secretKey bucketName sv
  refine ⟨?_, ?_, ?_, ?_, by decide, by decide⟩
  · rw [hres]
    cases hm : (MakeBucket o bucketName sv).2 with
    | none => simp
    | some err =>
      by_cases hb : (BucketExists o bucketName (MakeBucket o bucketName sv).1).2 = (true, none)
      · simp [hb]
      · simp [hb]
  · intro c hc
    rw [hres] at hc
    cases hm : (MakeBucket o bucketName sv).2 with
    | none =>
      rw [hm] at hc
      exact (Except.ok.inj hc).symm
    | some err =>
      rw [hm] at hc
      by_cases hb : (BucketExists o bucketName (MakeBucket o bucketName sv).1).2 = (true, none)
      · simp only [hb, if_true] at hc
        exact (Except.ok.inj hc).symm
      · simp [hb] at hc
  · intro err hm hb
    rw [hres, hm]
    simp [hb]
  · intro c hc t ht
    have hmem := NewMinioClient_bucket o endpoint accessKey secretKey bucketName sv c hc
    rw [NewMinioClient_result]
    generalize (NewMinioClient o none endpoint accessKey secretKey bucketName sv).1 = sv1
      at hmem ht
    have hexists : ∀ st : Server, st.tick = sv1.tick + 1 → st.buckets = sv1.buckets →
        (BucketExists o bucketName st).2 = (true, none) := by
      intro st h1 h2
      unfold BucketExists
      rw [h1, ht, h2]
      simp [hmem]
    have hmk : (MakeBucket o bucketName sv1).1.tick = sv1.tick + 1
        ∧ (MakeBucket o bucketName sv1).1.buckets = sv1.buckets
        ∧ (MakeBucket o bucketName sv1).2 ≠ none := by
      unfold MakeBucket
      cases o sv1.tick <;> simp [Server.issue, hmem]
    obtain ⟨h1, h2, h3⟩ := hmk
    cases hm : (MakeBucket o bucketName sv1).2 with
    | none => exact absurd hm h3
    | some err => simp [hexists _ h1 h2]

/-! ## `compareFiles`, `GetServiceStatus`, `RenameFile` -/

/-- C14. `compareFiles(localPath, remoteObject)` returns `true` if and only if the
local file can be stat'ed, its size equals `remoteObject.Size` and its
modification time is the instant `remoteObject.LastModified`; it returns
`false`, after logging, when the local stat fails; it issues no call.  A
difference of one unit in the time, or in the size, gives `false`. -/
theorem C14_compareFiles (fs : LocalFS) (localPath : String) (remoteObject : ObjectInfo)
    (s : State) :
    ((compareFiles fs localPath remoteObject s).2 = true
      ↔ ∃ li, fs.Stat localPath = .ok li ∧ li.Size = remoteObject.Size
          ∧ li.ModTime = remoteObject.LastModified)
    ∧ (∀ err, fs.Stat localPath = .error err →
        compareFiles fs localPath remoteObject s
          = (s.logln ("Failed to stat local file " ++ localPath ++ ": " ++ err.Message), false))
    ∧ (compareFiles fs localPath remoteObject s).1.trace = s.trace
    ∧ (compareFiles fs localPath remoteObject s).1.objects = s.objects
    ∧ (compareFiles (fsTodo 10 100) "/data/notes/todo.txt"
          { Key := "notes/todo.txt", Size := 10, LastModified := 100, Err := none }
          State.empty).2 = true
    ∧ (compareFiles (fsTodo 10 100) "/data/notes/todo.txt"
          { Key := "notes/todo.txt", Size := 10, LastModified := 101, Err := none }
          State.empty).2 = false
    ∧ (compareFiles (fsTodo 10 100) "/data/notes/todo.txt"
          { Key := "notes/todo.txt", Size := 11, LastModified := 100, Err := none }
          State.empty).2 = false
    ∧ (compareFiles fsNotesOnly "/data/notes/todo.txt"
          { Key := "notes/todo.txt", Size := 10, LastModified := 100, Err := none }
          State.empty).2 = false := by
  refine ⟨?_, ?_, ?_, ?_, by decide, by decide, by decide, by decide⟩
  · unfold compareFiles
    cases hS : fs.Stat localPath with
    | error err => simp
    | ok li =>
      by_cases h : li.Size = remoteObject.Size ∧ li.ModTime = remoteObject.LastModified
      · simp [h]
      · simp only [h, if_false]
        simp only [Bool.false_eq_true, false_iff]
        rintro ⟨li2, h1, h2⟩
        cases h1
        exact h h2
  · intro err hS
    unfold compareFiles
    rw [hS]
  · unfold compareFiles
    cases hS : fs.Stat localPath with
    | error err => rfl
    | ok li => simp only; split <;> rfl
  · unfold compareFiles
    cases hS : fs.Stat localPath with
    | error err => rfl
    | ok li => simp only; split <;> rfl

theorem containsChars_iff (s sub : List Char) :
    containsChars s sub = true ↔ ∃ a b, s = a ++ sub ++ b := by
  induction s with
  | nil =>
    unfold containsChars
    constructor
    · intro h
      have : sub = [] := by simpa using h
      exact ⟨[], [], by simp [this]⟩
    · rintro ⟨a, b, h⟩
      have h2 := congrArg List.length h
      simp only [List.length_nil, List.length_append] at h2
      have : sub.length = 0 := by omega
      simp [List.length_eq_zero.1 this]
  | cons c cs ih =>
    unfold containsChars
    rw [Bool.or_eq_true, ih, List.isPrefixOf_iff_prefix]
    constructor
    · rintro (⟨t, ht⟩ | ⟨a, b, h⟩)
      · exact ⟨[], t, by simp [ht]⟩
      · exact ⟨c :: a, b, by simp [h]⟩
    · rintro ⟨a, b, h⟩
      cases a with
      | nil => exact Or.inl ⟨b, by simpa using h.symm⟩
      | cons x a2 =>
        simp only [List.cons_append, List.cons.injEq] at h
        exact Or.inr ⟨a2, b, h.2⟩

/-- `strings.Contains(s, sub)` holds exactly when `sub` occurs in `s`. -/
theorem strings_Contains_iff (s sub : String) :
    strings_Contains s sub = true ↔ ∃ a b : String, s = a ++ sub ++ b := by
  unfold strings_Contains
  rw [containsChars_iff]
  constructor
  · rintro ⟨a, b, h⟩
    refine ⟨⟨a⟩, ⟨b⟩, ?_⟩
    apply String.ext
    simp only [String.data_append]
    exact h
  · rintro ⟨a, b, h⟩
    refine ⟨a.data, b.data, ?_⟩
    rw [h]
    simp only [String.data_append]

/-- C15. `GetServiceStatus`, as a function of the error of `sc query` and of its
combined output: when the command failed it returns `("NotInstalled", nil)` if
the output contains the not-installed message and `("", err)` otherwise; when
the command succeeded it returns `Running`, `Stopped` or `Paused` for the first
of the three state markers the output contains, and an error when it contains
none.  Hence a result without error is one of `Running`, `Stopped`, `Paused`,
`NotInstalled`. -/
theorem C15_GetServiceStatus (runErr : Option GoError) (out : String) :
    (∀ err, runErr = some err →
        (strings_Contains out "The specified service does not exist as an installed service."
            = true → GetServiceStatus runErr out = ("NotInstalled", none))
        ∧ (strings_Contains out "The specified service does not exist as an installed service."
            = false → GetServiceStatus runErr out = ("", some err)))
    ∧ (runErr = none →
        (strings_Contains out "STATE              : 4  RUNNING" = true →
          GetServiceStatus runErr out = ("Running", none))
        ∧ (strings_Contains out "STATE              : 4  RUNNING" = false →
            strings_Contains out "STATE              : 1  STOPPED" = true →
            GetServiceStatus runErr out = ("Stopped", none))
        ∧ (strings_Contains out "STATE              : 4  RUNNING" = false →
            strings_Contains out "STATE              : 1  STOPPED" = false →
            strings_Contains out "STATE              : 7  PAUSED" = true →
            GetServiceStatus runErr out = ("Paused", none))
        ∧ (strings_Contains out "STATE              : 4  RUNNING" = false →
            strings_Contains out "STATE              : 1  STOPPED" = false →
            strings_Contains out "STATE              : 7  PAUSED" = false →
            GetServiceStatus runErr out = ("", some errUndetermined)))
    ∧ ((GetServiceStatus runErr out).2 = none →
        (GetServiceStatus runErr out).1 = "Running" ∨ (GetServiceStatus runErr out).1 = "Stopped"
        ∨ (GetServiceStatus runErr out).1 = "Paused"
        ∨ (GetServiceStatus runErr out).1 = "NotInstalled")
    ∧ GetServiceStatus none scRunning = ("Running", none)
    ∧ GetServiceStatus (some exitStatus1060) scNotInstalled = ("NotInstalled", none)
    ∧ GetServiceStatus (some exitStatus1060) "Access is denied." = ("", some exitStatus1060)
    ∧ GetServiceStatus none "" = ("", some errUndetermined) := by
  refine ⟨?_, ?_, ?_, by decide, by decide, by decide, by decide⟩
  · intro err he
    subst he
    constructor
    · intro h
      simp [GetServiceStatus, h, StatusNotInstalled]
    · intro h
      simp [GetServiceStatus, h]
  · intro he
    subst he
    refine ⟨?_, ?_, ?_, ?_⟩
    · intro h
      simp [GetServiceStatus, h, StatusRunning]
    · intro h1 h2
      simp [GetServiceStatus, h1, h2, StatusStopped]
    · intro h1 h2 h3
      simp [GetServiceStatus, h1, h2, h3, StatusPaused]
    · intro h1 h2 h3
      simp [GetServiceStatus, h1, h2, h3]
  · intro h
    unfold GetServiceStatus at h ⊢
    cases runErr with
    | some err =>
      simp only at h ⊢
      split at h
      · rename_i hc
        simp [hc, StatusNotInstalled]
      · simp at h
    | none =>
      simp only at h ⊢
      split at h
      · rename_i hc
        simp [hc, StatusRunning]
      · rename_i hc
        split at h
        · rename_i hc2
          simp [hc, hc2, StatusStopped]
        · rename_i hc2
          split at h
          · rename_i hc3
            simp [hc, hc2, hc3, StatusPaused]
          · simp at h

theorem FPutObject_fail_objects (fs : LocalFS) (o : Oracle) (k p : String) (s : State)
    (err : GoError) (h : (FPutObject fs o k p s).2 = some err) :
    (FPutObject fs o k p s).1.objects = s.objects := by
  unfold FPutObject at h ⊢
  cases hS : fs.Stat p with
  | error e => rfl
  | ok info =>
    rw [hS] at h
    by_cases hd : info.IsDir = true
    · simp [hd, State.issue]
    · cases ho : o s.tick with
      | fail e => simp [hd, State.issue]
      | ok t => simp [hd, ho] at h

/-- C16. `RenameFile(old, new, newFilePath)` uploads the file under the new key and
then deletes the old key.  When the upload fails it returns that error, the
upload is the only call, and the bucket (with it the old object) is as before;
when the upload succeeds and the deletion fails it returns the deletion's error
after the two calls; it returns `nil` exactly when both succeed, and then the
two calls were the upload and the deletion, in this order. -/
theorem C16_RenameFile (fs : LocalFS) (o : Oracle)
    (oldRelativePath newRelativePath newFilePath : String) (s : State) :
    (∀ err, (UploadFile fs o newRelativePath newFilePath s).2 = some err →
        (RenameFile fs o oldRelativePath newRelativePath newFilePath s).2 = some err
        ∧ (RenameFile fs o oldRelativePath newRelativePath newFilePath s).1.trace
            = s.trace ++ [Call.FPutObject newRelativePath newFilePath]
        ∧ (RenameFile fs o oldRelativePath newRelativePath newFilePath s).1.objects
            = s.objects)
    ∧ ((UploadFile fs o newRelativePath newFilePath s).2 = none →
        (RenameFile fs o oldRelativePath newRelativePath newFilePath s).2
            = (DeleteFile o oldRelativePath
                (UploadFile fs o newRelativePath newFilePath s).1).2
        ∧ (RenameFile fs o oldRelativePath newRelativePath newFilePath s).1.trace
            = s.trace ++ [Call.FPutObject newRelativePath newFilePath,
                          Call.RemoveObject oldRelativePath])
    ∧ ((RenameFile fs o oldRelativePath newRelativePath newFilePath s).2 = none
        ↔ ((UploadFile fs o newRelativePath newFilePath s).2 = none
            ∧ (DeleteFile o oldRelativePath
                (UploadFile fs o newRelativePath newFilePath s).1).2 = none))
    ∧ (RenameFile fsRenamed firstFails "a.txt" "b.txt" "/data/b.txt" stateWithA).1.trace
        = [Call.FPutObject "b.txt" "/data/b.txt"]
    ∧ (RenameFile fsRenamed firstFails "a.txt" "b.txt" "/data/b.txt" stateWithA).1.objects
        = [{ Key := "a.txt", Size := 3, LastModified := 30 }]
    ∧ (RenameFile fsRenamed (allOk 1000) "a.txt" "b.txt" "/data/b.txt" stateWithA).1.objects
        = [{ Key := "b.txt", Size := 3, LastModified := 1000 }]
    ∧ (RenameFile fsRenamed (allOk 1000) "a.txt" "b.txt" "/data/b.txt" stateWithA).2
        = none
    ∧ (RenameFile fsRenamed secondFails "a.txt" "b.txt" "/data/b.txt" stateWithA).2
        = some { Code := "SlowDown", NotExist := false, Message := "slow down" }
    ∧ (RenameFile fsRenamed secondFails "a.txt" "b.txt" "/data/b.txt" stateWithA).1.objects
        = [{ Key := "b.txt", Size := 3, LastModified := 1000 },
           { Key := "a.txt", Size := 3, LastModified := 30 }] := by
  have hup := FPutObject_trace fs o newRelativePath newFilePath s
  refine ⟨?_, ?_, ?_, by decide, by decide, by decide, by decide, by decide, by decide⟩
  · intro err h
    have hob := FPutObject_fail_objects fs o newRelativePath newFilePath s err h
    unfold RenameFile
    unfold UploadFile at h ⊢
    cases hU : FPutObject fs o newRelativePath newFilePath s with
    | mk s1 r =>
      rw [hU] at h hup hob
      simp only at h hup hob
      subst h
      exact ⟨rfl, hup, hob⟩
  · intro h
    unfold RenameFile
    unfold UploadFile at h ⊢
    cases hU : FPutObject fs o newRelativePath newFilePath s with
    | mk s1 r =>
      rw [hU] at h hup
      simp only at h hup
      subst h
      simp only
      have hdel := RemoveObject_trace o oldRelativePath s1
      unfold DeleteFile
      cases hD : RemoveObject o oldRelativePath s1 with
      | mk s2 r2 =>
        rw [hD] at hdel
        simp only at hdel
        cases r2 <;> simp [hdel, hup]
  · unfold RenameFile
    cases hU : UploadFile fs o newRelativePath newFilePath s with
    | mk s1 r =>
      cases r with
      | some err => simp
      | none =>
        simp only [true_and]
        cases hD : DeleteFile o oldRelativePath s1 with
        | mk s2 r2 => cases r2 <;> simp

/-! ## The event handler: at most one action -/

theorem core_eq_iff (s t : State) :
    s.core = t.core
      ↔ s.objects = t.objects ∧ s.watched = t.watched ∧ s.tick = t.tick ∧ s.trace = t.trace := by
  simp [State.core]

@[simp] theorem logln_core (s : State) (l : String) : (s.logln l).core = s.core := rfl

@[simp] theorem logged_core (r : State × Option GoError) (msg : GoError → String) :
    (logged r msg).core = r.1.core := by
  rcases r with ⟨s1, _ | e⟩ <;> rfl

theorem FPutObject_core (fs : LocalFS) (o : Oracle) (k p : String) (s t : State)
    (h : s.core = t.core) :
    (FPutObject fs o k p s).1.core = (FPutObject fs o k p t).1.core := by
  obtain ⟨h1, h2, h3, h4⟩ := (core_eq_iff s t).1 h
  unfold FPutObject
  simp only [State.issue, h1, h2, h3, h4]
  cases fs.Stat p with
  | error e => rfl
  | ok info =>
    by_cases hd : info.IsDir = true
    · simp only [hd, if_true]
      rfl
    · simp only [hd, if_false]
      cases o t.tick <;> rfl

theorem RemoveObject_core (o : Oracle) (k : String) (s t : State) (h : s.core = t.core) :
    (RemoveObject o k s).1.core = (RemoveObject o k t).1.core := by
  obtain ⟨h1, h2, h3, h4⟩ := (core_eq_iff s t).1 h
  unfold RemoveObject
  simp only [State.issue, h1, h2, h3, h4]
  cases o t.tick <;> rfl

theorem WatcherAdd_core (o : Oracle) (p : String) (s t : State) (h : s.core = t.core) :
    (WatcherAdd o p s).1.core = (WatcherAdd o p t).1.core := by
  obtain ⟨h1, h2, h3, h4⟩ := (core_eq_iff s t).1 h
  unfold WatcherAdd
  simp only [State.issue, h1, h2, h3, h4]
  cases o t.tick <;> rfl

theorem deleteListed_core (o : Oracle) (rp : String) (entries : List ObjectInfo)
    (s t : State) (h : s.core = t.core) :
    (deleteListed o rp entries s).core = (deleteListed o rp entries t).core := by
  induction entries generalizing s t with
  | nil => exact h
  | cons ob rest ih =>
    unfold deleteListed
    cases hE : ob.Err with
    | some err => exact ih _ _ (by simpa using h)
    | none =>
      simp only
      have hc := RemoveObject_core o ob.Key s t h
      unfold DeleteFile
      cases hS : RemoveObject o ob.Key s with
      | mk s1 r1 =>
        cases hT : RemoveObject o ob.Key t with
        | mk t1 r2 =>
          rw [hS, hT] at hc
          simp only at hc
          cases r1 <;> cases r2 <;> exact ih _ _ (by simpa using hc)

theorem DeleteDirectory_core (o : Oracle) (rp : String) (s t : State) (h : s.core = t.core) :
    (DeleteDirectory o rp s).1.core = (DeleteDirectory o rp t).1.core := by
  obtain ⟨h1, h2, h3, h4⟩ := (core_eq_iff s t).1 h
  unfold DeleteDirectory
  simp only
  rw [ListObjects_listing_congr o (rp ++ "/") s t h1 h3]
  apply deleteListed_core
  unfold ListObjects
  simp only [State.issue, h3]
  cases o t.tick <;> simp [State.core, h1, h2, h4]

/-- A Renamed event for a path that is a directory when the event is handled. -/
theorem handleEvent_rename_dir (fs : LocalFS) (o : Oracle) (root : String) (ev : Event)
    (key : String) (s : State) (hrel : filepath_Rel root ev.Name = .ok key)
    (hc : ev.Op &&& Create ≠ Create) (hw : ev.Op &&& Write ≠ Write)
    (hr : ev.Op &&& Remove ≠ Remove) (hop : ev.Op &&& Rename = Rename)
    (hdir : isDir fs ev.Name = true) :
    handleEvent fs o root ev s =
      logged (DeleteDirectory o key (s.logln ("Renamed file or directory: " ++ ev.Name)))
        (fun err => "Failed to delete old directory after rename: " ++ err.Message) := by
  unfold handleEvent
  simp [hrel, hc, hw, hr, hop, hdir, logged]

/-- An event that carries none of the four bits: nothing happens. -/
theorem handleEvent_no_bit (fs : LocalFS) (o : Oracle) (root : String) (ev : Event)
    (key : String) (s : State) (hrel : filepath_Rel root ev.Name = .ok key)
    (hc : ev.Op &&& Create ≠ Create) (hw : ev.Op &&& Write ≠ Write)
    (hr : ev.Op &&& Remove ≠ Remove) (hn : ev.Op &&& Rename ≠ Rename) :
    handleEvent fs o root ev s = s := by
  unfold handleEvent
  simp [hrel, hc, hw, hr, hn]

/-- The action the specification prescribes, by cases. -/
theorem specAction_cases (fs : LocalFS) (root : String) (ev : Event) (key : String)
    (hrel : filepath_Rel root ev.Name = .ok key) :
    (ev.Op &&& Create = Create →
      specAction fs root ev
        = if isDir fs ev.Name then some (.WatcherAdd ev.Name)
          else some (.CreateFile key ev.Name))
    ∧ (ev.Op &&& Create ≠ Create → ev.Op &&& Write = Write →
      specAction fs root ev
        = if isDir fs ev.Name then none else some (.UpdateFile key ev.Name))
    ∧ (ev.Op &&& Create ≠ Create → ev.Op &&& Write ≠ Write →
        (ev.Op &&& Remove = Remove ∨ ev.Op &&& Rename = Rename) →
      specAction fs root ev
        = if isDir fs ev.Name then some (.DeleteDirectory key) else some (.DeleteFile key))
    ∧ (ev.Op &&& Create ≠ Create → ev.Op &&& Write ≠ Write → ev.Op &&& Remove ≠ Remove →
        ev.Op &&& Rename ≠ Rename → specAction fs root ev = none) := by
  have wc : Write ≠ Create := by decide
  have rc : Remove ≠ Create := by decide
  have rw_ : Remove ≠ Write := by decide
  have nc : Rename ≠ Create := by decide
  have nw : Rename ≠ Write := by decide
  refine ⟨?_, ?_, ?_, ?_⟩
  · intro hc
    simp [specAction, specFirstOp, hrel, hc]
  · intro hc hw
    simp [specAction, specFirstOp, hrel, hc, hw, wc]
  · intro hc hw hor
    by_cases hr : ev.Op &&& Remove = Remove
    · simp [specAction, specFirstOp, hrel, hc, hw, hr, rc, rw_]
    · have hn : ev.Op &&& Rename = Rename := by
        rcases hor with h | h
        · exact absurd h hr
        · exact h
      simp [specAction, specFirstOp, hrel, hc, hw, hr, hn, nc, nw]
  · intro hc hw hr hn
    simp [specAction, specFirstOp, hrel, hc, hw, hr, hn]

/-- C17. For every event, whatever operation bits it carries, what `handleEvent`
does to the bucket, the watch set and the sequence of calls is what performing
at most one action does, namely the action `specAction` names: none when the
relative path cannot be computed or the event carries none of the bits Create,
Write, Remove, Rename; otherwise the action of the first of these bits that is
set (upload for Create and Write on a file, watch for Create on a directory,
nothing for Write on a directory, `DeleteFile` or `DeleteDirectory` for Remove and
Rename).  An event with the Create and Write bits uploads once; an event with
the Chmod bit only does nothing. -/
theorem C17_at_most_one_action (fs : LocalFS) (o : Oracle) (root : String) (ev : Event)
    (s : State) :
    (handleEvent fs o root ev s).core
      = (match specAction fs root ev with
         | none => s.core
         | some a => (performAction fs o s a).1.core)
    ∧ (handleEvent (fsTodo 10 100) (allOk 1000) "/data"
          ⟨"/data/notes/todo.txt", Create ||| Write⟩ State.empty).trace
        = [Call.FPutObject "notes/todo.txt" "/data/notes/todo.txt"]
    ∧ specAction (fsTodo 10 100) "/data" ⟨"/data/notes/todo.txt", Create ||| Write⟩
        = some (.CreateFile "notes/todo.txt" "/data/notes/todo.txt")
    ∧ specAction (fsTodo 10 100) "/data" ⟨"/data/notes/todo.txt", Write ||| Remove ||| Rename⟩
        = some (.UpdateFile "notes/todo.txt" "/data/notes/todo.txt")
    ∧ handleEvent (fsTodo 10 100) (allOk 1000) "/data" ⟨"/data/notes/todo.txt", Chmod⟩
          stateWithTodo = stateWithTodo
    ∧ specAction (fsTodo 10 100) "/data" ⟨"/data/notes/todo.txt", Chmod⟩ = none := by
  refine ⟨?_, by decide, by decide, by decide, by decide, by decide⟩
  cases hrel : filepath_Rel root ev.Name with
  | error err =>
    rw [handleEvent_rel_error fs o root ev err s hrel]
    simp [specAction, hrel]
  | ok key =>
    obtain ⟨h1, h2, h3, h4⟩ := specAction_cases fs root ev key hrel
    by_cases hc : ev.Op &&& Create = Create
    · rw [h1 hc]
      cases hd : isDir fs ev.Name with
      | true =>
        rw [handleEvent_create_dir fs o root ev key s hrel hc hd]
        simp only [logged_core, if_true, performAction]
        exact WatcherAdd_core o ev.Name _ _ (logln_core s _)
      | false =>
        rw [handleEvent_create_file fs o root ev key s hrel hc hd]
        simp only [logged_core, Bool.false_eq_true, if_false, performAction, CreateFile,
          UploadFile]
        exact FPutObject_core fs o key ev.Name _ _ (logln_core s _)
    · by_cases hw : ev.Op &&& Write = Write
      · rw [h2 hc hw]
        cases hd : isDir fs ev.Name with
        | true =>
          rw [handleEvent_write_dir fs o root ev key s hrel hc hw hd]
          simp
        | false =>
          rw [handleEvent_write_file fs o root ev key s hrel hc hw hd]
          simp only [logged_core, Bool.false_eq_true, if_false, performAction, UpdateFile,
            UploadFile]
          exact FPutObject_core fs o key ev.Name _ _ (logln_core s _)
      · by_cases hr : ev.Op &&& Remove = Remove
        · rw [h3 hc hw (Or.inl hr)]
          cases hd : isDir fs ev.Name with
          | true =>
            rw [handleEvent_remove_dir fs o root ev key s hrel hc hw hr hd]
            simp only [logged_core, if_true, performAction]
            exact DeleteDirectory_core o key _ _ (logln_core s _)
          | false =>
            rw [handleEvent_remove_file fs o root ev key s hrel hc hw hr hd]
            simp only [logged_core, Bool.false_eq_true, if_false, performAction, DeleteFile]
            exact RemoveObject_core o key _ _ (logln_core s _)
        · by_cases hn : ev.Op &&& Rename = Rename
          · rw [h3 hc hw (Or.inr hn)]
            cases hd : isDir fs ev.Name with
            | true =>
              rw [handleEvent_rename_dir fs o root ev key s hrel hc hw hr hn hd]
              simp only [logged_core, if_true, performAction]
              exact DeleteDirectory_core o key _ _ (logln_core s _)
            | false =>
              rw [handleEvent_rename_file fs o root ev key s hrel hc hw hr hn hd]
              simp only [logged_core, Bool.false_eq_true, if_false, performAction, DeleteFile]
              exact RemoveObject_core o key _ _ (logln_core s _)
          · rw [h4 hc hw hr hn, handleEvent_no_bit fs o root ev key s hrel hc hw hr hn]

/-! ## The delete phase after a failed walk -/

/-- A key below a clean root under which nothing exists has no local path. -/
theorem missing_below_absent_root (fs : LocalFS) (rs ks : List (List Char))
    (hrs : ∀ e ∈ rs, regularElem e) (hks : ∀ e ∈ ks, regularElem e) (hne : ks ≠ [])
    (habsent : ∀ p : List (List Char), ∃ err, fs.Stat (absPath (rs ++ p)) = .error err
      ∧ err.NotExist = true) :
    localPathMissing fs (absPath rs) (relPath ks) = true := by
  unfold localPathMissing
  rw [(rel_join_under rs ks hrs hks hne).2]
  obtain ⟨err, h1, h2⟩ := habsent ks
  rw [h1]
  exact h2

/-- C18, refuted as stated. The watch root `/data` does not exist and the bucket
holds `../other/x.txt` and `notes/todo.txt`: the cycle lists both keys and
issues `DeleteFile` for `notes/todo.txt` only, because the local path of the
other key, `filepath.Join("/data", "../other/x.txt") = "/other/x.txt"`, exists. -/
theorem C18_key_outside_missing_root_kept :
    fsRootGone.Stat "/data" = .error errNotExist
    ∧ (filepath_Walk (walkFn fsRootGone (allOk 1000) "/data") (fsRootGone.Walk "/data")
        stateOutsideKey).2 = some errNotExist
    ∧ (ListObjects (allOk 1000) "" stateOutsideKey).2
        = [{ Key := "../other/x.txt", Size := 5, LastModified := 1000, Err := none },
           { Key := "notes/todo.txt", Size := 10, LastModified := 100, Err := none }]
    ∧ filepath_Join "/data" "../other/x.txt" = "/other/x.txt"
    ∧ (syncCycle fsRootGone (allOk 1000) "/data" stateOutsideKey).trace
        = [Call.ListObjects "", Call.RemoveObject "notes/todo.txt"]
    ∧ (syncCycle fsRootGone (allOk 1000) "/data" stateOutsideKey).objects
        = [{ Key := "../other/x.txt", Size := 5, LastModified := 1000 }] := by
  decide

/-- C18, amended. In every sync cycle the delete phase runs whatever the walk
returned: the calls of the cycle are those of the walk, the listing of the
whole bucket and one `DeleteFile` for every listed key whose local path does
not exist, so that after a walk that ended with an error every such key is
still deleted (and the failure of the walk is logged).  In particular, when the
watch root does not exist (the walk visits the root alone, with an error), the
cycle uploads nothing, and it issues `DeleteFile` for every listed key whose
local path does not exist; when nothing exists at or below the root these are
all the keys that name a path below the root (clean relative keys), and the
whole bucket when every key is such a key. -/
theorem C18_delete_phase_after_failed_walk (fs : LocalFS) (o : Oracle) (root : String)
    (s : State) :
    (syncCycle fs o root s).trace
        = (filepath_Walk (walkFn fs o root) (fs.Walk root)
            (s.eloginfo "Starting full sync cycle")).1.trace
          ++ [Call.ListObjects ""]
          ++ specDeletions fs root
              (ListObjects o ""
                (filepath_Walk (walkFn fs o root) (fs.Walk root)
                  (s.eloginfo "Starting full sync cycle")).1).2
    ∧ (∀ err, (filepath_Walk (walkFn fs o root) (fs.Walk root)
            (s.eloginfo "Starting full sync cycle")).2 = some err →
        ("Failed to walk directory: " ++ err.Message) ∈ (syncCycle fs o root s).log
        ∧ ∀ ob ∈ (ListObjects o ""
              (filepath_Walk (walkFn fs o root) (fs.Walk root)
                (s.eloginfo "Starting full sync cycle")).1).2,
            ob.Err = none → localPathMissing fs root ob.Key = true →
            Call.RemoveObject ob.Key ∈ (syncCycle fs o root s).trace)
    ∧ (∀ err, fs.Walk root = [⟨root, .error err⟩] →
        (∀ c ∈ newCalls s (syncCycle fs o root s), isUpload c = false)
        ∧ newCalls s (syncCycle fs o root s)
            = Call.ListObjects "" :: specDeletions fs root (ListObjects o "" s).2
        ∧ (∀ t, o s.tick = .ok t →
            (∀ ob ∈ s.objects, localPathMissing fs root ob.Key = true) →
            newCalls s (syncCycle fs o root s)
              = Call.ListObjects "" :: s.objects.map (fun ob => Call.RemoveObject ob.Key)))
    ∧ (∀ rs ks : List (List Char), (∀ e ∈ rs, regularElem e) → (∀ e ∈ ks, regularElem e) →
        ks ≠ [] →
        (∀ p : List (List Char), ∃ err, fs.Stat (absPath (rs ++ p)) = .error err
          ∧ err.NotExist = true) →
        localPathMissing fs (absPath rs) (relPath ks) = true)
    ∧ (syncCycle fsNoRoot (allOk 1000) "/data" stateDir).trace
        = [Call.ListObjects "", Call.RemoveObject "dir/a", Call.RemoveObject "dirX/f",
           Call.RemoveObject "dir/b", Call.RemoveObject "dir.txt"]
    ∧ (syncCycle fsNoRoot (allOk 1000) "/data" stateDir).objects = [] := by
  have htrace := syncCycle_trace fs o root s
  refine ⟨htrace, ?_, ?_, fun rs ks hrs hks hne hab =>
    missing_below_absent_root fs rs ks hrs hks hne hab, by decide, by decide⟩
  · intro err herr
    constructor
    · unfold syncCycle
      simp only
      apply deleteMissing_log
      have hlog : ("Failed to walk directory: " ++ err.Message)
          ∈ (walkReport (filepath_Walk (walkFn fs o root) (fs.Walk root)
              (s.eloginfo "Starting full sync cycle"))).log := by
        unfold walkReport
        rw [herr]
        simp [State.logln, State.eloginfo]
      unfold ListObjects
      cases o (walkReport (filepath_Walk (walkFn fs o root) (fs.Walk root)
        (s.eloginfo "Starting full sync cycle"))).tick <;> simpa [State.issue] using hlog
    · intro ob hob hE hm
      rw [htrace]
      apply List.mem_append_right
      simp only [specDeletions, List.mem_map, List.mem_filter, Bool.and_eq_true]
      exact ⟨ob, ⟨hob, by simp [hE], hm⟩, rfl⟩
  · intro err hwalk
    have hW : filepath_Walk (walkFn fs o root) (fs.Walk root)
        (s.eloginfo "Starting full sync cycle")
        = (s.eloginfo "Starting full sync cycle", some err) := by
      rw [hwalk]
      simp [filepath_Walk, walkFn]
    have hcalls : newCalls s (syncCycle fs o root s)
        = Call.ListObjects "" :: specDeletions fs root (ListObjects o "" s).2 := by
      unfold newCalls
      rw [htrace, hW]
      simp only [eloginfo_trace, List.append_assoc, List.drop_left, List.singleton_append]
      rw [ListObjects_listing_congr o "" (s.eloginfo "Starting full sync cycle") s rfl rfl]
    refine ⟨?_, hcalls, ?_⟩
    · intro c hc
      rw [hcalls] at hc
      rcases List.mem_cons.1 hc with h | h
      · rw [h]
        rfl
      · simp only [specDeletions, List.mem_map] at h
        obtain ⟨ob, _, hk⟩ := h
        rw [← hk]
        rfl
    · intro t ht hall
      rw [hcalls, ListObjects_all o s t ht]
      congr 1
      unfold specDeletions
      rw [List.filter_eq_self.2, List.map_map]
      · rfl
      · intro x hx
        obtain ⟨ob, hob, rfl⟩ := List.mem_map.1 hx
        simp [RemoteObject.info, hall ob hob]

/-! ## The configuration in the registry -/

/-- A value that was set is read back. -/
theorem GetStringValue_set_same (reg : Registry) (name value : String) :
    GetStringValue (SetStringValue reg name value) name = .ok value := by
  simp [GetStringValue, SetStringValue]

/-- Setting one name leaves the value of every other name as it was. -/
theorem GetStringValue_set_other (reg : Registry) (name other value : String)
    (hne : name ≠ other) :
    GetStringValue (SetStringValue reg other value) name = GetStringValue reg name := by
  have hfind : ∀ l : Registry,
      (l.filter (fun kv => kv.1 != other)).find? (fun kv => kv.1 == name)
        = l.find? (fun kv => kv.1 == name) := by
    intro l
    induction l with
    | nil => rfl
    | cons kv rest ih =>
      by_cases h1 : kv.1 = other
      · have h2 : (kv.1 == name) = false := by
          simpa using fun h => hne (h.symm.trans h1)
        have h3 : (kv.1 != other) = false := by simp [h1]
        rw [List.filter_cons, h3, List.find?_cons, h2]
        simpa using ih
      · have h3 : (kv.1 != other) = true := by simp [h1]
        rw [List.filter_cons, h3]
        simp only [if_true, List.find?_cons, ih]
  have hne2 : (other == name) = false := by simpa using fun h => hne h.symm
  simp only [GetStringValue, SetStringValue, List.find?_cons, hne2, hfind]

/-- What `SubmitForm` leaves in the registry when every registry call succeeds. -/
theorem SubmitForm_registryOk (config : Config) (reg : Registry) :
    SubmitForm registryOk config reg
      = some (SetStringValue (SetStringValue (SetStringValue (SetStringValue (SetStringValue
          (SetStringValue (SetStringValue reg
            "MINISYNC_BACKFOLDER" config.BackupFolder)
            "MINISYNC_LOGFOLDER" config.LogFolder)
            "MINISYNC_MINIO_ENDPOINT" config.MinioEndpoint)
            "MINISYNC_MINIO_BUCKETNAME" config.MinioBucketName)
            "MINISYNC_MINIO_BACKUPFREQUENCYSECONDS" config.BackupFrequencySeconds)
            "MINISYNC_MINIO_ACCESS_KEY" config.MinioKey)
            "MINISYNC_MINIO_SECRET_KEY" config.MinioSecret) := by
  rfl

/-- C19. The configuration does not make the round trip for the backup folder:
`SubmitForm(config)` stores `config.BackupFolder` under the name
`MINISYNC_BACKFOLDER`, so that after it, with every registry call succeeding,
`MINISYNC_BACKUPFOLDER` (the name the service reads) holds what it held before,
and on a registry without that name `fetchEnvironmentVariable` returns an
error for it; the six other variables hold their fields of `config`. -/
theorem C19_backup_folder_not_stored (config : Config) (reg : Registry) :
    (∃ reg1, SubmitForm registryOk config reg = some reg1
      ∧ fetchEnvironmentVariable registryOk "MINISYNC_BACKUPFOLDER" reg1
          = fetchEnvironmentVariable registryOk "MINISYNC_BACKUPFOLDER" reg
      ∧ fetchEnvironmentVariable registryOk "MINISYNC_BACKFOLDER" reg1
          = some (.ok config.BackupFolder)
      ∧ (serviceVariables.tail.map (fun name => fetchEnvironmentVariable registryOk name reg1))
          = (configFields config).tail.map (fun v => some (.ok v)))
    ∧ (∃ reg1, SubmitForm registryOk sampleConfig [] = some reg1
        ∧ fetchEnvironmentVariable registryOk "MINISYNC_BACKUPFOLDER" reg1
            = some (.error
                { Code := "", NotExist := true,
                  Message := "failed to fetch environment variable MINISYNC_BACKUPFOLDER: "
                    ++ "The system cannot find the file specified." })
        ∧ fetchEnvironmentVariable registryOk "MINISYNC_BACKUPFOLDER" reg1
            ≠ some (.ok sampleConfig.BackupFolder)
        ∧ reg1 = [("MINISYNC_MINIO_SECRET_KEY", "secret"), ("MINISYNC_MINIO_ACCESS_KEY", "key"),
                  ("MINISYNC_MINIO_BACKUPFREQUENCYSECONDS", "60"),
                  ("MINISYNC_MINIO_BUCKETNAME", "backup"),
                  ("MINISYNC_MINIO_ENDPOINT", "localhost:9000"),
                  ("MINISYNC_LOGFOLDER", "C:\\logs"), ("MINISYNC_BACKFOLDER", "C:\\data")]) := by
  constructor
  · refine ⟨_, SubmitForm_registryOk config reg, ?_, ?_, ?_⟩
    · simp only [fetchEnvironmentVariable, registryOk]
      rw [GetStringValue_set_other _ _ _ _ (by decide), GetStringValue_set_other _ _ _ _ (by decide),
        GetStringValue_set_other _ _ _ _ (by decide), GetStringValue_set_other _ _ _ _ (by decide),
        GetStringValue_set_other _ _ _ _ (by decide), GetStringValue_set_other _ _ _ _ (by decide),
        GetStringValue_set_other _ _ _ _ (by decide)]
    · simp only [fetchEnvironmentVariable, registryOk]
      rw [GetStringValue_set_other _ _ _ _ (by decide), GetStringValue_set_other _ _ _ _ (by decide),
        GetStringValue_set_other _ _ _ _ (by decide), GetStringValue_set_other _ _ _ _ (by decide),
        GetStringValue_set_other _ _ _ _ (by decide), GetStringValue_set_other _ _ _ _ (by decide),
        GetStringValue_set_same]
    · simp only [serviceVariables, configFields, List.tail_cons, List.map_cons, List.map_nil,
        fetchEnvironmentVariable, registryOk]
      rw [GetStringValue_set_same]
      rw [GetStringValue_set_other _ "MINISYNC_MINIO_ACCESS_KEY" _ _ (by decide),
        GetStringValue_set_same]
      rw [GetStringValue_set_other _ "MINISYNC_MINIO_BACKUPFREQUENCYSECONDS" _ _ (by decide),
        GetStringValue_set_other _ "MINISYNC_MINIO_BACKUPFREQUENCYSECONDS" _ _ (by decide),
        GetStringValue_set_same]
      rw [GetStringValue_set_other _ "MINISYNC_MINIO_BUCKETNAME" _ _ (by decide),
        GetStringValue_set_other _ "MINISYNC_MINIO_BUCKETNAME" _ _ (by decide),
        GetStringValue_set_other _ "MINISYNC_MINIO_BUCKETNAME" _ _ (by decide),
        GetStringValue_set_same]
      rw [GetStringValue_set_other _ "MINISYNC_MINIO_ENDPOINT" _ _ (by decide),
        GetStringValue_set_other _ "MINISYNC_MINIO_ENDPOINT" _ _ (by decide),
        GetStringValue_set_other _ "MINISYNC_MINIO_ENDPOINT" _ _ (by decide),
        GetStringValue_set_other _ "MINISYNC_MINIO_ENDPOINT" _ _ (by decide),
        GetStringValue_set_same]
      rw [GetStringValue_set_other _ "MINISYNC_LOGFOLDER" _ _ (by decide),
        GetStringValue_set_other _ "MINISYNC_LOGFOLDER" _ _ (by decide),
        GetStringValue_set_other _ "MINISYNC_LOGFOLDER" _ _ (by decide),
        GetStringValue_set_other _ "MINISYNC_LOGFOLDER" _ _ (by decide),
        GetStringValue_set_other _ "MINISYNC_LOGFOLDER" _ _ (by decide),
        GetStringValue_set_same]
  · exact ⟨_, rfl, by decide, by decide, by decide⟩

end Minisync
